import Mathlib

/-!
# ArangoDB Go driver (v2): view handles and ArangoSearch analyzer properties

A shallow embedding of

* `v2/arangodb/view_arango_search_impl.go` and `v2/arangodb/view_search_alias_impl.go`
  (the `Properties` / `SetProperties` operations of the two view handles), and
* `v2/arangodb/arango_search.go` (the analyzer property structs and their JSON field tags).

Part 1 models the view handles.  The connection is an external collaborator: it is a
value that answers requests and records the calls made on it.
-/

namespace GoDriver

/-! ## Collaborators of the view handles -/

/-- Modelled from the spec: `shared.ResponseStruct`, the generic status wrapper of every
response (`error: bool`, `code: int`, optional `errorNum` / `errorMessage`); its declaration is
not part of the sources at hand. -/
structure ResponseStruct where
  Error : Bool
  Code : Int
  ErrorNum : Option Int
  ErrorMessage : Option String
deriving DecidableEq, Repr

/-- Modelled from the spec: `shared.ArangoError`, the API error carrying
`{code, errorNum, errorMessage}`; its declaration is not part of the sources at hand. -/
structure ArangoError where
  Code : Int
  ErrorNum : Option Int
  ErrorMessage : Option String
deriving DecidableEq, Repr

/-- Modelled from the spec: `ResponseStruct.AsArangoErrorWithCode`, "an error value constructed
from the code plus a structured error body (`{errorNum, errorMessage}` from the server)"; the
method is not part of the sources at hand. -/
def ResponseStruct.AsArangoErrorWithCode (r : ResponseStruct) (code : Int) : ArangoError :=
  { Code := code, ErrorNum := r.ErrorNum, ErrorMessage := r.ErrorMessage }

/-- Non-nil values of Go's `error` interface that occur in the view handles.  A nil `error`
is `none` of `Option GoError`. -/
inductive GoError where
  /-- an error reported by the connection (network / IO failure, undecodable body, ...) -/
  | transport (msg : String)
  /-- the result of `errors.WithStack` on a non-nil error: the cause plus a stack trace -/
  | withStack (cause : GoError)
  /-- a `shared.ArangoError` value used as an `error` -/
  | arango (e : ArangoError)
deriving DecidableEq, Repr

/-- The cause of a wrapped error, as `errors.Unwrap` / `errors.Cause` report it. -/
def GoError.Unwrap : GoError → Option GoError
  | .withStack cause => some cause
  | _ => none

/-- Whether the error is an API error built from a status code. -/
def GoError.isArango : GoError → Bool
  | .arango _ => true
  | _ => false

/-- `errors.WithStack` of `github.com/pkg/errors`: nil stays nil, any other error is wrapped. -/
def errors.WithStack : Option GoError → Option GoError
  | none => none
  | some e => some (.withStack e)

/-- `http.StatusOK`. -/
def http.StatusOK : Int := 200

/-- `http.MethodGet` and `http.MethodPut`. -/
inductive Method where
  | GET
  | PUT
deriving DecidableEq, Repr

/-- One call made on the connection: verb, URL and the request body, if any. -/
structure Request (B : Type) where
  method : Method
  url : String
  body : Option B
deriving DecidableEq, Repr

/-- What a call on the connection gives back: the pair `(Response, error)` of the Go signature
together with the contents of the output value the caller passed by reference.  A call either
fails with a non-nil error (the response beside it may be nil, `none`, or carry a status code),
or answers with a nil error and a response that has a status code; in both cases the transport
may have written into the output. -/
inductive CallResult (T : Type) where
  | failed (output : T) (resp : Option Int) (err : GoError)
  | answered (output : T) (code : Int)
deriving DecidableEq, Repr

/-- The response envelope declared inside `Properties`: the generic status wrapper inlined with
the kind-specific properties payload. -/
structure PropertiesResponse (P : Type) where
  ResponseStruct : ResponseStruct
  Properties : P
deriving DecidableEq, Repr

/-- The connection as the view handles see it: how the transport answers a request whose output
is a properties envelope, how it answers one whose output is the bare status wrapper, and the
calls made so far (oldest first).  `P` is the type of the kind-specific properties. -/
structure Connection (P : Type) where
  answerProperties : Request P → CallResult (PropertiesResponse P)
  answerStatus : Request P → CallResult ResponseStruct
  calls : List (Request P)

/-- Modelled from the spec: `connection.CallGet`, one call with verb GET and no request body
(`Connection.Call(ctx, verb, url, responseTarget, requestBody?)`, "GET (no body)"); the function
is not part of the sources at hand.  Returns the call result and the connection afterwards. -/
def connection.CallGet {P : Type} (c : Connection P) (url : String) :
    CallResult (PropertiesResponse P) × Connection P :=
  let req : Request P := { method := .GET, url := url, body := none }
  (c.answerProperties req, { c with calls := c.calls ++ [req] })

/-- Modelled from the spec: `connection.CallPut`, one call with verb PUT and the given value as
request body ("PUT/POST (typed body)"); the function is not part of the sources at hand. -/
def connection.CallPut {P : Type} (c : Connection P) (url : String) (body : P) :
    CallResult ResponseStruct × Connection P :=
  let req : Request P := { method := .PUT, url := url, body := some body }
  (c.answerStatus req, { c with calls := c.calls ++ [req] })

/-- The owning database of a view handle: `db.url(parts...)` builds the database URL from path
segments (the method is not part of the sources at hand and is taken as given), and
`db.connection()` is the shared connection. -/
structure database (P : Type) where
  url : List String → String
  connection : Connection P

/-- The `view` struct embedded in both view handles: a name and the owning database. -/
structure view (P : Type) where
  name : String
  db : database P

/-! ## `view_arango_search_impl.go`

`ArangoSearchViewProperties` is declared outside the sources at hand; the handle is generic in
it.  `default` stands for the zero value `ArangoSearchViewProperties{}`. -/

section ArangoSearch

variable {ArangoSearchViewProperties : Type} [Inhabited ArangoSearchViewProperties]

/-- `viewArangoSearch` implements `ArangoSearchView`. -/
structure viewArangoSearch (ArangoSearchViewProperties : Type) where
  view : view ArangoSearchViewProperties

/-- `(*viewArangoSearch).Properties`: fetches extended information about the view.  Returns the
Go result pair and the connection afterwards. -/
def viewArangoSearch.Properties (v : viewArangoSearch ArangoSearchViewProperties) :
    (ArangoSearchViewProperties × Option GoError) × Connection ArangoSearchViewProperties :=
  let url := v.view.db.url ["_api", "view", v.view.name, "properties"]
  match connection.CallGet v.view.db.connection url with
  | (.failed _ _ err, c) => ((default, errors.WithStack (some err)), c)
  | (.answered response code, c) =>
    if code = http.StatusOK then
      ((response.Properties, none), c)
    else
      ((default, some (.arango (response.ResponseStruct.AsArangoErrorWithCode code))), c)

/-- `(*viewArangoSearch).SetProperties`: changes properties of the view. -/
def viewArangoSearch.SetProperties (v : viewArangoSearch ArangoSearchViewProperties)
    (options : ArangoSearchViewProperties) :
    Option GoError × Connection ArangoSearchViewProperties :=
  let url := v.view.db.url ["_api", "view", v.view.name, "properties"]
  match connection.CallPut v.view.db.connection url options with
  | (.failed _ _ err, c) => (errors.WithStack (some err), c)
  | (.answered response code, c) =>
    if code = http.StatusOK then
      (none, c)
    else
      (some (.arango (response.AsArangoErrorWithCode code)), c)

end ArangoSearch

/-! ## `view_search_alias_impl.go` -/

section ArangoSearchAlias

variable {ArangoSearchAliasViewProperties : Type} [Inhabited ArangoSearchAliasViewProperties]

/-- `viewArangoSearchAlias` implements the alias view. -/
structure viewArangoSearchAlias (ArangoSearchAliasViewProperties : Type) where
  view : view ArangoSearchAliasViewProperties

/-- `(*viewArangoSearchAlias).Properties`: fetches extended information about the view. -/
def viewArangoSearchAlias.Properties
    (v : viewArangoSearchAlias ArangoSearchAliasViewProperties) :
    (ArangoSearchAliasViewProperties × Option GoError) ×
      Connection ArangoSearchAliasViewProperties :=
  let url := v.view.db.url ["_api", "view", v.view.name, "properties"]
  match connection.CallGet v.view.db.connection url with
  | (.failed _ _ err, c) => ((default, errors.WithStack (some err)), c)
  | (.answered response code, c) =>
    if code = http.StatusOK then
      ((response.Properties, none), c)
    else
      ((default, some (.arango (response.ResponseStruct.AsArangoErrorWithCode code))), c)

/-- `(*viewArangoSearchAlias).SetProperties`: changes properties of the view. -/
def viewArangoSearchAlias.SetProperties
    (v : viewArangoSearchAlias ArangoSearchAliasViewProperties)
    (options : ArangoSearchAliasViewProperties) :
    Option GoError × Connection ArangoSearchAliasViewProperties :=
  let url := v.view.db.url ["_api", "view", v.view.name, "properties"]
  match connection.CallPut v.view.db.connection url options with
  | (.failed _ _ err, c) => (errors.WithStack (some err), c)
  | (.answered response code, c) =>
    if code = http.StatusOK then
      (none, c)
    else
      (some (.arango (response.AsArangoErrorWithCode code)), c)

end ArangoSearchAlias

/-! Concrete handles used to exercise the operations: the payload type is `String`, the
database URL joins the path segments with `/`, and the transport is given by one answer per
output kind. -/

/-- A database handle over a transport that gives fixed answers. -/
def exampleDatabase (get : CallResult (PropertiesResponse String))
    (put : CallResult ResponseStruct) : database String :=
  { url := fun parts => "/_db/_system/" ++ String.intercalate "/" parts,
    connection := { answerProperties := fun _ => get, answerStatus := fun _ => put, calls := [] } }

/-- A status wrapper as a successful response carries it. -/
def exampleStatus : ResponseStruct :=
  { Error := false, Code := 200, ErrorNum := none, ErrorMessage := none }

/-- A status wrapper as a "not found" response carries it. -/
def exampleNotFound : ResponseStruct :=
  { Error := true, Code := 404, ErrorNum := some 1203, ErrorMessage := some "view not found" }


/-! # Part 2: `arango_search.go` and its JSON wire form

The analyzer property structs are plain data with `encoding/json` field tags; the driver
encodes and decodes them with `json.Marshal` / `json.Unmarshal`.  The wire form is modelled as a
JSON value tree, and the two library functions as the tag-directed traversals they are.

Modelling conventions:

* a Go `string` is a text (valid UTF-8);
* `int64`, `uint64` (and `int`, taken at 64 bits) are integers within their range;
* `float64` is a finite binary64 bit pattern (`json.Marshal` rejects NaN and the infinities);
* a slice is `Option (List _)`: `none` is the nil slice, `some []` the empty non-nil slice;
* a pointer is `Option _`: `none` is nil.
-/

/-! ## Go scalars -/

/-- Go `int64`. -/
structure int64 where
  val : Int
  lo : -9223372036854775808 ≤ val
  hi : val ≤ 9223372036854775807
deriving DecidableEq, Repr

/-- Go `int`, at its 64-bit size. -/
abbrev int := int64

/-- Go `uint64`. -/
structure uint64 where
  val : Nat
  hi : val ≤ 18446744073709551615
deriving DecidableEq, Repr

/-- Go `float64`, finite values only: the IEEE 754 binary64 bit pattern, exponent field not
all ones.  NaN and the infinities, for which `json.Marshal` returns an error, are not values of
the model. -/
structure float64 where
  bits : Nat
  lt : bits < 18446744073709551616
  finite : bits / 4503599627370496 % 2048 ≠ 2047
deriving DecidableEq, Repr

/-- The `int64` with the given sign and magnitude, if it is in range (`strconv.ParseInt`). -/
def int64.ofLit (neg : Bool) (mag : Nat) : Option int64 :=
  let v : Int := if neg then -(mag : Int) else (mag : Int)
  if h : -9223372036854775808 ≤ v ∧ v ≤ 9223372036854775807 then some ⟨v, h.1, h.2⟩ else none

/-- The `uint64` with the given sign and magnitude, if there is one (`strconv.ParseUint`
rejects every literal with a minus sign). -/
def uint64.ofLit (neg : Bool) (mag : Nat) : Option uint64 :=
  if h : neg = false ∧ mag ≤ 18446744073709551615 then some ⟨mag, h.2⟩ else none

/-- The finite `float64` with the given bit pattern, if the pattern is one. -/
def float64.ofBits (b : Nat) : Option float64 :=
  if h : b < 18446744073709551616 ∧ b / 4503599627370496 % 2048 ≠ 2047 then
    some ⟨b, h.1, h.2⟩
  else none

/-- Number of binary digits of `n`, with `fuel` bounding the recursion. -/
def bitLengthAux : Nat → Nat → Nat
  | 0, _ => 0
  | fuel + 1, n => if n = 0 then 0 else bitLengthAux fuel (n / 2) + 1

/-- Number of binary digits of `n`. -/
def bitLength (n : Nat) : Nat := bitLengthAux n n

/-- The `float64` nearest to the integer with the given sign and magnitude, ties to even
(`strconv.ParseFloat` on an integer literal); `none` when the magnitude overflows. -/
def float64.ofLit (neg : Bool) (mag : Nat) : Option float64 :=
  let sign : Nat := if neg then 9223372036854775808 else 0
  if mag = 0 then float64.ofBits sign
  else
    let e := bitLength mag - 1
    let m : Nat :=
      if e ≤ 52 then mag * 2 ^ (52 - e)
      else
        let q := mag / 2 ^ (e - 52)
        let r := mag % 2 ^ (e - 52)
        let half := 2 ^ (e - 53)
        if r > half ∨ (r = half ∧ q % 2 = 1) then q + 1 else q
    let e2 := if m = 9007199254740992 then e + 1 else e
    let m2 := if m = 9007199254740992 then 4503599627370496 else m
    if e2 > 1023 then none
    else float64.ofBits (sign + (e2 + 1023) * 4503599627370496 + (m2 - 4503599627370496))

/-- The integer a finite `float64` stands for, when it is one of magnitude below 2^53: its sign
and magnitude (`-0` has sign and magnitude 0). -/
def float64.toLit (f : float64) : Option (Bool × Nat) :=
  let neg := decide (9223372036854775808 ≤ f.bits)
  let ex := f.bits / 4503599627370496 % 2048
  let frac := f.bits % 4503599627370496
  if ex = 0 then (if frac = 0 then some (neg, 0) else none)
  else if 1023 ≤ ex ∧ ex ≤ 1075 ∧ (4503599627370496 + frac) % 2 ^ (1075 - ex) = 0 then
    some (neg, (4503599627370496 + frac) / 2 ^ (1075 - ex))
  else none

/-! ## JSON values -/

/-- A JSON value.  Numbers are modelled by what they denote: `num neg mag` is the integer
literal with sign `neg` and digits `mag` (`-0` is `num true 0`), and `float f` is any other
number literal, one that `strconv.ParseFloat` reads as `f`.  Objects keep their members in
order. -/
inductive JSON where
  | null
  | bool (b : Bool)
  | num (neg : Bool) (mag : Nat)
  | float (f : float64)
  | str (s : String)
  | arr (items : List JSON)
  | obj (members : List (String × JSON))

/-- The kind of a JSON value as `json.UnmarshalTypeError.Value` names it. -/
def JSON.kind : JSON → String
  | .null => "null"
  | .bool _ => "bool"
  | .num _ _ => "number"
  | .float _ => "number"
  | .str _ => "string"
  | .arr _ => "array"
  | .obj _ => "object"

/-- The members of an object; no members for any other value. -/
def JSON.members : JSON → List (String × JSON)
  | .obj ms => ms
  | _ => []

/-- The keys of an object, in order. -/
def JSON.keys (j : JSON) : List String := j.members.map Prod.fst

/-- The value stored under `key` in an object: that of the first member with this key. -/
def JSON.get (j : JSON) (key : String) : Option JSON :=
  (j.members.find? fun m => m.1 == key).map Prod.snd

/-- Whether the value is JSON `null`. -/
def JSON.isNull : JSON → Bool
  | .null => true
  | _ => false

/-- `json.UnmarshalTypeError`: a JSON value of kind `Value` was not appropriate for a Go value
of type `Type_`. -/
structure UnmarshalTypeError where
  Value : String
  Type_ : String
deriving DecidableEq, Repr

/-! ## Key matching of `json.Unmarshal`

An object key selects the struct field whose tag name equals it, "preferring an exact match but
also accepting a case-insensitive match".  Every tag name below is ASCII and no two of one
struct differ only by case, so a key selects a field exactly when the two fold to the same
text. -/

/-- Simple case folding of one character, as far as it can reach an ASCII letter: upper-case
ASCII, the Kelvin sign and the long s. -/
def foldRune (c : Char) : Char :=
  if 65 ≤ c.toNat ∧ c.toNat ≤ 90 then Char.ofNat (c.toNat + 32)
  else if c.toNat = 0x212A then 'k'
  else if c.toNat = 0x017F then 's'
  else c

/-- The folded form of an object key. -/
def foldName (key : String) : String := String.mk (key.data.map foldRune)

/-! ## Encoding helpers (`json.Marshal`) -/

/-- Encoding of an `int64` (or `int`): its decimal literal. -/
def marshalInt64 (i : int64) : JSON := .num (decide (i.val < 0)) i.val.natAbs

/-- Encoding of a `uint64`: its decimal literal. -/
def marshalUint64 (u : uint64) : JSON := .num false u.val

/-- Encoding of a `float64`: a value that is an integer of magnitude below 2^53 is formatted as
the integer literal with its digits (`0`, `-0`, `1`, ...); any other value as the shortest
literal that reads back as the value, modelled as `float f`. -/
def marshalFloat64 (f : float64) : JSON :=
  match f.toLit with
  | some (neg, mag) => .num neg mag
  | none => .float f

/-- Encoding of a `[]string` that is always emitted: `null` for the nil slice. -/
def marshalStrings : Option (List String) → JSON
  | none => .null
  | some l => .arr (l.map JSON.str)

/-- Member for a `bool` field tagged `omitempty`: omitted when false. -/
def omitemptyBool (key : String) (b : Bool) : List (String × JSON) :=
  if b then [(key, .bool b)] else []

/-- Member for a `string` field tagged `omitempty`: omitted when empty. -/
def omitemptyString (key : String) (s : String) : List (String × JSON) :=
  if s = "" then [] else [(key, .str s)]

/-- Member for a pointer field tagged `omitempty`: omitted when nil. -/
def omitemptyPtr {α : Type} (key : String) (enc : α → JSON) : Option α → List (String × JSON)
  | none => []
  | some a => [(key, enc a)]

/-- Member for a slice field tagged `omitempty`: omitted when the length is zero. -/
def omitemptySlice {α : Type} (key : String) (enc : α → JSON) :
    Option (List α) → List (String × JSON)
  | none => []
  | some [] => []
  | some (a :: l) => [(key, .arr ((a :: l).map enc))]

/-! ## Decoding helpers (`json.Unmarshal`)

Each helper decodes one JSON value into a Go value of the given type.  JSON `null` leaves a
non-pointer value as it is and sets a pointer or slice to nil. -/

/-- Decoding into a `bool` holding `cur`. -/
def unmarshalBool (cur : Bool) : JSON → Except UnmarshalTypeError Bool
  | .null => .ok cur
  | .bool b => .ok b
  | j => .error ⟨j.kind, "bool"⟩

/-- Decoding into a `string` (or a named string type) holding `cur`. -/
def unmarshalString (cur : String) : JSON → Except UnmarshalTypeError String
  | .null => .ok cur
  | .str s => .ok s
  | j => .error ⟨j.kind, "string"⟩

/-- Decoding into a `*bool`. -/
def unmarshalPtrBool : JSON → Except UnmarshalTypeError (Option Bool)
  | .null => .ok none
  | .bool b => .ok (some b)
  | j => .error ⟨j.kind, "bool"⟩

/-- Decoding into a `*string` (or a pointer to a named string type). -/
def unmarshalPtrString : JSON → Except UnmarshalTypeError (Option String)
  | .null => .ok none
  | .str s => .ok (some s)
  | j => .error ⟨j.kind, "string"⟩

/-- Decoding into a `*int64` (or `*int`; `goType` names the type in the error). -/
def unmarshalPtrInt64 (goType : String) : JSON → Except UnmarshalTypeError (Option int64)
  | .null => .ok none
  | .num neg mag =>
    match int64.ofLit neg mag with
    | some i => .ok (some i)
    | none => .error ⟨"number", goType⟩
  | j => .error ⟨j.kind, goType⟩

/-- Decoding into a `*uint64`. -/
def unmarshalPtrUint64 : JSON → Except UnmarshalTypeError (Option uint64)
  | .null => .ok none
  | .num neg mag =>
    match uint64.ofLit neg mag with
    | some u => .ok (some u)
    | none => .error ⟨"number", "uint64"⟩
  | j => .error ⟨j.kind, "uint64"⟩

/-- Decoding into a `*float64`. -/
def unmarshalPtrFloat64 : JSON → Except UnmarshalTypeError (Option float64)
  | .null => .ok none
  | .float f => .ok (some f)
  | .num neg mag =>
    match float64.ofLit neg mag with
    | some f => .ok (some f)
    | none => .error ⟨"number", "float64"⟩
  | j => .error ⟨j.kind, "float64"⟩

/-- Decoding the elements of an array into the elements of a `[]string`: the element at each
index is decoded into the element the slice already holds there (`cur`, in order), and into a
fresh empty string where the slice is shorter; spare capacity is taken to be zeroed. -/
def unmarshalStringItems : List String → List JSON → Except UnmarshalTypeError (List String)
  | _, [] => .ok []
  | cur, j :: rest =>
    match unmarshalString (cur.headD "") j with
    | .error e => .error e
    | .ok s =>
      match unmarshalStringItems cur.tail rest with
      | .error e => .error e
      | .ok l => .ok (s :: l)

/-- Decoding into a `[]string` holding `cur`: `null` gives the nil slice, an array a non-nil
slice with one element per array element. -/
def unmarshalStrings (cur : Option (List String)) :
    JSON → Except UnmarshalTypeError (Option (List String))
  | .null => .ok none
  | .arr items => (unmarshalStringItems (cur.getD []) items).map some
  | j => .error ⟨j.kind, "[]string"⟩

/-! ## The types of `arango_search.go` -/

/-- `ArangoSearchFeature` specifies a feature to an analyzer. -/
abbrev ArangoSearchFeature := String

/-- How often a term is seen, required for PHRASE(). -/
def ArangoSearchFeatureFrequency : ArangoSearchFeature := "frequency"
/-- The field normalization factor. -/
def ArangoSearchFeatureNorm : ArangoSearchFeature := "norm"
/-- Sequentially increasing term position, required for PHRASE(). -/
def ArangoSearchFeaturePosition : ArangoSearchFeature := "position"
/-- Can be specified if the position feature is set. -/
def ArangoSearchFeatureOffset : ArangoSearchFeature := "offset"

/-- `ArangoSearchAnalyzerType` specifies type of analyzer. -/
abbrev ArangoSearchAnalyzerType := String

/-- Treat value as atom (no transformation). -/
def ArangoSearchAnalyzerTypeIdentity : ArangoSearchAnalyzerType := "identity"
/-- Split into tokens at user-defined character. -/
def ArangoSearchAnalyzerTypeDelimiter : ArangoSearchAnalyzerType := "delimiter"
/-- Apply stemming to the value as a whole. -/
def ArangoSearchAnalyzerTypeStem : ArangoSearchAnalyzerType := "stem"
/-- Apply normalization to the value as a whole. -/
def ArangoSearchAnalyzerTypeNorm : ArangoSearchAnalyzerType := "norm"
/-- Create n-grams from value with user-defined lengths. -/
def ArangoSearchAnalyzerTypeNGram : ArangoSearchAnalyzerType := "ngram"
/-- Tokenize into words, optionally with stemming, normalization and stop-word filtering. -/
def ArangoSearchAnalyzerTypeText : ArangoSearchAnalyzerType := "text"
/-- An Analyzer capable of running a restricted AQL query. -/
def ArangoSearchAnalyzerTypeAQL : ArangoSearchAnalyzerType := "aql"
/-- An Analyzer capable of chaining effects of multiple Analyzers into one. -/
def ArangoSearchAnalyzerTypePipeline : ArangoSearchAnalyzerType := "pipeline"
/-- An Analyzer capable of removing specified tokens from the input. -/
def ArangoSearchAnalyzerTypeStopwords : ArangoSearchAnalyzerType := "stopwords"
/-- An Analyzer capable of breaking up a GeoJSON object into a set of indexable tokens. -/
def ArangoSearchAnalyzerTypeGeoJSON : ArangoSearchAnalyzerType := "geojson"
/-- An Analyzer capable of indexing GeoJSON data with a more efficient internal format. -/
def ArangoSearchAnalyzerTypeGeoS2 : ArangoSearchAnalyzerType := "geo_s2"
/-- An Analyzer capable of breaking up a JSON object describing a coordinate. -/
def ArangoSearchAnalyzerTypeGeoPoint : ArangoSearchAnalyzerType := "geopoint"
/-- An Analyzer capable of breaking up the input text in a language-agnostic manner. -/
def ArangoSearchAnalyzerTypeSegmentation : ArangoSearchAnalyzerType := "segmentation"
/-- An Analyzer capable of converting the input into a set of language-specific tokens. -/
def ArangoSearchAnalyzerTypeCollation : ArangoSearchAnalyzerType := "collation"
/-- An Analyzer capable of classifying tokens in the input text. (EE only) -/
def ArangoSearchAnalyzerTypeClassification : ArangoSearchAnalyzerType := "classification"
/-- An Analyzer capable of finding nearest neighbors of tokens in the input. (EE only) -/
def ArangoSearchAnalyzerTypeNearestNeighbors : ArangoSearchAnalyzerType := "nearest_neighbors"
/-- An analyzer capable of evaluating MinHash signatures as a stream of tokens. (EE only) -/
def ArangoSearchAnalyzerTypeMinhash : ArangoSearchAnalyzerType := "minhash"

/-- The case conversion of an analyzer. -/
abbrev ArangoSearchCaseType := String

/-- `ArangoSearchCaseUpper`. -/
def ArangoSearchCaseUpper : ArangoSearchCaseType := "upper"
/-- `ArangoSearchCaseLower`. -/
def ArangoSearchCaseLower : ArangoSearchCaseType := "lower"
/-- `ArangoSearchCaseNone`: to not change character case (default). -/
def ArangoSearchCaseNone : ArangoSearchCaseType := "none"

/-- The internal binary representation of geo-spatial data. -/
abbrev ArangoSearchFormat := String

/-- `ArangoSearchFormatLatLngDouble`: 16 bytes per coordinate pair.  "It is default value." -/
def ArangoSearchFormatLatLngDouble : ArangoSearchFormat := "latLngDouble"
/-- `ArangoSearchFormatLatLngInt`: 8 bytes per coordinate pair. -/
def ArangoSearchFormatLatLngInt : ArangoSearchFormat := "latLngInt"
/-- `ArangoSearchFormatS2Point`: 24 bytes per coordinate pair. -/
def ArangoSearchFormatS2Point : ArangoSearchFormat := "s2Point"

/-- The stream type of an n-gram analyzer. -/
abbrev ArangoSearchNGramStreamType := String

/-- `ArangoSearchNGramStreamBinary`: used by NGram, default value. -/
def ArangoSearchNGramStreamBinary : ArangoSearchNGramStreamType := "binary"
/-- `ArangoSearchNGramStreamUTF8`: used by NGram. -/
def ArangoSearchNGramStreamUTF8 : ArangoSearchNGramStreamType := "utf8"

/-- The return type of an AQL analyzer. -/
abbrev ArangoSearchAnalyzerAQLReturnType := String

/-- `ArangoSearchAnalyzerAQLReturnTypeString`. -/
def ArangoSearchAnalyzerAQLReturnTypeString : ArangoSearchAnalyzerAQLReturnType := "string"
/-- `ArangoSearchAnalyzerAQLReturnTypeNumber`. -/
def ArangoSearchAnalyzerAQLReturnTypeNumber : ArangoSearchAnalyzerAQLReturnType := "number"
/-- `ArangoSearchAnalyzerAQLReturnTypeBool`. -/
def ArangoSearchAnalyzerAQLReturnTypeBool : ArangoSearchAnalyzerAQLReturnType := "bool"

/-- `ArangoSearchAnalyzerAQLReturnType.New` returns pointer to selected return type. -/
def ArangoSearchAnalyzerAQLReturnType.New (a : ArangoSearchAnalyzerAQLReturnType) :
    Option ArangoSearchAnalyzerAQLReturnType := some a

/-- The GeoJSON `type` parameter. -/
abbrev ArangoSearchAnalyzerGeoJSONType := String

/-- `ArangoSearchAnalyzerGeoJSONType.New` returns pointer to selected type. -/
def ArangoSearchAnalyzerGeoJSONType.New (a : ArangoSearchAnalyzerGeoJSONType) :
    Option ArangoSearchAnalyzerGeoJSONType := some a

/-- `ArangoSearchAnalyzerGeoJSONTypeShape`: index all GeoJSON geometry types (default). -/
def ArangoSearchAnalyzerGeoJSONTypeShape : ArangoSearchAnalyzerGeoJSONType := "shape"
/-- `ArangoSearchAnalyzerGeoJSONTypeCentroid`: index the centroid of the input geometry. -/
def ArangoSearchAnalyzerGeoJSONTypeCentroid : ArangoSearchAnalyzerGeoJSONType := "centroid"
/-- `ArangoSearchAnalyzerGeoJSONTypePoint`: only index GeoJSON objects of type Point. -/
def ArangoSearchAnalyzerGeoJSONTypePoint : ArangoSearchAnalyzerGeoJSONType := "point"

/-- The break type of a segmentation analyzer. -/
abbrev ArangoSearchBreakType := String

/-- `ArangoSearchBreakTypeAll`: to return all tokens. -/
def ArangoSearchBreakTypeAll : ArangoSearchBreakType := "all"
/-- `ArangoSearchBreakTypeAlpha`: tokens composed of alphanumeric characters only (default). -/
def ArangoSearchBreakTypeAlpha : ArangoSearchBreakType := "alpha"
/-- `ArangoSearchBreakTypeGraphic`: tokens composed of non-whitespace characters only. -/
def ArangoSearchBreakTypeGraphic : ArangoSearchBreakType := "graphic"

/-- `ArangoSearchEdgeNGram` specifies options for the edgeNGram text analyzer. -/
structure ArangoSearchEdgeNGram where
  /-- Min used by Text; tag `json:"min,omitempty"` -/
  Min : Option int64
  /-- Max used by Text; tag `json:"max,omitempty"` -/
  Max : Option int64
  /-- PreserveOriginal used by Text; tag `json:"preserveOriginal,omitempty"` -/
  PreserveOriginal : Option Bool
deriving DecidableEq, Repr

/-- `ArangoSearchAnalyzerGeoOptions` for fine-tuning geo queries. -/
structure ArangoSearchAnalyzerGeoOptions where
  /-- MaxCells define maximum number of S2 cells; tag `json:"maxCells,omitempty"` -/
  MaxCells : Option int
  /-- MinLevel define the least precise S2 level; tag `json:"minLevel,omitempty"` -/
  MinLevel : Option int
  /-- MaxLevel define the most precise S2 level; tag `json:"maxLevel,omitempty"` -/
  MaxLevel : Option int
deriving DecidableEq, Repr

/-- `ArangoSearchAnalyzerPipeline` provides object definition for Pipeline array parameter, over
the type `P` of its properties (instantiated with `ArangoSearchAnalyzerProperties` below). -/
structure ArangoSearchAnalyzerPipelineOf (P : Type) where
  /-- Type of the Pipeline Analyzer (Go field `Type`); tag `json:"type"` -/
  Type_ : ArangoSearchAnalyzerType
  /-- Properties of the Pipeline Analyzer; tag `json:"properties,omitempty"` -/
  Properties : P

/-- Modelled from the spec: `AnalyzerDefinition`, which "identifies an analyzer by
`{name, type, properties, features}`"; the struct is declared outside the sources at hand.  Its
four fields are carried under the keys `name`, `type`, `properties` and `features`, each tagged
`omitempty` ("others omitted, not null").  `P` is the type of its properties. -/
structure AnalyzerDefinitionOf (P : Type) where
  Name : String
  Type_ : ArangoSearchAnalyzerType
  Properties : P
  Features : Option (List ArangoSearchFeature)

/-- `ArangoSearchAnalyzerProperties` specifies options for the analyzer.  Required and respected
depend on the analyzer type. -/
structure ArangoSearchAnalyzerProperties where
  /-- Tag `json:"isSystem,omitempty"` -/
  IsSystem : Bool
  /-- Locale used by Stem, Norm, Text; tag `json:"locale,omitempty"` -/
  Locale : String
  /-- Delimiter used by Delimiter; tag `json:"delimiter,omitempty"` -/
  Delimiter : String
  /-- Accent used by Norm, Text; tag `json:"accent,omitempty"` -/
  Accent : Option Bool
  /-- Case used by Norm, Text, Segmentation; tag `json:"case,omitempty"` -/
  Case : ArangoSearchCaseType
  /-- EdgeNGram used by Text; tag `json:"edgeNgram,omitempty"` -/
  EdgeNGram : Option ArangoSearchEdgeNGram
  /-- Min used by NGram; tag `json:"min,omitempty"` -/
  Min : Option int64
  /-- Max used by NGram; tag `json:"max,omitempty"` -/
  Max : Option int64
  /-- PreserveOriginal used by NGram; tag `json:"preserveOriginal,omitempty"` -/
  PreserveOriginal : Option Bool
  /-- StartMarker used by NGram; tag `json:"startMarker,omitempty"` -/
  StartMarker : Option String
  /-- EndMarker used by NGram; tag `json:"endMarker,omitempty"` -/
  EndMarker : Option String
  /-- StreamType used by NGram; tag `json:"streamType,omitempty"` -/
  StreamType : Option ArangoSearchNGramStreamType
  /-- Stemming used by Text; tag `json:"stemming,omitempty"` -/
  Stemming : Option Bool
  /-- Stopword used by Text and Stopwords. This field is not mandatory since version 3.7 of arangod so it can not be omitted in 3.6.; tag `json:"stopwords"` -/
  Stopwords : Option (List String)
  /-- StopwordsPath used by Text; tag `json:"stopwordsPath,omitempty"` -/
  StopwordsPath : Option (List String)
  /-- QueryString used by AQL.; tag `json:"queryString,omitempty"` -/
  QueryString : String
  /-- CollapsePositions used by AQL.; tag `json:"collapsePositions,omitempty"` -/
  CollapsePositions : Option Bool
  /-- KeepNull used by AQL.; tag `json:"keepNull,omitempty"` -/
  KeepNull : Option Bool
  /-- BatchSize used by AQL.; tag `json:"batchSize,omitempty"` -/
  BatchSize : Option int
  /-- MemoryLimit used by AQL.; tag `json:"memoryLimit,omitempty"` -/
  MemoryLimit : Option int
  /-- ReturnType used by AQL.; tag `json:"returnType,omitempty"` -/
  ReturnType : Option ArangoSearchAnalyzerAQLReturnType
  /-- Pipeline used by Pipeline.; tag `json:"pipeline,omitempty"` -/
  Pipeline : Option (List (ArangoSearchAnalyzerPipelineOf ArangoSearchAnalyzerProperties))
  /-- Type used by GeoJSON (Go field `Type`).; tag `json:"type,omitempty"` -/
  Type_ : Option ArangoSearchAnalyzerGeoJSONType
  /-- Options used by GeoJSON and GeoPoint; tag `json:"options,omitempty"` -/
  Options : Option ArangoSearchAnalyzerGeoOptions
  /-- Latitude used by GetPoint.; tag `json:"latitude,omitempty"` -/
  Latitude : Option (List String)
  /-- Longitude used by GetPoint.; tag `json:"longitude,omitempty"` -/
  Longitude : Option (List String)
  /-- Break used by Segmentation; tag `json:"break,omitempty"` -/
  Break : ArangoSearchBreakType
  /-- Hex used by stopwords.; tag `json:"hex,omitempty"` -/
  Hex : Option Bool
  /-- ModelLocation used by Classification, NearestNeighbors; tag `json:"model_location,omitempty"` -/
  ModelLocation : String
  /-- TopK used by Classification, NearestNeighbors; tag `json:"top_k,omitempty"` -/
  TopK : Option uint64
  /-- Threshold used by Classification; tag `json:"threshold,omitempty"` -/
  Threshold : Option float64
  /-- Analyzer used by Minhash; tag `json:"analyzer,omitempty"` -/
  Analyzer : Option (AnalyzerDefinitionOf ArangoSearchAnalyzerProperties)
  /-- NumHashes used by Minhash; tag `json:"numHashes,omitempty"` -/
  NumHashes : Option uint64
  /-- Format is the internal binary representation to use for storing the geo-spatial data in an index.; tag `json:"format,omitempty"` -/
  Format : Option ArangoSearchFormat

/-- `ArangoSearchAnalyzerPipeline`: one stage of a pipeline analyzer. -/
abbrev ArangoSearchAnalyzerPipeline := ArangoSearchAnalyzerPipelineOf ArangoSearchAnalyzerProperties

/-- `AnalyzerDefinition`: the inner analyzer of a minhash analyzer. -/
abbrev AnalyzerDefinition := AnalyzerDefinitionOf ArangoSearchAnalyzerProperties

/-- The zero value `ArangoSearchEdgeNGram{}`. -/
def ArangoSearchEdgeNGram.zero : ArangoSearchEdgeNGram :=
  { Min := none, Max := none, PreserveOriginal := none }

/-- The zero value `ArangoSearchAnalyzerGeoOptions{}`. -/
def ArangoSearchAnalyzerGeoOptions.zero : ArangoSearchAnalyzerGeoOptions :=
  { MaxCells := none, MinLevel := none, MaxLevel := none }

/-- The zero value `ArangoSearchAnalyzerProperties{}`. -/
def ArangoSearchAnalyzerProperties.zero : ArangoSearchAnalyzerProperties :=
  { IsSystem := false,
    Locale := "",
    Delimiter := "",
    Accent := none,
    Case := "",
    EdgeNGram := none,
    Min := none,
    Max := none,
    PreserveOriginal := none,
    StartMarker := none,
    EndMarker := none,
    StreamType := none,
    Stemming := none,
    Stopwords := none,
    StopwordsPath := none,
    QueryString := "",
    CollapsePositions := none,
    KeepNull := none,
    BatchSize := none,
    MemoryLimit := none,
    ReturnType := none,
    Pipeline := none,
    Type_ := none,
    Options := none,
    Latitude := none,
    Longitude := none,
    Break := "",
    Hex := none,
    ModelLocation := "",
    TopK := none,
    Threshold := none,
    Analyzer := none,
    NumHashes := none,
    Format := none }

/-- The zero value `ArangoSearchAnalyzerPipeline{}`. -/
def ArangoSearchAnalyzerPipeline.zero : ArangoSearchAnalyzerPipeline :=
  { Type_ := "", Properties := ArangoSearchAnalyzerProperties.zero }

/-- The zero value `AnalyzerDefinition{}`. -/
def AnalyzerDefinition.zero : AnalyzerDefinition :=
  { Name := "", Type_ := "", Properties := ArangoSearchAnalyzerProperties.zero, Features := none }

/-! ## `json.Marshal` of the analyzer structs

Members appear in field order; a field tagged `omitempty` is left out when it is false, the
empty string, a nil pointer or a slice of length zero.  A struct-valued field is never empty. -/

/-- Encoding of an `ArangoSearchEdgeNGram`. -/
def ArangoSearchEdgeNGram.marshal (e : ArangoSearchEdgeNGram) : JSON :=
  .obj (omitemptyPtr "min" marshalInt64 e.Min ++
    omitemptyPtr "max" marshalInt64 e.Max ++
    omitemptyPtr "preserveOriginal" JSON.bool e.PreserveOriginal)

/-- Encoding of an `ArangoSearchAnalyzerGeoOptions`. -/
def ArangoSearchAnalyzerGeoOptions.marshal (o : ArangoSearchAnalyzerGeoOptions) : JSON :=
  .obj (omitemptyPtr "maxCells" marshalInt64 o.MaxCells ++
    omitemptyPtr "minLevel" marshalInt64 o.MinLevel ++
    omitemptyPtr "maxLevel" marshalInt64 o.MaxLevel)

mutual
/-- Encoding of an `ArangoSearchAnalyzerProperties`. -/
def ArangoSearchAnalyzerProperties.marshal : ArangoSearchAnalyzerProperties → JSON
  | p@{ Pipeline := pipeline, Analyzer := analyzer, .. } =>
    .obj (omitemptyBool "isSystem" p.IsSystem ++
      omitemptyString "locale" p.Locale ++
      omitemptyString "delimiter" p.Delimiter ++
      omitemptyPtr "accent" JSON.bool p.Accent ++
      omitemptyString "case" p.Case ++
      omitemptyPtr "edgeNgram" ArangoSearchEdgeNGram.marshal p.EdgeNGram ++
      omitemptyPtr "min" marshalInt64 p.Min ++
      omitemptyPtr "max" marshalInt64 p.Max ++
      omitemptyPtr "preserveOriginal" JSON.bool p.PreserveOriginal ++
      omitemptyPtr "startMarker" JSON.str p.StartMarker ++
      omitemptyPtr "endMarker" JSON.str p.EndMarker ++
      omitemptyPtr "streamType" JSON.str p.StreamType ++
      omitemptyPtr "stemming" JSON.bool p.Stemming ++
      [("stopwords", marshalStrings p.Stopwords)] ++
      omitemptySlice "stopwordsPath" JSON.str p.StopwordsPath ++
      omitemptyString "queryString" p.QueryString ++
      omitemptyPtr "collapsePositions" JSON.bool p.CollapsePositions ++
      omitemptyPtr "keepNull" JSON.bool p.KeepNull ++
      omitemptyPtr "batchSize" marshalInt64 p.BatchSize ++
      omitemptyPtr "memoryLimit" marshalInt64 p.MemoryLimit ++
      omitemptyPtr "returnType" JSON.str p.ReturnType ++
      marshalPipelineField pipeline ++
      omitemptyPtr "type" JSON.str p.Type_ ++
      omitemptyPtr "options" ArangoSearchAnalyzerGeoOptions.marshal p.Options ++
      omitemptySlice "latitude" JSON.str p.Latitude ++
      omitemptySlice "longitude" JSON.str p.Longitude ++
      omitemptyString "break" p.Break ++
      omitemptyPtr "hex" JSON.bool p.Hex ++
      omitemptyString "model_location" p.ModelLocation ++
      omitemptyPtr "top_k" marshalUint64 p.TopK ++
      omitemptyPtr "threshold" marshalFloat64 p.Threshold ++
      marshalAnalyzerField analyzer ++
      omitemptyPtr "numHashes" marshalUint64 p.NumHashes ++
      omitemptyPtr "format" JSON.str p.Format)
/-- Member for the field `Pipeline`, tag `json:"pipeline,omitempty"`. -/
def marshalPipelineField :
    Option (List ArangoSearchAnalyzerPipeline) → List (String × JSON)
  | none => []
  | some [] => []
  | some (s :: l) => [("pipeline", .arr (marshalPipelineItems (s :: l)))]
/-- Encoding of the elements of a `[]ArangoSearchAnalyzerPipeline`. -/
def marshalPipelineItems : List ArangoSearchAnalyzerPipeline → List JSON
  | [] => []
  | s :: l => ArangoSearchAnalyzerPipeline.marshal s :: marshalPipelineItems l
/-- Encoding of an `ArangoSearchAnalyzerPipeline`: `type` and `properties` are always there. -/
def ArangoSearchAnalyzerPipeline.marshal : ArangoSearchAnalyzerPipeline → JSON
  | { Type_ := t, Properties := p } =>
    .obj ([("type", .str t)] ++ [("properties", ArangoSearchAnalyzerProperties.marshal p)])
/-- Member for the field `Analyzer`, tag `json:"analyzer,omitempty"`. -/
def marshalAnalyzerField : Option AnalyzerDefinition → List (String × JSON)
  | none => []
  | some d => [("analyzer", AnalyzerDefinition.marshal d)]
/-- Encoding of an `AnalyzerDefinition`. -/
def AnalyzerDefinition.marshal : AnalyzerDefinition → JSON
  | { Name := n, Type_ := t, Properties := p, Features := f } =>
    .obj (omitemptyString "name" n ++ omitemptyString "type" t ++
      [("properties", ArangoSearchAnalyzerProperties.marshal p)] ++
      omitemptySlice "features" JSON.str f)
end

/-! ## `json.Unmarshal` into the analyzer structs

An object is decoded member by member, in order, into the value at hand (`acc`): a member whose
key selects a field is decoded into that field, any other member is skipped.  A value of the
wrong JSON kind is an `UnmarshalTypeError`.  A pointer that is nil is allocated, a struct or
slice element that is already there is decoded into (so a repeated key merges). -/

/-- Decoding one member into the field of an `ArangoSearchEdgeNGram` selected by the folded key
`name`. -/
def ArangoSearchEdgeNGram.setField (acc : ArangoSearchEdgeNGram) (name : String) (v : JSON) :
    Except UnmarshalTypeError ArangoSearchEdgeNGram :=
  if name = "min" then
    (unmarshalPtrInt64 "int64" v).map fun x => { acc with Min := x }
  else if name = "max" then
    (unmarshalPtrInt64 "int64" v).map fun x => { acc with Max := x }
  else if name = "preserveoriginal" then
    (unmarshalPtrBool v).map fun x => { acc with PreserveOriginal := x }
  else .ok acc

/-- Decoding the members of an object into an `ArangoSearchEdgeNGram`. -/
def ArangoSearchEdgeNGram.unmarshalMembers (acc : ArangoSearchEdgeNGram) :
    List (String × JSON) → Except UnmarshalTypeError ArangoSearchEdgeNGram
  | [] => .ok acc
  | (k, v) :: rest =>
    match ArangoSearchEdgeNGram.setField acc (foldName k) v with
    | .error e => .error e
    | .ok acc2 => ArangoSearchEdgeNGram.unmarshalMembers acc2 rest

/-- Decoding into a `*ArangoSearchEdgeNGram` holding `cur`: an object is decoded into the
pointee, which is allocated if the pointer is nil. -/
def ArangoSearchEdgeNGram.unmarshalPtr (cur : Option ArangoSearchEdgeNGram) :
    JSON → Except UnmarshalTypeError (Option ArangoSearchEdgeNGram)
  | .null => .ok none
  | .obj members =>
    (ArangoSearchEdgeNGram.unmarshalMembers (cur.getD ArangoSearchEdgeNGram.zero) members).map some
  | j => .error ⟨j.kind, "ArangoSearchEdgeNGram"⟩

/-- Decoding one member into the field of an `ArangoSearchAnalyzerGeoOptions` selected by the
folded key `name`. -/
def ArangoSearchAnalyzerGeoOptions.setField (acc : ArangoSearchAnalyzerGeoOptions)
    (name : String) (v : JSON) : Except UnmarshalTypeError ArangoSearchAnalyzerGeoOptions :=
  if name = "maxcells" then
    (unmarshalPtrInt64 "int" v).map fun x => { acc with MaxCells := x }
  else if name = "minlevel" then
    (unmarshalPtrInt64 "int" v).map fun x => { acc with MinLevel := x }
  else if name = "maxlevel" then
    (unmarshalPtrInt64 "int" v).map fun x => { acc with MaxLevel := x }
  else .ok acc

/-- Decoding the members of an object into an `ArangoSearchAnalyzerGeoOptions`. -/
def ArangoSearchAnalyzerGeoOptions.unmarshalMembers (acc : ArangoSearchAnalyzerGeoOptions) :
    List (String × JSON) → Except UnmarshalTypeError ArangoSearchAnalyzerGeoOptions
  | [] => .ok acc
  | (k, v) :: rest =>
    match ArangoSearchAnalyzerGeoOptions.setField acc (foldName k) v with
    | .error e => .error e
    | .ok acc2 => ArangoSearchAnalyzerGeoOptions.unmarshalMembers acc2 rest

/-- Decoding into a `*ArangoSearchAnalyzerGeoOptions` holding `cur`. -/
def ArangoSearchAnalyzerGeoOptions.unmarshalPtr (cur : Option ArangoSearchAnalyzerGeoOptions) :
    JSON → Except UnmarshalTypeError (Option ArangoSearchAnalyzerGeoOptions)
  | .null => .ok none
  | .obj members =>
    (ArangoSearchAnalyzerGeoOptions.unmarshalMembers
      (cur.getD ArangoSearchAnalyzerGeoOptions.zero) members).map some
  | j => .error ⟨j.kind, "ArangoSearchAnalyzerGeoOptions"⟩

/-- Decoding one member into the field of an `ArangoSearchAnalyzerProperties` selected by the
folded key `name`, for every field but `Pipeline` and `Analyzer` (which hold properties
themselves and are decoded in `unmarshalMembers`). -/
def ArangoSearchAnalyzerProperties.setField (acc : ArangoSearchAnalyzerProperties)
    (name : String) (v : JSON) : Except UnmarshalTypeError ArangoSearchAnalyzerProperties :=
  if name = "issystem" then
    (unmarshalBool acc.IsSystem v).map fun x => { acc with IsSystem := x }
  else if name = "locale" then
    (unmarshalString acc.Locale v).map fun x => { acc with Locale := x }
  else if name = "delimiter" then
    (unmarshalString acc.Delimiter v).map fun x => { acc with Delimiter := x }
  else if name = "accent" then
    (unmarshalPtrBool v).map fun x => { acc with Accent := x }
  else if name = "case" then
    (unmarshalString acc.Case v).map fun x => { acc with Case := x }
  else if name = "edgengram" then
    (ArangoSearchEdgeNGram.unmarshalPtr acc.EdgeNGram v).map fun x => { acc with EdgeNGram := x }
  else if name = "min" then
    (unmarshalPtrInt64 "int64" v).map fun x => { acc with Min := x }
  else if name = "max" then
    (unmarshalPtrInt64 "int64" v).map fun x => { acc with Max := x }
  else if name = "preserveoriginal" then
    (unmarshalPtrBool v).map fun x => { acc with PreserveOriginal := x }
  else if name = "startmarker" then
    (unmarshalPtrString v).map fun x => { acc with StartMarker := x }
  else if name = "endmarker" then
    (unmarshalPtrString v).map fun x => { acc with EndMarker := x }
  else if name = "streamtype" then
    (unmarshalPtrString v).map fun x => { acc with StreamType := x }
  else if name = "stemming" then
    (unmarshalPtrBool v).map fun x => { acc with Stemming := x }
  else if name = "stopwords" then
    (unmarshalStrings acc.Stopwords v).map fun x => { acc with Stopwords := x }
  else if name = "stopwordspath" then
    (unmarshalStrings acc.StopwordsPath v).map fun x => { acc with StopwordsPath := x }
  else if name = "querystring" then
    (unmarshalString acc.QueryString v).map fun x => { acc with QueryString := x }
  else if name = "collapsepositions" then
    (unmarshalPtrBool v).map fun x => { acc with CollapsePositions := x }
  else if name = "keepnull" then
    (unmarshalPtrBool v).map fun x => { acc with KeepNull := x }
  else if name = "batchsize" then
    (unmarshalPtrInt64 "int" v).map fun x => { acc with BatchSize := x }
  else if name = "memorylimit" then
    (unmarshalPtrInt64 "int" v).map fun x => { acc with MemoryLimit := x }
  else if name = "returntype" then
    (unmarshalPtrString v).map fun x => { acc with ReturnType := x }
  else if name = "type" then
    (unmarshalPtrString v).map fun x => { acc with Type_ := x }
  else if name = "options" then
    (ArangoSearchAnalyzerGeoOptions.unmarshalPtr acc.Options v).map fun x => { acc with Options := x }
  else if name = "latitude" then
    (unmarshalStrings acc.Latitude v).map fun x => { acc with Latitude := x }
  else if name = "longitude" then
    (unmarshalStrings acc.Longitude v).map fun x => { acc with Longitude := x }
  else if name = "break" then
    (unmarshalString acc.Break v).map fun x => { acc with Break := x }
  else if name = "hex" then
    (unmarshalPtrBool v).map fun x => { acc with Hex := x }
  else if name = "model_location" then
    (unmarshalString acc.ModelLocation v).map fun x => { acc with ModelLocation := x }
  else if name = "top_k" then
    (unmarshalPtrUint64 v).map fun x => { acc with TopK := x }
  else if name = "threshold" then
    (unmarshalPtrFloat64 v).map fun x => { acc with Threshold := x }
  else if name = "numhashes" then
    (unmarshalPtrUint64 v).map fun x => { acc with NumHashes := x }
  else if name = "format" then
    (unmarshalPtrString v).map fun x => { acc with Format := x }
  else .ok acc

mutual
/-- Decoding the members of an object into an `ArangoSearchAnalyzerProperties`. -/
def ArangoSearchAnalyzerProperties.unmarshalMembers (acc : ArangoSearchAnalyzerProperties) :
    List (String × JSON) → Except UnmarshalTypeError ArangoSearchAnalyzerProperties
  | [] => .ok acc
  | (k, v) :: rest =>
    if foldName k = "pipeline" then
      match unmarshalPipeline acc.Pipeline v with
      | .error e => .error e
      | .ok x => ArangoSearchAnalyzerProperties.unmarshalMembers { acc with Pipeline := x } rest
    else if foldName k = "analyzer" then
      match AnalyzerDefinition.unmarshalPtr acc.Analyzer v with
      | .error e => .error e
      | .ok x => ArangoSearchAnalyzerProperties.unmarshalMembers { acc with Analyzer := x } rest
    else
      match ArangoSearchAnalyzerProperties.setField acc (foldName k) v with
      | .error e => .error e
      | .ok acc2 => ArangoSearchAnalyzerProperties.unmarshalMembers acc2 rest
/-- Decoding into an `ArangoSearchAnalyzerProperties` holding `acc`. -/
def ArangoSearchAnalyzerProperties.unmarshal (acc : ArangoSearchAnalyzerProperties) :
    JSON → Except UnmarshalTypeError ArangoSearchAnalyzerProperties
  | .null => .ok acc
  | .obj members => ArangoSearchAnalyzerProperties.unmarshalMembers acc members
  | .bool _ => .error ⟨"bool", "ArangoSearchAnalyzerProperties"⟩
  | .num _ _ => .error ⟨"number", "ArangoSearchAnalyzerProperties"⟩
  | .float _ => .error ⟨"number", "ArangoSearchAnalyzerProperties"⟩
  | .str _ => .error ⟨"string", "ArangoSearchAnalyzerProperties"⟩
  | .arr _ => .error ⟨"array", "ArangoSearchAnalyzerProperties"⟩
/-- Decoding into a `[]ArangoSearchAnalyzerPipeline` holding `cur`. -/
def unmarshalPipeline (cur : Option (List ArangoSearchAnalyzerPipeline)) :
    JSON → Except UnmarshalTypeError (Option (List ArangoSearchAnalyzerPipeline))
  | .null => .ok none
  | .arr items =>
    match unmarshalPipelineItems (cur.getD []) items with
    | .error e => .error e
    | .ok l => .ok (some l)
  | .bool _ => .error ⟨"bool", "[]ArangoSearchAnalyzerPipeline"⟩
  | .num _ _ => .error ⟨"number", "[]ArangoSearchAnalyzerPipeline"⟩
  | .float _ => .error ⟨"number", "[]ArangoSearchAnalyzerPipeline"⟩
  | .str _ => .error ⟨"string", "[]ArangoSearchAnalyzerPipeline"⟩
  | .obj _ => .error ⟨"object", "[]ArangoSearchAnalyzerPipeline"⟩
/-- Decoding the elements of an array into the elements of a
`[]ArangoSearchAnalyzerPipeline`: the element at each index is decoded into the stage the slice
already holds there (`cur`, in order), and into a fresh stage where the slice is shorter;
spare capacity is taken to be zeroed. -/
def unmarshalPipelineItems (cur : List ArangoSearchAnalyzerPipeline) :
    List JSON → Except UnmarshalTypeError (List ArangoSearchAnalyzerPipeline)
  | [] => .ok []
  | j :: rest =>
    match ArangoSearchAnalyzerPipeline.unmarshal
        (cur.headD ArangoSearchAnalyzerPipeline.zero) j with
    | .error e => .error e
    | .ok s =>
      match unmarshalPipelineItems cur.tail rest with
      | .error e => .error e
      | .ok l => .ok (s :: l)
/-- Decoding into an `ArangoSearchAnalyzerPipeline` holding `acc`. -/
def ArangoSearchAnalyzerPipeline.unmarshal (acc : ArangoSearchAnalyzerPipeline) :
    JSON → Except UnmarshalTypeError ArangoSearchAnalyzerPipeline
  | .null => .ok acc
  | .obj members => ArangoSearchAnalyzerPipeline.unmarshalMembers acc members
  | .bool _ => .error ⟨"bool", "ArangoSearchAnalyzerPipeline"⟩
  | .num _ _ => .error ⟨"number", "ArangoSearchAnalyzerPipeline"⟩
  | .float _ => .error ⟨"number", "ArangoSearchAnalyzerPipeline"⟩
  | .str _ => .error ⟨"string", "ArangoSearchAnalyzerPipeline"⟩
  | .arr _ => .error ⟨"array", "ArangoSearchAnalyzerPipeline"⟩
/-- Decoding the members of an object into an `ArangoSearchAnalyzerPipeline`. -/
def ArangoSearchAnalyzerPipeline.unmarshalMembers (acc : ArangoSearchAnalyzerPipeline) :
    List (String × JSON) → Except UnmarshalTypeError ArangoSearchAnalyzerPipeline
  | [] => .ok acc
  | (k, v) :: rest =>
    if foldName k = "type" then
      match unmarshalString acc.Type_ v with
      | .error e => .error e
      | .ok x => ArangoSearchAnalyzerPipeline.unmarshalMembers { acc with Type_ := x } rest
    else if foldName k = "properties" then
      match ArangoSearchAnalyzerProperties.unmarshal acc.Properties v with
      | .error e => .error e
      | .ok x => ArangoSearchAnalyzerPipeline.unmarshalMembers { acc with Properties := x } rest
    else ArangoSearchAnalyzerPipeline.unmarshalMembers acc rest
/-- Decoding into a `*AnalyzerDefinition` holding `cur`. -/
def AnalyzerDefinition.unmarshalPtr (cur : Option AnalyzerDefinition) :
    JSON → Except UnmarshalTypeError (Option AnalyzerDefinition)
  | .null => .ok none
  | .obj members =>
    match AnalyzerDefinition.unmarshalMembers (cur.getD AnalyzerDefinition.zero) members with
    | .error e => .error e
    | .ok d => .ok (some d)
  | .bool _ => .error ⟨"bool", "AnalyzerDefinition"⟩
  | .num _ _ => .error ⟨"number", "AnalyzerDefinition"⟩
  | .float _ => .error ⟨"number", "AnalyzerDefinition"⟩
  | .str _ => .error ⟨"string", "AnalyzerDefinition"⟩
  | .arr _ => .error ⟨"array", "AnalyzerDefinition"⟩
/-- Decoding the members of an object into an `AnalyzerDefinition`. -/
def AnalyzerDefinition.unmarshalMembers (acc : AnalyzerDefinition) :
    List (String × JSON) → Except UnmarshalTypeError AnalyzerDefinition
  | [] => .ok acc
  | (k, v) :: rest =>
    if foldName k = "name" then
      match unmarshalString acc.Name v with
      | .error e => .error e
      | .ok x => AnalyzerDefinition.unmarshalMembers { acc with Name := x } rest
    else if foldName k = "type" then
      match unmarshalString acc.Type_ v with
      | .error e => .error e
      | .ok x => AnalyzerDefinition.unmarshalMembers { acc with Type_ := x } rest
    else if foldName k = "properties" then
      match ArangoSearchAnalyzerProperties.unmarshal acc.Properties v with
      | .error e => .error e
      | .ok x => AnalyzerDefinition.unmarshalMembers { acc with Properties := x } rest
    else if foldName k = "features" then
      match unmarshalStrings acc.Features v with
      | .error e => .error e
      | .ok x => AnalyzerDefinition.unmarshalMembers { acc with Features := x } rest
    else AnalyzerDefinition.unmarshalMembers acc rest
end

/-- `json.Marshal(v)` for an `ArangoSearchAnalyzerProperties` value. -/
def encode (v : ArangoSearchAnalyzerProperties) : JSON := v.marshal

/-- `json.Unmarshal(data, &v)` with `v` a fresh `ArangoSearchAnalyzerProperties`. -/
def decode (j : JSON) : Except UnmarshalTypeError ArangoSearchAnalyzerProperties :=
  ArangoSearchAnalyzerProperties.unmarshal ArangoSearchAnalyzerProperties.zero j

/-- `json.Unmarshal(data, &s)` with `s` a fresh `ArangoSearchAnalyzerPipeline`. -/
def decodeStage (j : JSON) : Except UnmarshalTypeError ArangoSearchAnalyzerPipeline :=
  ArangoSearchAnalyzerPipeline.unmarshal ArangoSearchAnalyzerPipeline.zero j

/-! ## What a round trip preserves

A slice field tagged `omitempty` is left out of the encoding when its length is zero, whether it
is nil or not, and a field that is left out decodes to nil.  `dropEmptySlices` replaces every
empty non-nil slice in such a field by the nil slice, at every depth. -/

/-- An `omitempty` slice after a round trip: the empty non-nil slice has become nil. -/
def dropEmptySlice {α : Type} : Option (List α) → Option (List α)
  | some [] => none
  | x => x

mutual
/-- The properties value with every empty `omitempty` slice replaced by nil. -/
def ArangoSearchAnalyzerProperties.dropEmptySlices :
    ArangoSearchAnalyzerProperties → ArangoSearchAnalyzerProperties
  | p@{ Pipeline := pipeline, Analyzer := analyzer, .. } =>
    { p with
      StopwordsPath := dropEmptySlice p.StopwordsPath,
      Pipeline := dropEmptyPipeline pipeline,
      Latitude := dropEmptySlice p.Latitude,
      Longitude := dropEmptySlice p.Longitude,
      Analyzer := dropEmptyAnalyzer analyzer }
/-- The field `Pipeline` with empty `omitempty` slices replaced by nil. -/
def dropEmptyPipeline :
    Option (List ArangoSearchAnalyzerPipeline) → Option (List ArangoSearchAnalyzerPipeline)
  | none => none
  | some [] => none
  | some (s :: l) => some (dropEmptyPipelineItems (s :: l))
/-- The stages of a pipeline with empty `omitempty` slices replaced by nil. -/
def dropEmptyPipelineItems :
    List ArangoSearchAnalyzerPipeline → List ArangoSearchAnalyzerPipeline
  | [] => []
  | s :: l => ArangoSearchAnalyzerPipeline.dropEmptySlices s :: dropEmptyPipelineItems l
/-- The stage with empty `omitempty` slices of its properties replaced by nil. -/
def ArangoSearchAnalyzerPipeline.dropEmptySlices :
    ArangoSearchAnalyzerPipeline → ArangoSearchAnalyzerPipeline
  | { Type_ := t, Properties := p } =>
    { Type_ := t, Properties := ArangoSearchAnalyzerProperties.dropEmptySlices p }
/-- The field `Analyzer` with empty `omitempty` slices replaced by nil. -/
def dropEmptyAnalyzer : Option AnalyzerDefinition → Option AnalyzerDefinition
  | none => none
  | some d => some (AnalyzerDefinition.dropEmptySlices d)
/-- The analyzer definition with empty `omitempty` slices replaced by nil. -/
def AnalyzerDefinition.dropEmptySlices : AnalyzerDefinition → AnalyzerDefinition
  | { Name := n, Type_ := t, Properties := p, Features := f } =>
    { Name := n, Type_ := t, Properties := ArangoSearchAnalyzerProperties.dropEmptySlices p,
      Features := dropEmptySlice f }
end

/-! ## Which keys an encoding has

A field is populated when `omitempty` would keep it: a true `bool`, a non-empty string, a
non-nil pointer, a slice of non-zero length.  `Stopwords` is not tagged `omitempty` and its key
is always there. -/

/-- The key of a field, if the field is populated. -/
def keyIf (populated : Bool) (key : String) : List String :=
  if populated then [key] else []

/-- The keys of the populated fields of a properties value, in field order, with the key
`stopwords` in its place whether `Stopwords` is populated or not. -/
def ArangoSearchAnalyzerProperties.populatedKeys (p : ArangoSearchAnalyzerProperties) :
    List String :=
  keyIf p.IsSystem "isSystem" ++
  keyIf (decide (p.Locale ≠ "")) "locale" ++
  keyIf (decide (p.Delimiter ≠ "")) "delimiter" ++
  keyIf p.Accent.isSome "accent" ++
  keyIf (decide (p.Case ≠ "")) "case" ++
  keyIf p.EdgeNGram.isSome "edgeNgram" ++
  keyIf p.Min.isSome "min" ++
  keyIf p.Max.isSome "max" ++
  keyIf p.PreserveOriginal.isSome "preserveOriginal" ++
  keyIf p.StartMarker.isSome "startMarker" ++
  keyIf p.EndMarker.isSome "endMarker" ++
  keyIf p.StreamType.isSome "streamType" ++
  keyIf p.Stemming.isSome "stemming" ++
  keyIf true "stopwords" ++
  keyIf (decide (0 < (p.StopwordsPath.getD []).length)) "stopwordsPath" ++
  keyIf (decide (p.QueryString ≠ "")) "queryString" ++
  keyIf p.CollapsePositions.isSome "collapsePositions" ++
  keyIf p.KeepNull.isSome "keepNull" ++
  keyIf p.BatchSize.isSome "batchSize" ++
  keyIf p.MemoryLimit.isSome "memoryLimit" ++
  keyIf p.ReturnType.isSome "returnType" ++
  keyIf (decide (0 < (p.Pipeline.getD []).length)) "pipeline" ++
  keyIf p.Type_.isSome "type" ++
  keyIf p.Options.isSome "options" ++
  keyIf (decide (0 < (p.Latitude.getD []).length)) "latitude" ++
  keyIf (decide (0 < (p.Longitude.getD []).length)) "longitude" ++
  keyIf (decide (p.Break ≠ "")) "break" ++
  keyIf p.Hex.isSome "hex" ++
  keyIf (decide (p.ModelLocation ≠ "")) "model_location" ++
  keyIf p.TopK.isSome "top_k" ++
  keyIf p.Threshold.isSome "threshold" ++
  keyIf p.Analyzer.isSome "analyzer" ++
  keyIf p.NumHashes.isSome "numHashes" ++
  keyIf p.Format.isSome "format"

/-! ## Pointer-to-scalar fields

The fields of the analyzer properties that are pointers to a scalar (`*bool`, `*int64`, `*int`,
`*uint64`, `*float64`, `*string` and pointers to named string types), those of the nested
`EdgeNGram` and `Options` structs included.  The only plain `bool` field, `IsSystem`, has no
unset state apart from `false`. -/

/-- The zero `int64`. -/
def int64.zero : int64 := ⟨0, by decide, by decide⟩

/-- The zero `uint64`. -/
def uint64.zero : uint64 := ⟨0, by decide⟩

/-- The `float64` zero (positive sign). -/
def float64.zero : float64 := ⟨0, by decide, by decide⟩

/-- A scalar value a pointer field can point to. -/
inductive Scalar where
  | bool (b : Bool)
  | int (i : int64)
  | uint (u : uint64)
  | float (f : float64)
  | string (s : String)
deriving DecidableEq, Repr

/-- The pointer-to-scalar fields of `ArangoSearchAnalyzerProperties`; the last six are the
fields of the structs behind `EdgeNGram` and `Options`. -/
inductive PointerField where
  | Accent
  | Min
  | Max
  | PreserveOriginal
  | StartMarker
  | EndMarker
  | StreamType
  | Stemming
  | CollapsePositions
  | KeepNull
  | BatchSize
  | MemoryLimit
  | ReturnType
  | Type
  | Hex
  | TopK
  | Threshold
  | NumHashes
  | Format
  | EdgeNGramMin
  | EdgeNGramMax
  | EdgeNGramPreserveOriginal
  | OptionsMaxCells
  | OptionsMinLevel
  | OptionsMaxLevel
deriving DecidableEq, Repr

/-- The falsy value of the type a pointer field points to. -/
def PointerField.falsy : PointerField → Scalar
  | .Accent => .bool false
  | .Min => .int int64.zero
  | .Max => .int int64.zero
  | .PreserveOriginal => .bool false
  | .StartMarker => .string ""
  | .EndMarker => .string ""
  | .StreamType => .string ""
  | .Stemming => .bool false
  | .CollapsePositions => .bool false
  | .KeepNull => .bool false
  | .BatchSize => .int int64.zero
  | .MemoryLimit => .int int64.zero
  | .ReturnType => .string ""
  | .Type => .string ""
  | .Hex => .bool false
  | .TopK => .uint uint64.zero
  | .Threshold => .float float64.zero
  | .NumHashes => .uint uint64.zero
  | .Format => .string ""
  | .EdgeNGramMin => .int int64.zero
  | .EdgeNGramMax => .int int64.zero
  | .EdgeNGramPreserveOriginal => .bool false
  | .OptionsMaxCells => .int int64.zero
  | .OptionsMinLevel => .int int64.zero
  | .OptionsMaxLevel => .int int64.zero

/-- What the pointer field holds: `none` when it is nil (or the struct around it is). -/
def PointerField.get (f : PointerField) (p : ArangoSearchAnalyzerProperties) : Option Scalar :=
  match f with
  | .Accent => (p.Accent).map Scalar.bool
  | .Min => (p.Min).map Scalar.int
  | .Max => (p.Max).map Scalar.int
  | .PreserveOriginal => (p.PreserveOriginal).map Scalar.bool
  | .StartMarker => (p.StartMarker).map Scalar.string
  | .EndMarker => (p.EndMarker).map Scalar.string
  | .StreamType => (p.StreamType).map Scalar.string
  | .Stemming => (p.Stemming).map Scalar.bool
  | .CollapsePositions => (p.CollapsePositions).map Scalar.bool
  | .KeepNull => (p.KeepNull).map Scalar.bool
  | .BatchSize => (p.BatchSize).map Scalar.int
  | .MemoryLimit => (p.MemoryLimit).map Scalar.int
  | .ReturnType => (p.ReturnType).map Scalar.string
  | .Type => (p.Type_).map Scalar.string
  | .Hex => (p.Hex).map Scalar.bool
  | .TopK => (p.TopK).map Scalar.uint
  | .Threshold => (p.Threshold).map Scalar.float
  | .NumHashes => (p.NumHashes).map Scalar.uint
  | .Format => (p.Format).map Scalar.string
  | .EdgeNGramMin => (p.EdgeNGram.bind fun e => e.Min).map Scalar.int
  | .EdgeNGramMax => (p.EdgeNGram.bind fun e => e.Max).map Scalar.int
  | .EdgeNGramPreserveOriginal => (p.EdgeNGram.bind fun e => e.PreserveOriginal).map Scalar.bool
  | .OptionsMaxCells => (p.Options.bind fun e => e.MaxCells).map Scalar.int
  | .OptionsMinLevel => (p.Options.bind fun e => e.MinLevel).map Scalar.int
  | .OptionsMaxLevel => (p.Options.bind fun e => e.MaxLevel).map Scalar.int

/-- The properties value with the pointer field unset (nil). -/
def PointerField.unset (f : PointerField) (p : ArangoSearchAnalyzerProperties) :
    ArangoSearchAnalyzerProperties :=
  match f with
  | .Accent => { p with Accent := none }
  | .Min => { p with Min := none }
  | .Max => { p with Max := none }
  | .PreserveOriginal => { p with PreserveOriginal := none }
  | .StartMarker => { p with StartMarker := none }
  | .EndMarker => { p with EndMarker := none }
  | .StreamType => { p with StreamType := none }
  | .Stemming => { p with Stemming := none }
  | .CollapsePositions => { p with CollapsePositions := none }
  | .KeepNull => { p with KeepNull := none }
  | .BatchSize => { p with BatchSize := none }
  | .MemoryLimit => { p with MemoryLimit := none }
  | .ReturnType => { p with ReturnType := none }
  | .Type => { p with Type_ := none }
  | .Hex => { p with Hex := none }
  | .TopK => { p with TopK := none }
  | .Threshold => { p with Threshold := none }
  | .NumHashes => { p with NumHashes := none }
  | .Format => { p with Format := none }
  | .EdgeNGramMin => { p with EdgeNGram := some { (p.EdgeNGram.getD ArangoSearchEdgeNGram.zero) with Min := none } }
  | .EdgeNGramMax => { p with EdgeNGram := some { (p.EdgeNGram.getD ArangoSearchEdgeNGram.zero) with Max := none } }
  | .EdgeNGramPreserveOriginal => { p with EdgeNGram := some { (p.EdgeNGram.getD ArangoSearchEdgeNGram.zero) with PreserveOriginal := none } }
  | .OptionsMaxCells => { p with Options := some { (p.Options.getD ArangoSearchAnalyzerGeoOptions.zero) with MaxCells := none } }
  | .OptionsMinLevel => { p with Options := some { (p.Options.getD ArangoSearchAnalyzerGeoOptions.zero) with MinLevel := none } }
  | .OptionsMaxLevel => { p with Options := some { (p.Options.getD ArangoSearchAnalyzerGeoOptions.zero) with MaxLevel := none } }

/-- The properties value with the pointer field pointing to the falsy value of its type. -/
def PointerField.setFalsy (f : PointerField) (p : ArangoSearchAnalyzerProperties) :
    ArangoSearchAnalyzerProperties :=
  match f with
  | .Accent => { p with Accent := some false }
  | .Min => { p with Min := some int64.zero }
  | .Max => { p with Max := some int64.zero }
  | .PreserveOriginal => { p with PreserveOriginal := some false }
  | .StartMarker => { p with StartMarker := some "" }
  | .EndMarker => { p with EndMarker := some "" }
  | .StreamType => { p with StreamType := some "" }
  | .Stemming => { p with Stemming := some false }
  | .CollapsePositions => { p with CollapsePositions := some false }
  | .KeepNull => { p with KeepNull := some false }
  | .BatchSize => { p with BatchSize := some int64.zero }
  | .MemoryLimit => { p with MemoryLimit := some int64.zero }
  | .ReturnType => { p with ReturnType := some "" }
  | .Type => { p with Type_ := some "" }
  | .Hex => { p with Hex := some false }
  | .TopK => { p with TopK := some uint64.zero }
  | .Threshold => { p with Threshold := some float64.zero }
  | .NumHashes => { p with NumHashes := some uint64.zero }
  | .Format => { p with Format := some "" }
  | .EdgeNGramMin => { p with EdgeNGram := some { (p.EdgeNGram.getD ArangoSearchEdgeNGram.zero) with Min := some int64.zero } }
  | .EdgeNGramMax => { p with EdgeNGram := some { (p.EdgeNGram.getD ArangoSearchEdgeNGram.zero) with Max := some int64.zero } }
  | .EdgeNGramPreserveOriginal => { p with EdgeNGram := some { (p.EdgeNGram.getD ArangoSearchEdgeNGram.zero) with PreserveOriginal := some false } }
  | .OptionsMaxCells => { p with Options := some { (p.Options.getD ArangoSearchAnalyzerGeoOptions.zero) with MaxCells := some int64.zero } }
  | .OptionsMinLevel => { p with Options := some { (p.Options.getD ArangoSearchAnalyzerGeoOptions.zero) with MinLevel := some int64.zero } }
  | .OptionsMaxLevel => { p with Options := some { (p.Options.getD ArangoSearchAnalyzerGeoOptions.zero) with MaxLevel := some int64.zero } }

/-! ## Values without empty `omitempty` slices -/

/-- Whether an `omitempty` slice is something other than the empty non-nil slice. -/
def notEmptySlice {α : Type} : Option (List α) → Bool
  | some [] => false
  | _ => true

mutual
/-- Whether no `omitempty` slice of the properties value is empty but non-nil, at any depth. -/
def ArangoSearchAnalyzerProperties.noEmptySlices : ArangoSearchAnalyzerProperties → Bool
  | p@{ Pipeline := pipeline, Analyzer := analyzer, .. } =>
    notEmptySlice p.StopwordsPath && noEmptyPipeline pipeline && notEmptySlice p.Latitude &&
      notEmptySlice p.Longitude && noEmptyAnalyzer analyzer
/-- The same for the field `Pipeline`. -/
def noEmptyPipeline : Option (List ArangoSearchAnalyzerPipeline) → Bool
  | none => true
  | some [] => false
  | some (s :: l) => noEmptyPipelineItems (s :: l)
/-- The same for the stages of a pipeline. -/
def noEmptyPipelineItems : List ArangoSearchAnalyzerPipeline → Bool
  | [] => true
  | s :: l => ArangoSearchAnalyzerPipeline.noEmptySlices s && noEmptyPipelineItems l
/-- The same for one stage. -/
def ArangoSearchAnalyzerPipeline.noEmptySlices : ArangoSearchAnalyzerPipeline → Bool
  | { Properties := p, .. } => ArangoSearchAnalyzerProperties.noEmptySlices p
/-- The same for the field `Analyzer`. -/
def noEmptyAnalyzer : Option AnalyzerDefinition → Bool
  | none => true
  | some d => AnalyzerDefinition.noEmptySlices d
/-- The same for an analyzer definition. -/
def AnalyzerDefinition.noEmptySlices : AnalyzerDefinition → Bool
  | { Properties := p, Features := f, .. } =>
    ArangoSearchAnalyzerProperties.noEmptySlices p && notEmptySlice f
end

/-! ## Sample values -/

/-- The `int64` 2. -/
def int64.two : int64 := ⟨2, by decide, by decide⟩

/-- The `int64` 3. -/
def int64.three : int64 := ⟨3, by decide, by decide⟩

/-- Properties whose `Latitude` is the empty non-nil slice `[]string{}`, all else zero. -/
def emptyLatitudeProperties : ArangoSearchAnalyzerProperties :=
  { ArangoSearchAnalyzerProperties.zero with Latitude := some [] }

/-- Properties as a `text` analyzer takes them. -/
def textProperties : ArangoSearchAnalyzerProperties :=
  { ArangoSearchAnalyzerProperties.zero with
    Locale := "en", Accent := some false, Case := ArangoSearchCaseLower,
    Stemming := some true, Stopwords := some ["and", "the"],
    EdgeNGram := some { Min := some int64.two, Max := some int64.three,
                        PreserveOriginal := some true } }

/-- Properties of an `aql` analyzer with, besides, the n-gram field `Min` set. -/
def aqlPropertiesWithMin : ArangoSearchAnalyzerProperties :=
  { ArangoSearchAnalyzerProperties.zero with
    QueryString := "RETURN SOUNDEX(@param)", Min := some int64.three }

/-- A pipeline stage of type `aql` that carries `aqlPropertiesWithMin`. -/
def aqlStageWithMin : ArangoSearchAnalyzerPipeline :=
  { Type_ := ArangoSearchAnalyzerTypeAQL, Properties := aqlPropertiesWithMin }

/-- Properties of an `aql` analyzer with only its own fields populated. -/
def aqlProperties : ArangoSearchAnalyzerProperties :=
  { ArangoSearchAnalyzerProperties.zero with
    QueryString := "RETURN SOUNDEX(@param)", KeepNull := some false,
    ReturnType := some ArangoSearchAnalyzerAQLReturnTypeString }

/-- The wire form of a `geo_s2` stage whose properties have a `type` but no `format`. -/
def geoS2PayloadWithoutFormat : JSON :=
  .obj [("type", .str "geo_s2"), ("properties", .obj [("type", .str "shape")])]

/-- The wire form of a `segmentation` stage whose properties have a `case` but no `break`. -/
def segmentationPayloadWithoutBreak : JSON :=
  .obj [("type", .str "segmentation"), ("properties", .obj [("case", .str "lower")])]

/-- The wire form of an `aql` stage whose properties are empty: no `queryString`. -/
def aqlPayloadWithoutQueryString : JSON :=
  .obj [("type", .str "aql"), ("properties", .obj [])]

/-- The wire form of a stage without `type`. -/
def payloadWithoutType : JSON :=
  .obj [("properties", .obj [("queryString", .str "RETURN 1")])]

/-- What `geoS2PayloadWithoutFormat` decodes to. -/
def geoS2StageWithoutFormat : ArangoSearchAnalyzerPipeline :=
  { Type_ := "geo_s2",
    Properties := { ArangoSearchAnalyzerProperties.zero with Type_ := some "shape" } }

/-- Properties of an `aql` analyzer that lack the query string. -/
def aqlPropertiesWithoutQueryString : ArangoSearchAnalyzerProperties :=
  { ArangoSearchAnalyzerProperties.zero with
    KeepNull := some false, ReturnType := some ArangoSearchAnalyzerAQLReturnTypeString }

/-! ## The analyzer types, and what a pipeline looks like on the wire -/

/-- The constants of type `ArangoSearchAnalyzerType`, in the order of their `const` block. -/
def allArangoSearchAnalyzerTypes : List ArangoSearchAnalyzerType :=
  [ArangoSearchAnalyzerTypeIdentity, ArangoSearchAnalyzerTypeDelimiter,
   ArangoSearchAnalyzerTypeStem, ArangoSearchAnalyzerTypeNorm, ArangoSearchAnalyzerTypeNGram,
   ArangoSearchAnalyzerTypeText, ArangoSearchAnalyzerTypeAQL, ArangoSearchAnalyzerTypePipeline,
   ArangoSearchAnalyzerTypeStopwords, ArangoSearchAnalyzerTypeGeoJSON,
   ArangoSearchAnalyzerTypeGeoS2, ArangoSearchAnalyzerTypeGeoPoint,
   ArangoSearchAnalyzerTypeSegmentation, ArangoSearchAnalyzerTypeCollation,
   ArangoSearchAnalyzerTypeClassification, ArangoSearchAnalyzerTypeNearestNeighbors,
   ArangoSearchAnalyzerTypeMinhash]

/-- The stages of a properties value: the elements of `Pipeline`, none for a nil slice. -/
def ArangoSearchAnalyzerProperties.stages (p : ArangoSearchAnalyzerProperties) :
    List ArangoSearchAnalyzerPipeline :=
  p.Pipeline.getD []

/-- The elements of the array under the key `pipeline` of an encoding, in order; none when the
key is absent or holds something else. -/
def JSON.pipelineItems (j : JSON) : List JSON :=
  match j.get "pipeline" with
  | some (.arr items) => items
  | _ => []

/-- Properties of a pipeline analyzer with the stages `delimiter`, `stem`, in this order. -/
def delimiterStemPipeline : ArangoSearchAnalyzerProperties :=
  { ArangoSearchAnalyzerProperties.zero with
    Pipeline := some
      [{ Type_ := ArangoSearchAnalyzerTypeDelimiter,
         Properties := { ArangoSearchAnalyzerProperties.zero with Delimiter := "," } },
       { Type_ := ArangoSearchAnalyzerTypeStem,
         Properties := { ArangoSearchAnalyzerProperties.zero with Locale := "en" } }] }

/-- The `uint64` 2. -/
def uint64.two : uint64 := ⟨2, by decide⟩

/-- Properties as a `classification` analyzer takes them: model location and top-K. -/
def classificationProperties : ArangoSearchAnalyzerProperties :=
  { ArangoSearchAnalyzerProperties.zero with
    ModelLocation := "/models/cooking.bin", TopK := some uint64.two }

/-- A properties payload that spells the two classification keys `modelLocation`, `topK`. -/
def camelCaseClassificationPayload : JSON :=
  .obj [("modelLocation", .str "/models/cooking.bin"), ("topK", .num false 2)]

/-! ## Agreement on populated fields

`v.agreesOnPopulated w` says that `w` equals `v` on every populated field of `v`: a true `bool`,
a non-empty string, a non-nil pointer, a slice of non-zero length, and `Stopwords`, whose key
is always there (the conditions of `populatedKeys`).  Where the populated field holds
properties itself (the stages of `Pipeline`, the definition behind `Analyzer`), the two agree
on every populated field of those, and so on down. -/

/-- The value `b` equals `a` if the field that holds `a` is populated. -/
def agreesIf {α : Type} (populated : Bool) (a b : α) : Prop :=
  populated = true → b = a

mutual
/-- The value `w` equals `v` on every populated field of `v`, at every depth. -/
def ArangoSearchAnalyzerProperties.agreesOnPopulated :
    ArangoSearchAnalyzerProperties → ArangoSearchAnalyzerProperties → Prop
  | v@{ Pipeline := pipeline, Analyzer := analyzer, .. }, w =>
    agreesIf v.IsSystem v.IsSystem w.IsSystem ∧
    agreesIf (decide (v.Locale ≠ "")) v.Locale w.Locale ∧
    agreesIf (decide (v.Delimiter ≠ "")) v.Delimiter w.Delimiter ∧
    agreesIf v.Accent.isSome v.Accent w.Accent ∧
    agreesIf (decide (v.Case ≠ "")) v.Case w.Case ∧
    agreesIf v.EdgeNGram.isSome v.EdgeNGram w.EdgeNGram ∧
    agreesIf v.Min.isSome v.Min w.Min ∧
    agreesIf v.Max.isSome v.Max w.Max ∧
    agreesIf v.PreserveOriginal.isSome v.PreserveOriginal w.PreserveOriginal ∧
    agreesIf v.StartMarker.isSome v.StartMarker w.StartMarker ∧
    agreesIf v.EndMarker.isSome v.EndMarker w.EndMarker ∧
    agreesIf v.StreamType.isSome v.StreamType w.StreamType ∧
    agreesIf v.Stemming.isSome v.Stemming w.Stemming ∧
    agreesIf true v.Stopwords w.Stopwords ∧
    agreesIf (decide (0 < (v.StopwordsPath.getD []).length)) v.StopwordsPath w.StopwordsPath ∧
    agreesIf (decide (v.QueryString ≠ "")) v.QueryString w.QueryString ∧
    agreesIf v.CollapsePositions.isSome v.CollapsePositions w.CollapsePositions ∧
    agreesIf v.KeepNull.isSome v.KeepNull w.KeepNull ∧
    agreesIf v.BatchSize.isSome v.BatchSize w.BatchSize ∧
    agreesIf v.MemoryLimit.isSome v.MemoryLimit w.MemoryLimit ∧
    agreesIf v.ReturnType.isSome v.ReturnType w.ReturnType ∧
    agreesPipeline pipeline w.Pipeline ∧
    agreesIf v.Type_.isSome v.Type_ w.Type_ ∧
    agreesIf v.Options.isSome v.Options w.Options ∧
    agreesIf (decide (0 < (v.Latitude.getD []).length)) v.Latitude w.Latitude ∧
    agreesIf (decide (0 < (v.Longitude.getD []).length)) v.Longitude w.Longitude ∧
    agreesIf (decide (v.Break ≠ "")) v.Break w.Break ∧
    agreesIf v.Hex.isSome v.Hex w.Hex ∧
    agreesIf (decide (v.ModelLocation ≠ "")) v.ModelLocation w.ModelLocation ∧
    agreesIf v.TopK.isSome v.TopK w.TopK ∧
    agreesIf v.Threshold.isSome v.Threshold w.Threshold ∧
    agreesAnalyzer analyzer w.Analyzer ∧
    agreesIf v.NumHashes.isSome v.NumHashes w.NumHashes ∧
    agreesIf v.Format.isSome v.Format w.Format
/-- Agreement on the field `Pipeline`: if it holds stages, the other holds as many, and they
agree stage by stage. -/
def agreesPipeline :
    Option (List ArangoSearchAnalyzerPipeline) → Option (List ArangoSearchAnalyzerPipeline) → Prop
  | none, _ => True
  | some [], _ => True
  | some (s :: l), w =>
    match w with
    | none => False
    | some m => agreesPipelineItems (s :: l) m
/-- Agreement of two lists of stages: same length, and agreement stage by stage. -/
def agreesPipelineItems :
    List ArangoSearchAnalyzerPipeline → List ArangoSearchAnalyzerPipeline → Prop
  | [], m => m = []
  | s :: l, m =>
    match m with
    | [] => False
    | t :: rest => ArangoSearchAnalyzerPipeline.agreesOnPopulated s t ∧ agreesPipelineItems l rest
/-- Agreement of two stages: the same `Type` (always encoded) and properties that agree. -/
def ArangoSearchAnalyzerPipeline.agreesOnPopulated :
    ArangoSearchAnalyzerPipeline → ArangoSearchAnalyzerPipeline → Prop
  | { Type_ := t, Properties := p }, w =>
    w.Type_ = t ∧ ArangoSearchAnalyzerProperties.agreesOnPopulated p w.Properties
/-- Agreement on the field `Analyzer`: if it is non-nil, so is the other, and they agree. -/
def agreesAnalyzer : Option AnalyzerDefinition → Option AnalyzerDefinition → Prop
  | none, _ => True
  | some d, w =>
    match w with
    | none => False
    | some e => AnalyzerDefinition.agreesOnPopulated d e
/-- Agreement of two analyzer definitions on the populated fields of the first. -/
def AnalyzerDefinition.agreesOnPopulated : AnalyzerDefinition → AnalyzerDefinition → Prop
  | { Name := n, Type_ := t, Properties := p, Features := f }, w =>
    agreesIf (decide (n ≠ "")) n w.Name ∧ agreesIf (decide (t ≠ "")) t w.Type_ ∧
      ArangoSearchAnalyzerProperties.agreesOnPopulated p w.Properties ∧
      agreesIf (decide (0 < (f.getD []).length)) f w.Features
end

/-! ## Theorems about the view handles -/

/-- C1: for both view kinds, when the GET call made by `Properties` returns no error and the
response status code is 200, `Properties` returns exactly the properties payload decoded into
the response envelope, together with a nil error. -/
theorem Properties_returns_payload_on_200 :
    (∀ (P : Type) [Inhabited P] (v : viewArangoSearch P) (response : PropertiesResponse P),
      v.view.db.connection.answerProperties
          { method := .GET, url := v.view.db.url ["_api", "view", v.view.name, "properties"],
            body := none }
        = .answered response 200 →
      v.Properties.1 = (response.Properties, none)) ∧
    (∀ (P : Type) [Inhabited P] (v : viewArangoSearchAlias P) (response : PropertiesResponse P),
      v.view.db.connection.answerProperties
          { method := .GET, url := v.view.db.url ["_api", "view", v.view.name, "properties"],
            body := none }
        = .answered response 200 →
      v.Properties.1 = (response.Properties, none)) := by
  constructor <;> intro P _ v response h <;>
    simp [viewArangoSearch.Properties, viewArangoSearchAlias.Properties, connection.CallGet, h,
      http.StatusOK]

/-- C1 at a concrete handle: the transport answers 200 with the payload `"links"`, and
`Properties` of the ArangoSearch view returns `"links"` with a nil error. -/
theorem Properties_returns_payload_on_200_witness :
    (viewArangoSearch.mk
        { name := "v1",
          db := exampleDatabase (.answered ⟨exampleStatus, "links"⟩ 200)
            (.answered exampleStatus 200) }).Properties.1
      = ("links", none) :=
  Properties_returns_payload_on_200.1 String _ ⟨exampleStatus, "links"⟩ rfl

/-- C2: for both view kinds, `SetProperties` returns a nil error exactly when the PUT call
returned no error and the status code is 200; for every other status code `c` (201, 202 and
204 included) it returns the error `AsArangoErrorWithCode(c)` of the response envelope. -/
theorem SetProperties_nil_iff_200 :
    (∀ (P : Type) [Inhabited P] (v : viewArangoSearch P) (options : P),
      ((v.SetProperties options).1 = none ↔
        ∃ response, v.view.db.connection.answerStatus
          { method := .PUT, url := v.view.db.url ["_api", "view", v.view.name, "properties"],
            body := some options } = .answered response 200) ∧
      ∀ (response : ResponseStruct) (c : Int),
        v.view.db.connection.answerStatus
          { method := .PUT, url := v.view.db.url ["_api", "view", v.view.name, "properties"],
            body := some options } = .answered response c →
        c ≠ 200 →
        (v.SetProperties options).1 = some (.arango (response.AsArangoErrorWithCode c))) ∧
    (∀ (P : Type) [Inhabited P] (v : viewArangoSearchAlias P) (options : P),
      ((v.SetProperties options).1 = none ↔
        ∃ response, v.view.db.connection.answerStatus
          { method := .PUT, url := v.view.db.url ["_api", "view", v.view.name, "properties"],
            body := some options } = .answered response 200) ∧
      ∀ (response : ResponseStruct) (c : Int),
        v.view.db.connection.answerStatus
          { method := .PUT, url := v.view.db.url ["_api", "view", v.view.name, "properties"],
            body := some options } = .answered response c →
        c ≠ 200 →
        (v.SetProperties options).1 = some (.arango (response.AsArangoErrorWithCode c))) := by
  constructor <;> intro P _ v options <;> constructor
  all_goals
    simp only [viewArangoSearch.SetProperties, viewArangoSearchAlias.SetProperties,
      connection.CallPut, http.StatusOK, errors.WithStack]
    generalize v.view.db.connection.answerStatus _ = res
    cases res with
    | failed output resp err => simp
    | answered output code =>
      by_cases hc : code = 200
      · simp [hc]
      · simp only [hc, if_false]
        first
          | (constructor
             · intro h; cases h
             · rintro ⟨r, hr⟩; cases hr; exact absurd rfl hc)
          | (intro r c hrc hne; cases hrc; rfl)

/-- C2 at a concrete handle: the transport answers the PUT with status 201, and `SetProperties`
returns the mapped API error with code 201 rather than nil. -/
theorem SetProperties_nil_iff_200_witness :
    ((viewArangoSearch.mk
        { name := "v1",
          db := exampleDatabase (.answered ⟨exampleStatus, ""⟩ 200)
            (.answered exampleStatus 201) }).SetProperties "links").1
      = some (.arango { Code := 201, ErrorNum := none, ErrorMessage := none }) :=
  (SetProperties_nil_iff_200.1 String _ "links").2 exampleStatus 201 rfl (by decide)

/-- C3: for both view kinds and both operations, when the connection call fails with a
transport error `e`, the operation returns `errors.WithStack(e)`: a non-nil error whose cause is
`e` and which is not an API error built from a status code.  The result is the same whatever
the transport wrote into the response envelope (`output`) and whatever response, if any, came
back beside the error (`resp`). -/
theorem transport_error_is_wrapped :
    (∀ (P : Type) [Inhabited P] (v : viewArangoSearch P) (e : GoError),
      (∀ output resp,
        v.view.db.connection.answerProperties
          { method := .GET, url := v.view.db.url ["_api", "view", v.view.name, "properties"],
            body := none } = .failed output resp e →
        v.Properties.1.2 = some (.withStack e) ∧
          (v.Properties.1.2.bind GoError.Unwrap) = some e ∧
          (v.Properties.1.2.map GoError.isArango) = some false) ∧
      (∀ options output resp,
        v.view.db.connection.answerStatus
          { method := .PUT, url := v.view.db.url ["_api", "view", v.view.name, "properties"],
            body := some options } = .failed output resp e →
        (v.SetProperties options).1 = some (.withStack e) ∧
          ((v.SetProperties options).1.bind GoError.Unwrap) = some e ∧
          ((v.SetProperties options).1.map GoError.isArango) = some false)) ∧
    (∀ (P : Type) [Inhabited P] (v : viewArangoSearchAlias P) (e : GoError),
      (∀ output resp,
        v.view.db.connection.answerProperties
          { method := .GET, url := v.view.db.url ["_api", "view", v.view.name, "properties"],
            body := none } = .failed output resp e →
        v.Properties.1.2 = some (.withStack e) ∧
          (v.Properties.1.2.bind GoError.Unwrap) = some e ∧
          (v.Properties.1.2.map GoError.isArango) = some false) ∧
      (∀ options output resp,
        v.view.db.connection.answerStatus
          { method := .PUT, url := v.view.db.url ["_api", "view", v.view.name, "properties"],
            body := some options } = .failed output resp e →
        (v.SetProperties options).1 = some (.withStack e) ∧
          ((v.SetProperties options).1.bind GoError.Unwrap) = some e ∧
          ((v.SetProperties options).1.map GoError.isArango) = some false)) := by
  constructor <;> intro P _ v e <;> constructor
  all_goals
    intros
    simp [viewArangoSearch.Properties, viewArangoSearch.SetProperties,
      viewArangoSearchAlias.Properties, viewArangoSearchAlias.SetProperties,
      connection.CallGet, connection.CallPut, errors.WithStack, GoError.Unwrap,
      GoError.isArango, *]

/-- C3 at a concrete handle: the GET fails with "connection refused" while the envelope holds a
payload and a response with code 200 came back beside the error; `Properties` of the alias view
returns the wrapped transport error. -/
theorem transport_error_is_wrapped_witness :
    (viewArangoSearchAlias.mk
        { name := "v1",
          db := exampleDatabase
            (.failed ⟨exampleStatus, "links"⟩ (some 200) (.transport "connection refused"))
            (.answered exampleStatus 200) }).Properties.1.2
      = some (.withStack (.transport "connection refused")) :=
  ((transport_error_is_wrapped.2 String _ (.transport "connection refused")).1
    ⟨exampleStatus, "links"⟩ (some 200) rfl).1

/-- C4: for every view handle with name `n` of either kind, `Properties` makes exactly one call
on the connection, a GET without body, and `SetProperties` makes exactly one call, a PUT whose
body is the given options value; both go to `db.url("_api", "view", n, "properties")`, and the
connection is otherwise left as it was. -/
theorem one_call_per_operation :
    (∀ (P : Type) [Inhabited P] (v : viewArangoSearch P) (options : P),
      v.Properties.2 =
        { v.view.db.connection with
          calls := v.view.db.connection.calls ++
            [{ method := .GET, url := v.view.db.url ["_api", "view", v.view.name, "properties"],
               body := none }] } ∧
      (v.SetProperties options).2 =
        { v.view.db.connection with
          calls := v.view.db.connection.calls ++
            [{ method := .PUT, url := v.view.db.url ["_api", "view", v.view.name, "properties"],
               body := some options }] }) ∧
    (∀ (P : Type) [Inhabited P] (v : viewArangoSearchAlias P) (options : P),
      v.Properties.2 =
        { v.view.db.connection with
          calls := v.view.db.connection.calls ++
            [{ method := .GET, url := v.view.db.url ["_api", "view", v.view.name, "properties"],
               body := none }] } ∧
      (v.SetProperties options).2 =
        { v.view.db.connection with
          calls := v.view.db.connection.calls ++
            [{ method := .PUT, url := v.view.db.url ["_api", "view", v.view.name, "properties"],
               body := some options }] }) := by
  constructor <;> intro P _ v options <;> constructor
  all_goals
    simp only [viewArangoSearch.Properties, viewArangoSearch.SetProperties,
      viewArangoSearchAlias.Properties, viewArangoSearchAlias.SetProperties,
      connection.CallGet, connection.CallPut]
    split
    · next h => simp only [Prod.mk.injEq] at h; rw [← h.2]
    · next h => simp only [Prod.mk.injEq] at h; rw [← h.2]; split <;> rfl

/-! ## Lemmas about the decoding helpers -/

theorem int64_ofLit_marshal (i : int64) :
    int64.ofLit (decide (i.val < 0)) i.val.natAbs = some i := by
  obtain ⟨v, lo, hi⟩ := i
  have hv : (if decide (v < 0) = true then -((v.natAbs : Nat) : Int)
      else ((v.natAbs : Nat) : Int)) = v := by
    by_cases h : v < 0
    · rw [if_pos (by simpa using h), Int.ofNat_natAbs_of_nonpos (le_of_lt h), neg_neg]
    · rw [if_neg (by simpa using h), Int.natAbs_of_nonneg (not_lt.mp h)]
  simp only [int64.ofLit, hv]
  simp [lo, hi]

theorem uint64_ofLit_marshal (u : uint64) : uint64.ofLit false u.val = some u := by
  obtain ⟨v, hi⟩ := u
  simp [uint64.ofLit, hi]

@[simp] theorem unmarshalPtrInt64_marshal (t : String) (i : int64) :
    unmarshalPtrInt64 t (marshalInt64 i) = .ok (some i) := by
  simp [unmarshalPtrInt64, marshalInt64, int64_ofLit_marshal]

@[simp] theorem unmarshalPtrUint64_marshal (u : uint64) :
    unmarshalPtrUint64 (marshalUint64 u) = .ok (some u) := by
  simp [unmarshalPtrUint64, marshalUint64, uint64_ofLit_marshal]

theorem bitLengthAux_zero (fuel : Nat) : bitLengthAux fuel 0 = 0 := by
  cases fuel <;> simp [bitLengthAux]

theorem bitLengthAux_of_bounds :
    ∀ (e n fuel : Nat), n ≤ fuel → 2 ^ e ≤ n → n < 2 ^ (e + 1) →
      bitLengthAux fuel n = e + 1 := by
  intro e
  induction e with
  | zero =>
    intro n fuel hf h1 h2
    have hn : n = 1 := by omega
    subst hn
    obtain ⟨fuel, rfl⟩ : ∃ k, fuel = k + 1 := ⟨fuel - 1, by omega⟩
    simp [bitLengthAux, bitLengthAux_zero]
  | succ e ih =>
    intro n fuel hf h1 h2
    have hpos : 0 < 2 ^ e := Nat.pow_pos (by decide)
    have h1' : 2 ^ e * 2 ≤ n := by rw [← Nat.pow_succ]; exact h1
    have h2' : n < 2 ^ (e + 1) * 2 := by rw [← Nat.pow_succ]; exact h2
    obtain ⟨fuel, rfl⟩ : ∃ k, fuel = k + 1 := ⟨fuel - 1, by omega⟩
    have hn0 : n ≠ 0 := by omega
    have := ih (n / 2) fuel (by omega) (by omega) (by omega)
    simp [bitLengthAux, hn0, this]

theorem bitLength_of_bounds (e n : Nat) (h1 : 2 ^ e ≤ n) (h2 : n < 2 ^ (e + 1)) :
    bitLength n = e + 1 :=
  bitLengthAux_of_bounds e n n (le_refl n) h1 h2

theorem float64.ofBits_bits (f : float64) : float64.ofBits f.bits = some f := by
  obtain ⟨b, h1, h2⟩ := f
  simp [float64.ofBits, h1, h2]

theorem float64.ofLit_of_toLit (f : float64) (neg : Bool) (mag : Nat)
    (h : f.toLit = some (neg, mag)) : float64.ofLit neg mag = some f := by
  have hf := float64.ofBits_bits f
  obtain ⟨b, hlt, hfin⟩ := f
  simp only [float64.toLit] at h
  simp only at hf
  by_cases hex : b / 4503599627370496 % 2048 = 0
  · rw [if_pos hex] at h
    by_cases hfr : b % 4503599627370496 = 0
    · rw [if_pos hfr] at h
      simp only [Option.some.injEq, Prod.mk.injEq] at h
      obtain ⟨hneg, hmag⟩ := h
      subst hmag
      have hb : (if neg = true then 9223372036854775808 else 0) = b := by
        subst hneg
        by_cases h63 : 9223372036854775808 ≤ b
        · simp only [h63, decide_True, if_true]; omega
        · simp only [h63, decide_False, Bool.false_eq_true, if_false]; omega
      simp only [float64.ofLit, if_true, hb, hf]
    · rw [if_neg hfr] at h
      cases h
  · rw [if_neg hex] at h
    split_ifs at h with hc
    obtain ⟨h1, h2, h3⟩ := hc
    simp only [Option.some.injEq, Prod.mk.injEq] at h
    obtain ⟨hneg, hmag⟩ := h
    obtain ⟨ex, hexd⟩ : ∃ ex, ex = b / 4503599627370496 % 2048 := ⟨_, rfl⟩
    obtain ⟨frac, hfrd⟩ : ∃ frac, frac = b % 4503599627370496 := ⟨_, rfl⟩
    rw [← hexd] at h1 h2 h3 hmag hex
    rw [← hfrd] at h3 hmag
    have hfrac : frac < 4503599627370496 := by omega
    obtain ⟨d, hd⟩ : ∃ d, d = 1075 - ex := ⟨_, rfl⟩
    rw [← hd] at h3 hmag
    have hd52 : d ≤ 52 := by omega
    have hM : mag * 2 ^ d = 4503599627370496 + frac := by
      rw [← hmag]
      exact Nat.div_mul_cancel (Nat.dvd_of_mod_eq_zero h3)
    have hpow : 2 ^ (52 - d) * 2 ^ d = 4503599627370496 := by
      rw [← Nat.pow_add, Nat.sub_add_cancel hd52]
    have hdpos : 0 < 2 ^ d := Nat.pow_pos (by decide)
    have hlo : 2 ^ (52 - d) ≤ mag := by
      apply Nat.le_of_mul_le_mul_right _ hdpos
      rw [hpow, hM]; omega
    have hhi : mag < 2 ^ (52 - d + 1) := by
      apply Nat.lt_of_mul_lt_mul_right (a := 2 ^ d)
      rw [Nat.pow_succ, Nat.mul_right_comm, hpow, hM]; omega
    have hbl : bitLength mag = 52 - d + 1 := bitLength_of_bounds _ _ hlo hhi
    have hmag0 : mag ≠ 0 := by
      have : 0 < 2 ^ (52 - d) := Nat.pow_pos (by decide)
      omega
    have hsub : 52 - (52 - d) = d := by omega
    have hb : (if neg = true then 9223372036854775808 else 0)
        + (52 - d + 1023) * 4503599627370496 + (mag * 2 ^ d - 4503599627370496) = b := by
      subst hneg
      rw [hM]
      by_cases h63 : 9223372036854775808 ≤ b
      · simp only [h63, decide_True, if_true]; omega
      · simp only [h63, decide_False, Bool.false_eq_true, if_false]; omega
    have hne : mag * 2 ^ d ≠ 9007199254740992 := by omega
    have hle : 52 - d ≤ 52 := by omega
    have hng : ¬ (52 - d > 1023) := by omega
    simp only [float64.ofLit, hmag0, if_false, hbl, Nat.add_sub_cancel, hle, if_true, hsub,
      hne, hng, hb, hf]

@[simp] theorem unmarshalPtrFloat64_marshal (f : float64) :
    unmarshalPtrFloat64 (marshalFloat64 f) = .ok (some f) := by
  unfold marshalFloat64
  cases h : f.toLit with
  | none => simp [unmarshalPtrFloat64]
  | some nm =>
    obtain ⟨neg, mag⟩ := nm
    simp [unmarshalPtrFloat64, float64.ofLit_of_toLit f neg mag h]

theorem marshalFloat64_not_null (f : float64) : (marshalFloat64 f).isNull = false := by
  unfold marshalFloat64
  cases h : f.toLit with
  | none => rfl
  | some nm => rfl

@[simp] theorem unmarshalStringItems_map_str (cur l : List String) :
    unmarshalStringItems cur (l.map JSON.str) = .ok l := by
  induction l generalizing cur with
  | nil => rfl
  | cons s l ih => simp [unmarshalStringItems, unmarshalString, ih]

@[simp] theorem unmarshalStrings_marshal (cur x : Option (List String)) :
    unmarshalStrings cur (marshalStrings x) = .ok x := by
  cases x <;> simp [unmarshalStrings, marshalStrings, Except.map]

/-! ### Folded forms of the tag names -/

@[simp] theorem foldName_isSystem : foldName "isSystem" = "issystem" := by decide
@[simp] theorem foldName_locale : foldName "locale" = "locale" := by decide
@[simp] theorem foldName_delimiter : foldName "delimiter" = "delimiter" := by decide
@[simp] theorem foldName_accent : foldName "accent" = "accent" := by decide
@[simp] theorem foldName_case : foldName "case" = "case" := by decide
@[simp] theorem foldName_edgeNgram : foldName "edgeNgram" = "edgengram" := by decide
@[simp] theorem foldName_min : foldName "min" = "min" := by decide
@[simp] theorem foldName_max : foldName "max" = "max" := by decide
@[simp] theorem foldName_preserveOriginal : foldName "preserveOriginal" = "preserveoriginal" := by decide
@[simp] theorem foldName_startMarker : foldName "startMarker" = "startmarker" := by decide
@[simp] theorem foldName_endMarker : foldName "endMarker" = "endmarker" := by decide
@[simp] theorem foldName_streamType : foldName "streamType" = "streamtype" := by decide
@[simp] theorem foldName_stemming : foldName "stemming" = "stemming" := by decide
@[simp] theorem foldName_stopwords : foldName "stopwords" = "stopwords" := by decide
@[simp] theorem foldName_stopwordsPath : foldName "stopwordsPath" = "stopwordspath" := by decide
@[simp] theorem foldName_queryString : foldName "queryString" = "querystring" := by decide
@[simp] theorem foldName_collapsePositions : foldName "collapsePositions" = "collapsepositions" := by decide
@[simp] theorem foldName_keepNull : foldName "keepNull" = "keepnull" := by decide
@[simp] theorem foldName_batchSize : foldName "batchSize" = "batchsize" := by decide
@[simp] theorem foldName_memoryLimit : foldName "memoryLimit" = "memorylimit" := by decide
@[simp] theorem foldName_returnType : foldName "returnType" = "returntype" := by decide
@[simp] theorem foldName_pipeline : foldName "pipeline" = "pipeline" := by decide
@[simp] theorem foldName_type : foldName "type" = "type" := by decide
@[simp] theorem foldName_options : foldName "options" = "options" := by decide
@[simp] theorem foldName_latitude : foldName "latitude" = "latitude" := by decide
@[simp] theorem foldName_longitude : foldName "longitude" = "longitude" := by decide
@[simp] theorem foldName_break : foldName "break" = "break" := by decide
@[simp] theorem foldName_hex : foldName "hex" = "hex" := by decide
@[simp] theorem foldName_model_location : foldName "model_location" = "model_location" := by decide
@[simp] theorem foldName_top_k : foldName "top_k" = "top_k" := by decide
@[simp] theorem foldName_threshold : foldName "threshold" = "threshold" := by decide
@[simp] theorem foldName_analyzer : foldName "analyzer" = "analyzer" := by decide
@[simp] theorem foldName_numHashes : foldName "numHashes" = "numhashes" := by decide
@[simp] theorem foldName_format : foldName "format" = "format" := by decide
@[simp] theorem foldName_maxCells : foldName "maxCells" = "maxcells" := by decide
@[simp] theorem foldName_minLevel : foldName "minLevel" = "minlevel" := by decide
@[simp] theorem foldName_maxLevel : foldName "maxLevel" = "maxlevel" := by decide
@[simp] theorem foldName_properties : foldName "properties" = "properties" := by decide
@[simp] theorem foldName_name : foldName "name" = "name" := by decide
@[simp] theorem foldName_features : foldName "features" = "features" := by decide

/-! ### Round trips of the two small structs -/

@[simp] theorem unmarshalPtr_marshal_EdgeNGram (e : ArangoSearchEdgeNGram) :
    ArangoSearchEdgeNGram.unmarshalPtr none e.marshal = .ok (some e) := by
  obtain ⟨a, b, c⟩ := e
  cases a <;> cases b <;> cases c <;>
    simp [ArangoSearchEdgeNGram.unmarshalPtr, ArangoSearchEdgeNGram.marshal,
      ArangoSearchEdgeNGram.unmarshalMembers, ArangoSearchEdgeNGram.setField,
      ArangoSearchEdgeNGram.zero, omitemptyPtr, unmarshalPtrBool, Except.map]

@[simp] theorem unmarshalPtr_marshal_GeoOptions
    (o : ArangoSearchAnalyzerGeoOptions) :
    ArangoSearchAnalyzerGeoOptions.unmarshalPtr none o.marshal = .ok (some o) := by
  obtain ⟨a, b, c⟩ := o
  cases a <;> cases b <;> cases c <;>
    simp [ArangoSearchAnalyzerGeoOptions.unmarshalPtr, ArangoSearchAnalyzerGeoOptions.marshal,
      ArangoSearchAnalyzerGeoOptions.unmarshalMembers, ArangoSearchAnalyzerGeoOptions.setField,
      ArangoSearchAnalyzerGeoOptions.zero, omitemptyPtr, Except.map]

/-! ### Decoding the member an encoder emits for one field

Each lemma takes the decoder through the member (if any) that the encoder emits for one field of
`ArangoSearchAnalyzerProperties`, with the field still at its zero value in the value being
filled. -/

theorem unmarshalMembers_IsSystem (acc : ArangoSearchAnalyzerProperties) (x : Bool)
    (rest : List (String × JSON)) (h : acc.IsSystem = false) :
    ArangoSearchAnalyzerProperties.unmarshalMembers acc (omitemptyBool "isSystem" x ++ rest)
      = ArangoSearchAnalyzerProperties.unmarshalMembers { acc with IsSystem := x } rest := by
  cases acc
  dsimp only at h
  subst h
  cases x <;>
    simp [omitemptyBool, omitemptyString, omitemptyPtr, omitemptySlice, dropEmptySlice,
      ArangoSearchAnalyzerProperties.unmarshalMembers, ArangoSearchAnalyzerProperties.setField,
      unmarshalBool, unmarshalString, unmarshalPtrBool, unmarshalPtrString,
      unmarshalStrings, unmarshalStringItems, Except.map]

theorem unmarshalMembers_Locale (acc : ArangoSearchAnalyzerProperties) (x : String)
    (rest : List (String × JSON)) (h : acc.Locale = "") :
    ArangoSearchAnalyzerProperties.unmarshalMembers acc (omitemptyString "locale" x ++ rest)
      = ArangoSearchAnalyzerProperties.unmarshalMembers { acc with Locale := x } rest := by
  cases acc
  dsimp only at h
  subst h
  by_cases hs : x = "" <;>
    simp [omitemptyBool, omitemptyString, omitemptyPtr, omitemptySlice, dropEmptySlice,
      ArangoSearchAnalyzerProperties.unmarshalMembers, ArangoSearchAnalyzerProperties.setField,
      unmarshalBool, unmarshalString, unmarshalPtrBool, unmarshalPtrString,
      unmarshalStrings, unmarshalStringItems, Except.map, hs]

theorem unmarshalMembers_Delimiter (acc : ArangoSearchAnalyzerProperties) (x : String)
    (rest : List (String × JSON)) (h : acc.Delimiter = "") :
    ArangoSearchAnalyzerProperties.unmarshalMembers acc (omitemptyString "delimiter" x ++ rest)
      = ArangoSearchAnalyzerProperties.unmarshalMembers { acc with Delimiter := x } rest := by
  cases acc
  dsimp only at h
  subst h
  by_cases hs : x = "" <;>
    simp [omitemptyBool, omitemptyString, omitemptyPtr, omitemptySlice, dropEmptySlice,
      ArangoSearchAnalyzerProperties.unmarshalMembers, ArangoSearchAnalyzerProperties.setField,
      unmarshalBool, unmarshalString, unmarshalPtrBool, unmarshalPtrString,
      unmarshalStrings, unmarshalStringItems, Except.map, hs]

theorem unmarshalMembers_Accent (acc : ArangoSearchAnalyzerProperties) (x : Option Bool)
    (rest : List (String × JSON)) (h : acc.Accent = none) :
    ArangoSearchAnalyzerProperties.unmarshalMembers acc (omitemptyPtr "accent" JSON.bool x ++ rest)
      = ArangoSearchAnalyzerProperties.unmarshalMembers { acc with Accent := x } rest := by
  cases acc
  dsimp only at h
  subst h
  cases x <;>
    simp [omitemptyBool, omitemptyString, omitemptyPtr, omitemptySlice, dropEmptySlice,
      ArangoSearchAnalyzerProperties.unmarshalMembers, ArangoSearchAnalyzerProperties.setField,
      unmarshalBool, unmarshalString, unmarshalPtrBool, unmarshalPtrString,
      unmarshalStrings, unmarshalStringItems, Except.map]

theorem unmarshalMembers_Case (acc : ArangoSearchAnalyzerProperties) (x : String)
    (rest : List (String × JSON)) (h : acc.Case = "") :
    ArangoSearchAnalyzerProperties.unmarshalMembers acc (omitemptyString "case" x ++ rest)
      = ArangoSearchAnalyzerProperties.unmarshalMembers { acc with Case := x } rest := by
  cases acc
  dsimp only at h
  subst h
  by_cases hs : x = "" <;>
    simp [omitemptyBool, omitemptyString, omitemptyPtr, omitemptySlice, dropEmptySlice,
      ArangoSearchAnalyzerProperties.unmarshalMembers, ArangoSearchAnalyzerProperties.setField,
      unmarshalBool, unmarshalString, unmarshalPtrBool, unmarshalPtrString,
      unmarshalStrings, unmarshalStringItems, Except.map, hs]

theorem unmarshalMembers_EdgeNGram (acc : ArangoSearchAnalyzerProperties) (x : Option ArangoSearchEdgeNGram)
    (rest : List (String × JSON)) (h : acc.EdgeNGram = none) :
    ArangoSearchAnalyzerProperties.unmarshalMembers acc (omitemptyPtr "edgeNgram" ArangoSearchEdgeNGram.marshal x ++ rest)
      = ArangoSearchAnalyzerProperties.unmarshalMembers { acc with EdgeNGram := x } rest := by
  cases acc
  dsimp only at h
  subst h
  cases x <;>
    simp [omitemptyBool, omitemptyString, omitemptyPtr, omitemptySlice, dropEmptySlice,
      ArangoSearchAnalyzerProperties.unmarshalMembers, ArangoSearchAnalyzerProperties.setField,
      unmarshalBool, unmarshalString, unmarshalPtrBool, unmarshalPtrString,
      unmarshalStrings, unmarshalStringItems, Except.map]

theorem unmarshalMembers_Min (acc : ArangoSearchAnalyzerProperties) (x : Option int64)
    (rest : List (String × JSON)) (h : acc.Min = none) :
    ArangoSearchAnalyzerProperties.unmarshalMembers acc (omitemptyPtr "min" marshalInt64 x ++ rest)
      = ArangoSearchAnalyzerProperties.unmarshalMembers { acc with Min := x } rest := by
  cases acc
  dsimp only at h
  subst h
  cases x <;>
    simp [omitemptyBool, omitemptyString, omitemptyPtr, omitemptySlice, dropEmptySlice,
      ArangoSearchAnalyzerProperties.unmarshalMembers, ArangoSearchAnalyzerProperties.setField,
      unmarshalBool, unmarshalString, unmarshalPtrBool, unmarshalPtrString,
      unmarshalStrings, unmarshalStringItems, Except.map]

theorem unmarshalMembers_Max (acc : ArangoSearchAnalyzerProperties) (x : Option int64)
    (rest : List (String × JSON)) (h : acc.Max = none) :
    ArangoSearchAnalyzerProperties.unmarshalMembers acc (omitemptyPtr "max" marshalInt64 x ++ rest)
      = ArangoSearchAnalyzerProperties.unmarshalMembers { acc with Max := x } rest := by
  cases acc
  dsimp only at h
  subst h
  cases x <;>
    simp [omitemptyBool, omitemptyString, omitemptyPtr, omitemptySlice, dropEmptySlice,
      ArangoSearchAnalyzerProperties.unmarshalMembers, ArangoSearchAnalyzerProperties.setField,
      unmarshalBool, unmarshalString, unmarshalPtrBool, unmarshalPtrString,
      unmarshalStrings, unmarshalStringItems, Except.map]

theorem unmarshalMembers_PreserveOriginal (acc : ArangoSearchAnalyzerProperties) (x : Option Bool)
    (rest : List (String × JSON)) (h : acc.PreserveOriginal = none) :
    ArangoSearchAnalyzerProperties.unmarshalMembers acc (omitemptyPtr "preserveOriginal" JSON.bool x ++ rest)
      = ArangoSearchAnalyzerProperties.unmarshalMembers { acc with PreserveOriginal := x } rest := by
  cases acc
  dsimp only at h
  subst h
  cases x <;>
    simp [omitemptyBool, omitemptyString, omitemptyPtr, omitemptySlice, dropEmptySlice,
      ArangoSearchAnalyzerProperties.unmarshalMembers, ArangoSearchAnalyzerProperties.setField,
      unmarshalBool, unmarshalString, unmarshalPtrBool, unmarshalPtrString,
      unmarshalStrings, unmarshalStringItems, Except.map]

theorem unmarshalMembers_StartMarker (acc : ArangoSearchAnalyzerProperties) (x : Option String)
    (rest : List (String × JSON)) (h : acc.StartMarker = none) :
    ArangoSearchAnalyzerProperties.unmarshalMembers acc (omitemptyPtr "startMarker" JSON.str x ++ rest)
      = ArangoSearchAnalyzerProperties.unmarshalMembers { acc with StartMarker := x } rest := by
  cases acc
  dsimp only at h
  subst h
  cases x <;>
    simp [omitemptyBool, omitemptyString, omitemptyPtr, omitemptySlice, dropEmptySlice,
      ArangoSearchAnalyzerProperties.unmarshalMembers, ArangoSearchAnalyzerProperties.setField,
      unmarshalBool, unmarshalString, unmarshalPtrBool, unmarshalPtrString,
      unmarshalStrings, unmarshalStringItems, Except.map]

theorem unmarshalMembers_EndMarker (acc : ArangoSearchAnalyzerProperties) (x : Option String)
    (rest : List (String × JSON)) (h : acc.EndMarker = none) :
    ArangoSearchAnalyzerProperties.unmarshalMembers acc (omitemptyPtr "endMarker" JSON.str x ++ rest)
      = ArangoSearchAnalyzerProperties.unmarshalMembers { acc with EndMarker := x } rest := by
  cases acc
  dsimp only at h
  subst h
  cases x <;>
    simp [omitemptyBool, omitemptyString, omitemptyPtr, omitemptySlice, dropEmptySlice,
      ArangoSearchAnalyzerProperties.unmarshalMembers, ArangoSearchAnalyzerProperties.setField,
      unmarshalBool, unmarshalString, unmarshalPtrBool, unmarshalPtrString,
      unmarshalStrings, unmarshalStringItems, Except.map]

theorem unmarshalMembers_StreamType (acc : ArangoSearchAnalyzerProperties) (x : Option String)
    (rest : List (String × JSON)) (h : acc.StreamType = none) :
    ArangoSearchAnalyzerProperties.unmarshalMembers acc (omitemptyPtr "streamType" JSON.str x ++ rest)
      = ArangoSearchAnalyzerProperties.unmarshalMembers { acc with StreamType := x } rest := by
  cases acc
  dsimp only at h
  subst h
  cases x <;>
    simp [omitemptyBool, omitemptyString, omitemptyPtr, omitemptySlice, dropEmptySlice,
      ArangoSearchAnalyzerProperties.unmarshalMembers, ArangoSearchAnalyzerProperties.setField,
      unmarshalBool, unmarshalString, unmarshalPtrBool, unmarshalPtrString,
      unmarshalStrings, unmarshalStringItems, Except.map]

theorem unmarshalMembers_Stemming (acc : ArangoSearchAnalyzerProperties) (x : Option Bool)
    (rest : List (String × JSON)) (h : acc.Stemming = none) :
    ArangoSearchAnalyzerProperties.unmarshalMembers acc (omitemptyPtr "stemming" JSON.bool x ++ rest)
      = ArangoSearchAnalyzerProperties.unmarshalMembers { acc with Stemming := x } rest := by
  cases acc
  dsimp only at h
  subst h
  cases x <;>
    simp [omitemptyBool, omitemptyString, omitemptyPtr, omitemptySlice, dropEmptySlice,
      ArangoSearchAnalyzerProperties.unmarshalMembers, ArangoSearchAnalyzerProperties.setField,
      unmarshalBool, unmarshalString, unmarshalPtrBool, unmarshalPtrString,
      unmarshalStrings, unmarshalStringItems, Except.map]

theorem unmarshalMembers_Stopwords (acc : ArangoSearchAnalyzerProperties) (x : Option (List String))
    (rest : List (String × JSON)) :
    ArangoSearchAnalyzerProperties.unmarshalMembers acc ([("stopwords", marshalStrings x)] ++ rest)
      = ArangoSearchAnalyzerProperties.unmarshalMembers { acc with Stopwords := x } rest := by
  simp [ArangoSearchAnalyzerProperties.unmarshalMembers, ArangoSearchAnalyzerProperties.setField,
    Except.map]

theorem unmarshalMembers_StopwordsPath (acc : ArangoSearchAnalyzerProperties) (x : Option (List String))
    (rest : List (String × JSON)) (h : acc.StopwordsPath = none) :
    ArangoSearchAnalyzerProperties.unmarshalMembers acc (omitemptySlice "stopwordsPath" JSON.str x ++ rest)
      = ArangoSearchAnalyzerProperties.unmarshalMembers { acc with StopwordsPath := dropEmptySlice x } rest := by
  cases acc
  dsimp only at h
  subst h
  rcases x with _ | _ | _ <;>
    simp [omitemptyBool, omitemptyString, omitemptyPtr, omitemptySlice, dropEmptySlice,
      ArangoSearchAnalyzerProperties.unmarshalMembers, ArangoSearchAnalyzerProperties.setField,
      unmarshalBool, unmarshalString, unmarshalPtrBool, unmarshalPtrString,
      unmarshalStrings, unmarshalStringItems, Except.map]

theorem unmarshalMembers_QueryString (acc : ArangoSearchAnalyzerProperties) (x : String)
    (rest : List (String × JSON)) (h : acc.QueryString = "") :
    ArangoSearchAnalyzerProperties.unmarshalMembers acc (omitemptyString "queryString" x ++ rest)
      = ArangoSearchAnalyzerProperties.unmarshalMembers { acc with QueryString := x } rest := by
  cases acc
  dsimp only at h
  subst h
  by_cases hs : x = "" <;>
    simp [omitemptyBool, omitemptyString, omitemptyPtr, omitemptySlice, dropEmptySlice,
      ArangoSearchAnalyzerProperties.unmarshalMembers, ArangoSearchAnalyzerProperties.setField,
      unmarshalBool, unmarshalString, unmarshalPtrBool, unmarshalPtrString,
      unmarshalStrings, unmarshalStringItems, Except.map, hs]

theorem unmarshalMembers_CollapsePositions (acc : ArangoSearchAnalyzerProperties) (x : Option Bool)
    (rest : List (String × JSON)) (h : acc.CollapsePositions = none) :
    ArangoSearchAnalyzerProperties.unmarshalMembers acc (omitemptyPtr "collapsePositions" JSON.bool x ++ rest)
      = ArangoSearchAnalyzerProperties.unmarshalMembers { acc with CollapsePositions := x } rest := by
  cases acc
  dsimp only at h
  subst h
  cases x <;>
    simp [omitemptyBool, omitemptyString, omitemptyPtr, omitemptySlice, dropEmptySlice,
      ArangoSearchAnalyzerProperties.unmarshalMembers, ArangoSearchAnalyzerProperties.setField,
      unmarshalBool, unmarshalString, unmarshalPtrBool, unmarshalPtrString,
      unmarshalStrings, unmarshalStringItems, Except.map]

theorem unmarshalMembers_KeepNull (acc : ArangoSearchAnalyzerProperties) (x : Option Bool)
    (rest : List (String × JSON)) (h : acc.KeepNull = none) :
    ArangoSearchAnalyzerProperties.unmarshalMembers acc (omitemptyPtr "keepNull" JSON.bool x ++ rest)
      = ArangoSearchAnalyzerProperties.unmarshalMembers { acc with KeepNull := x } rest := by
  cases acc
  dsimp only at h
  subst h
  cases x <;>
    simp [omitemptyBool, omitemptyString, omitemptyPtr, omitemptySlice, dropEmptySlice,
      ArangoSearchAnalyzerProperties.unmarshalMembers, ArangoSearchAnalyzerProperties.setField,
      unmarshalBool, unmarshalString, unmarshalPtrBool, unmarshalPtrString,
      unmarshalStrings, unmarshalStringItems, Except.map]

theorem unmarshalMembers_BatchSize (acc : ArangoSearchAnalyzerProperties) (x : Option int64)
    (rest : List (String × JSON)) (h : acc.BatchSize = none) :
    ArangoSearchAnalyzerProperties.unmarshalMembers acc (omitemptyPtr "batchSize" marshalInt64 x ++ rest)
      = ArangoSearchAnalyzerProperties.unmarshalMembers { acc with BatchSize := x } rest := by
  cases acc
  dsimp only at h
  subst h
  cases x <;>
    simp [omitemptyBool, omitemptyString, omitemptyPtr, omitemptySlice, dropEmptySlice,
      ArangoSearchAnalyzerProperties.unmarshalMembers, ArangoSearchAnalyzerProperties.setField,
      unmarshalBool, unmarshalString, unmarshalPtrBool, unmarshalPtrString,
      unmarshalStrings, unmarshalStringItems, Except.map]

theorem unmarshalMembers_MemoryLimit (acc : ArangoSearchAnalyzerProperties) (x : Option int64)
    (rest : List (String × JSON)) (h : acc.MemoryLimit = none) :
    ArangoSearchAnalyzerProperties.unmarshalMembers acc (omitemptyPtr "memoryLimit" marshalInt64 x ++ rest)
      = ArangoSearchAnalyzerProperties.unmarshalMembers { acc with MemoryLimit := x } rest := by
  cases acc
  dsimp only at h
  subst h
  cases x <;>
    simp [omitemptyBool, omitemptyString, omitemptyPtr, omitemptySlice, dropEmptySlice,
      ArangoSearchAnalyzerProperties.unmarshalMembers, ArangoSearchAnalyzerProperties.setField,
      unmarshalBool, unmarshalString, unmarshalPtrBool, unmarshalPtrString,
      unmarshalStrings, unmarshalStringItems, Except.map]

theorem unmarshalMembers_ReturnType (acc : ArangoSearchAnalyzerProperties) (x : Option String)
    (rest : List (String × JSON)) (h : acc.ReturnType = none) :
    ArangoSearchAnalyzerProperties.unmarshalMembers acc (omitemptyPtr "returnType" JSON.str x ++ rest)
      = ArangoSearchAnalyzerProperties.unmarshalMembers { acc with ReturnType := x } rest := by
  cases acc
  dsimp only at h
  subst h
  cases x <;>
    simp [omitemptyBool, omitemptyString, omitemptyPtr, omitemptySlice, dropEmptySlice,
      ArangoSearchAnalyzerProperties.unmarshalMembers, ArangoSearchAnalyzerProperties.setField,
      unmarshalBool, unmarshalString, unmarshalPtrBool, unmarshalPtrString,
      unmarshalStrings, unmarshalStringItems, Except.map]

theorem unmarshalMembers_Type (acc : ArangoSearchAnalyzerProperties) (x : Option String)
    (rest : List (String × JSON)) (h : acc.Type_ = none) :
    ArangoSearchAnalyzerProperties.unmarshalMembers acc (omitemptyPtr "type" JSON.str x ++ rest)
      = ArangoSearchAnalyzerProperties.unmarshalMembers { acc with Type_ := x } rest := by
  cases acc
  dsimp only at h
  subst h
  cases x <;>
    simp [omitemptyBool, omitemptyString, omitemptyPtr, omitemptySlice, dropEmptySlice,
      ArangoSearchAnalyzerProperties.unmarshalMembers, ArangoSearchAnalyzerProperties.setField,
      unmarshalBool, unmarshalString, unmarshalPtrBool, unmarshalPtrString,
      unmarshalStrings, unmarshalStringItems, Except.map]

theorem unmarshalMembers_Options (acc : ArangoSearchAnalyzerProperties) (x : Option ArangoSearchAnalyzerGeoOptions)
    (rest : List (String × JSON)) (h : acc.Options = none) :
    ArangoSearchAnalyzerProperties.unmarshalMembers acc (omitemptyPtr "options" ArangoSearchAnalyzerGeoOptions.marshal x ++ rest)
      = ArangoSearchAnalyzerProperties.unmarshalMembers { acc with Options := x } rest := by
  cases acc
  dsimp only at h
  subst h
  cases x <;>
    simp [omitemptyBool, omitemptyString, omitemptyPtr, omitemptySlice, dropEmptySlice,
      ArangoSearchAnalyzerProperties.unmarshalMembers, ArangoSearchAnalyzerProperties.setField,
      unmarshalBool, unmarshalString, unmarshalPtrBool, unmarshalPtrString,
      unmarshalStrings, unmarshalStringItems, Except.map]

theorem unmarshalMembers_Latitude (acc : ArangoSearchAnalyzerProperties) (x : Option (List String))
    (rest : List (String × JSON)) (h : acc.Latitude = none) :
    ArangoSearchAnalyzerProperties.unmarshalMembers acc (omitemptySlice "latitude" JSON.str x ++ rest)
      = ArangoSearchAnalyzerProperties.unmarshalMembers { acc with Latitude := dropEmptySlice x } rest := by
  cases acc
  dsimp only at h
  subst h
  rcases x with _ | _ | _ <;>
    simp [omitemptyBool, omitemptyString, omitemptyPtr, omitemptySlice, dropEmptySlice,
      ArangoSearchAnalyzerProperties.unmarshalMembers, ArangoSearchAnalyzerProperties.setField,
      unmarshalBool, unmarshalString, unmarshalPtrBool, unmarshalPtrString,
      unmarshalStrings, unmarshalStringItems, Except.map]

theorem unmarshalMembers_Longitude (acc : ArangoSearchAnalyzerProperties) (x : Option (List String))
    (rest : List (String × JSON)) (h : acc.Longitude = none) :
    ArangoSearchAnalyzerProperties.unmarshalMembers acc (omitemptySlice "longitude" JSON.str x ++ rest)
      = ArangoSearchAnalyzerProperties.unmarshalMembers { acc with Longitude := dropEmptySlice x } rest := by
  cases acc
  dsimp only at h
  subst h
  rcases x with _ | _ | _ <;>
    simp [omitemptyBool, omitemptyString, omitemptyPtr, omitemptySlice, dropEmptySlice,
      ArangoSearchAnalyzerProperties.unmarshalMembers, ArangoSearchAnalyzerProperties.setField,
      unmarshalBool, unmarshalString, unmarshalPtrBool, unmarshalPtrString,
      unmarshalStrings, unmarshalStringItems, Except.map]

theorem unmarshalMembers_Break (acc : ArangoSearchAnalyzerProperties) (x : String)
    (rest : List (String × JSON)) (h : acc.Break = "") :
    ArangoSearchAnalyzerProperties.unmarshalMembers acc (omitemptyString "break" x ++ rest)
      = ArangoSearchAnalyzerProperties.unmarshalMembers { acc with Break := x } rest := by
  cases acc
  dsimp only at h
  subst h
  by_cases hs : x = "" <;>
    simp [omitemptyBool, omitemptyString, omitemptyPtr, omitemptySlice, dropEmptySlice,
      ArangoSearchAnalyzerProperties.unmarshalMembers, ArangoSearchAnalyzerProperties.setField,
      unmarshalBool, unmarshalString, unmarshalPtrBool, unmarshalPtrString,
      unmarshalStrings, unmarshalStringItems, Except.map, hs]

theorem unmarshalMembers_Hex (acc : ArangoSearchAnalyzerProperties) (x : Option Bool)
    (rest : List (String × JSON)) (h : acc.Hex = none) :
    ArangoSearchAnalyzerProperties.unmarshalMembers acc (omitemptyPtr "hex" JSON.bool x ++ rest)
      = ArangoSearchAnalyzerProperties.unmarshalMembers { acc with Hex := x } rest := by
  cases acc
  dsimp only at h
  subst h
  cases x <;>
    simp [omitemptyBool, omitemptyString, omitemptyPtr, omitemptySlice, dropEmptySlice,
      ArangoSearchAnalyzerProperties.unmarshalMembers, ArangoSearchAnalyzerProperties.setField,
      unmarshalBool, unmarshalString, unmarshalPtrBool, unmarshalPtrString,
      unmarshalStrings, unmarshalStringItems, Except.map]

theorem unmarshalMembers_ModelLocation (acc : ArangoSearchAnalyzerProperties) (x : String)
    (rest : List (String × JSON)) (h : acc.ModelLocation = "") :
    ArangoSearchAnalyzerProperties.unmarshalMembers acc (omitemptyString "model_location" x ++ rest)
      = ArangoSearchAnalyzerProperties.unmarshalMembers { acc with ModelLocation := x } rest := by
  cases acc
  dsimp only at h
  subst h
  by_cases hs : x = "" <;>
    simp [omitemptyBool, omitemptyString, omitemptyPtr, omitemptySlice, dropEmptySlice,
      ArangoSearchAnalyzerProperties.unmarshalMembers, ArangoSearchAnalyzerProperties.setField,
      unmarshalBool, unmarshalString, unmarshalPtrBool, unmarshalPtrString,
      unmarshalStrings, unmarshalStringItems, Except.map, hs]

theorem unmarshalMembers_TopK (acc : ArangoSearchAnalyzerProperties) (x : Option uint64)
    (rest : List (String × JSON)) (h : acc.TopK = none) :
    ArangoSearchAnalyzerProperties.unmarshalMembers acc (omitemptyPtr "top_k" marshalUint64 x ++ rest)
      = ArangoSearchAnalyzerProperties.unmarshalMembers { acc with TopK := x } rest := by
  cases acc
  dsimp only at h
  subst h
  cases x <;>
    simp [omitemptyBool, omitemptyString, omitemptyPtr, omitemptySlice, dropEmptySlice,
      ArangoSearchAnalyzerProperties.unmarshalMembers, ArangoSearchAnalyzerProperties.setField,
      unmarshalBool, unmarshalString, unmarshalPtrBool, unmarshalPtrString,
      unmarshalStrings, unmarshalStringItems, Except.map]

theorem unmarshalMembers_Threshold (acc : ArangoSearchAnalyzerProperties) (x : Option float64)
    (rest : List (String × JSON)) (h : acc.Threshold = none) :
    ArangoSearchAnalyzerProperties.unmarshalMembers acc (omitemptyPtr "threshold" marshalFloat64 x ++ rest)
      = ArangoSearchAnalyzerProperties.unmarshalMembers { acc with Threshold := x } rest := by
  cases acc
  dsimp only at h
  subst h
  cases x <;>
    simp [omitemptyBool, omitemptyString, omitemptyPtr, omitemptySlice, dropEmptySlice,
      ArangoSearchAnalyzerProperties.unmarshalMembers, ArangoSearchAnalyzerProperties.setField,
      unmarshalBool, unmarshalString, unmarshalPtrBool, unmarshalPtrString,
      unmarshalStrings, unmarshalStringItems, Except.map]

theorem unmarshalMembers_NumHashes (acc : ArangoSearchAnalyzerProperties) (x : Option uint64)
    (rest : List (String × JSON)) (h : acc.NumHashes = none) :
    ArangoSearchAnalyzerProperties.unmarshalMembers acc (omitemptyPtr "numHashes" marshalUint64 x ++ rest)
      = ArangoSearchAnalyzerProperties.unmarshalMembers { acc with NumHashes := x } rest := by
  cases acc
  dsimp only at h
  subst h
  cases x <;>
    simp [omitemptyBool, omitemptyString, omitemptyPtr, omitemptySlice, dropEmptySlice,
      ArangoSearchAnalyzerProperties.unmarshalMembers, ArangoSearchAnalyzerProperties.setField,
      unmarshalBool, unmarshalString, unmarshalPtrBool, unmarshalPtrString,
      unmarshalStrings, unmarshalStringItems, Except.map]

theorem unmarshalMembers_Format (acc : ArangoSearchAnalyzerProperties) (x : Option String)
    (rest : List (String × JSON)) (h : acc.Format = none) :
    ArangoSearchAnalyzerProperties.unmarshalMembers acc (omitemptyPtr "format" JSON.str x ++ rest)
      = ArangoSearchAnalyzerProperties.unmarshalMembers { acc with Format := x } rest := by
  cases acc
  dsimp only at h
  subst h
  cases x <;>
    simp [omitemptyBool, omitemptyString, omitemptyPtr, omitemptySlice, dropEmptySlice,
      ArangoSearchAnalyzerProperties.unmarshalMembers, ArangoSearchAnalyzerProperties.setField,
      unmarshalBool, unmarshalString, unmarshalPtrBool, unmarshalPtrString,
      unmarshalStrings, unmarshalStringItems, Except.map]

/-! ### The round trip -/

mutual
/-- Decoding the encoding of a properties value into a fresh value gives the value back, up to
empty `omitempty` slices. -/
theorem unmarshal_marshal_properties :
    ∀ (p : ArangoSearchAnalyzerProperties),
      ArangoSearchAnalyzerProperties.unmarshal ArangoSearchAnalyzerProperties.zero p.marshal
        = .ok p.dropEmptySlices
  | { Pipeline := pipeline, Analyzer := analyzer, .. } => by
    have hp := unmarshalMembers_Pipeline_aux pipeline
    have ha := unmarshalMembers_Analyzer_aux analyzer
    simp only [ArangoSearchAnalyzerProperties.marshal, ArangoSearchAnalyzerProperties.unmarshal,
      ArangoSearchAnalyzerProperties.dropEmptySlices, ArangoSearchAnalyzerProperties.zero]
    rw [← List.append_nil (omitemptyPtr "format" JSON.str _)]
    simp only [List.append_assoc]
    simp only [unmarshalMembers_IsSystem,
      unmarshalMembers_Locale,
      unmarshalMembers_Delimiter,
      unmarshalMembers_Accent,
      unmarshalMembers_Case,
      unmarshalMembers_EdgeNGram,
      unmarshalMembers_Min,
      unmarshalMembers_Max,
      unmarshalMembers_PreserveOriginal,
      unmarshalMembers_StartMarker,
      unmarshalMembers_EndMarker,
      unmarshalMembers_StreamType,
      unmarshalMembers_Stemming,
      unmarshalMembers_Stopwords,
      unmarshalMembers_StopwordsPath,
      unmarshalMembers_QueryString,
      unmarshalMembers_CollapsePositions,
      unmarshalMembers_KeepNull,
      unmarshalMembers_BatchSize,
      unmarshalMembers_MemoryLimit,
      unmarshalMembers_ReturnType,
      unmarshalMembers_Type,
      unmarshalMembers_Options,
      unmarshalMembers_Latitude,
      unmarshalMembers_Longitude,
      unmarshalMembers_Break,
      unmarshalMembers_Hex,
      unmarshalMembers_ModelLocation,
      unmarshalMembers_TopK,
      unmarshalMembers_Threshold,
      unmarshalMembers_NumHashes,
      unmarshalMembers_Format, hp, ha]
    simp only [ArangoSearchAnalyzerProperties.unmarshalMembers]
/-- The decoder on the member emitted for the field `Pipeline`. -/
theorem unmarshalMembers_Pipeline_aux :
    ∀ (pipeline : Option (List ArangoSearchAnalyzerPipeline))
      (acc : ArangoSearchAnalyzerProperties) (rest : List (String × JSON)),
      acc.Pipeline = none →
      ArangoSearchAnalyzerProperties.unmarshalMembers acc (marshalPipelineField pipeline ++ rest)
        = ArangoSearchAnalyzerProperties.unmarshalMembers
            { acc with Pipeline := dropEmptyPipeline pipeline } rest
  | none, acc, rest, h => by
    cases acc; dsimp only at h; subst h
    simp [marshalPipelineField, dropEmptyPipeline]
  | some [], acc, rest, h => by
    cases acc; dsimp only at h; subst h
    simp [marshalPipelineField, dropEmptyPipeline]
  | some (s :: l), acc, rest, h => by
    have hi := unmarshalPipelineItems_marshal (s :: l)
    cases acc; dsimp only at h; subst h
    simp [marshalPipelineField, dropEmptyPipeline, unmarshalPipeline,
      ArangoSearchAnalyzerProperties.unmarshalMembers, hi]
/-- Decoding the encoded stages of a pipeline. -/
theorem unmarshalPipelineItems_marshal :
    ∀ (l : List ArangoSearchAnalyzerPipeline),
      unmarshalPipelineItems [] (marshalPipelineItems l) = .ok (dropEmptyPipelineItems l)
  | [] => by simp [unmarshalPipelineItems, marshalPipelineItems, dropEmptyPipelineItems]
  | s :: l => by
    have hs := unmarshal_marshal_stage s
    have hl := unmarshalPipelineItems_marshal l
    simp [unmarshalPipelineItems, marshalPipelineItems, dropEmptyPipelineItems, hs, hl]
/-- Decoding the encoding of one stage into a fresh stage. -/
theorem unmarshal_marshal_stage :
    ∀ (s : ArangoSearchAnalyzerPipeline),
      ArangoSearchAnalyzerPipeline.unmarshal ArangoSearchAnalyzerPipeline.zero
          (ArangoSearchAnalyzerPipeline.marshal s)
        = .ok (ArangoSearchAnalyzerPipeline.dropEmptySlices s)
  | { Type_ := t, Properties := p } => by
    have hp := unmarshal_marshal_properties p
    simp [ArangoSearchAnalyzerPipeline.unmarshal, ArangoSearchAnalyzerPipeline.marshal,
      ArangoSearchAnalyzerPipeline.unmarshalMembers, ArangoSearchAnalyzerPipeline.zero,
      ArangoSearchAnalyzerPipeline.dropEmptySlices, unmarshalString, hp]
/-- The decoder on the member emitted for the field `Analyzer`. -/
theorem unmarshalMembers_Analyzer_aux :
    ∀ (analyzer : Option AnalyzerDefinition)
      (acc : ArangoSearchAnalyzerProperties) (rest : List (String × JSON)),
      acc.Analyzer = none →
      ArangoSearchAnalyzerProperties.unmarshalMembers acc (marshalAnalyzerField analyzer ++ rest)
        = ArangoSearchAnalyzerProperties.unmarshalMembers
            { acc with Analyzer := dropEmptyAnalyzer analyzer } rest
  | none, acc, rest, h => by
    cases acc; dsimp only at h; subst h
    simp [marshalAnalyzerField, dropEmptyAnalyzer]
  | some d, acc, rest, h => by
    have hd := unmarshal_marshal_definition d
    cases acc; dsimp only at h; subst h
    simp [marshalAnalyzerField, dropEmptyAnalyzer,
      ArangoSearchAnalyzerProperties.unmarshalMembers, hd]
/-- Decoding the encoding of an analyzer definition into a nil pointer. -/
theorem unmarshal_marshal_definition :
    ∀ (d : AnalyzerDefinition),
      AnalyzerDefinition.unmarshalPtr none (AnalyzerDefinition.marshal d)
        = .ok (some (AnalyzerDefinition.dropEmptySlices d))
  | { Name := n, Type_ := t, Properties := p, Features := f } => by
    have hp := unmarshal_marshal_properties p
    by_cases hn : n = "" <;> by_cases ht : t = "" <;> rcases f with _ | _ | _ <;>
      simp [AnalyzerDefinition.unmarshalPtr, AnalyzerDefinition.marshal,
        AnalyzerDefinition.unmarshalMembers, AnalyzerDefinition.zero,
        AnalyzerDefinition.dropEmptySlices, omitemptyString, omitemptySlice, dropEmptySlice,
        unmarshalString, unmarshalStrings, unmarshalStringItems, Except.map, hp, hn, ht]
end

/-! ### Keys of an encoding -/

theorem keys_omitemptyBool (k : String) (b : Bool) :
    (omitemptyBool k b).map Prod.fst = keyIf b k := by
  cases b <;> simp [omitemptyBool, keyIf]

theorem keys_omitemptyString (k : String) (s : String) :
    (omitemptyString k s).map Prod.fst = keyIf (decide (s ≠ "")) k := by
  by_cases h : s = "" <;> simp [omitemptyString, keyIf, h]

theorem keys_omitemptyPtr {α : Type} (k : String) (enc : α → JSON) (x : Option α) :
    (omitemptyPtr k enc x).map Prod.fst = keyIf x.isSome k := by
  cases x <;> simp [omitemptyPtr, keyIf]

theorem keys_omitemptySlice {α : Type} (k : String) (enc : α → JSON) (x : Option (List α)) :
    (omitemptySlice k enc x).map Prod.fst = keyIf (decide (0 < (x.getD []).length)) k := by
  rcases x with _ | _ | _ <;> simp [omitemptySlice, keyIf]

theorem keys_marshalPipelineField (x : Option (List ArangoSearchAnalyzerPipeline)) :
    (marshalPipelineField x).map Prod.fst
      = keyIf (decide (0 < (x.getD []).length)) "pipeline" := by
  rcases x with _ | _ | _ <;> simp [marshalPipelineField, keyIf]

theorem keys_marshalAnalyzerField (x : Option AnalyzerDefinition) :
    (marshalAnalyzerField x).map Prod.fst = keyIf x.isSome "analyzer" := by
  cases x <;> simp [marshalAnalyzerField, keyIf]

/-- The keys of an encoding are the keys of the populated fields, plus `stopwords`. -/
theorem keys_marshal (p : ArangoSearchAnalyzerProperties) :
    p.marshal.keys = p.populatedKeys := by
  cases p
  simp only [ArangoSearchAnalyzerProperties.marshal, JSON.keys, JSON.members, List.map_append,
    keys_omitemptyBool, keys_omitemptyString, keys_omitemptyPtr, keys_omitemptySlice,
    keys_marshalPipelineField, keys_marshalAnalyzerField,
    ArangoSearchAnalyzerProperties.populatedKeys, List.map_cons, List.map_nil]
  rfl

/-! ### Values a round trip leaves as they are -/

theorem dropEmptySlice_of_notEmptySlice {α : Type} (x : Option (List α))
    (h : notEmptySlice x = true) : dropEmptySlice x = x := by
  rcases x with _ | _ | _ <;> simp_all [notEmptySlice, dropEmptySlice]

mutual
/-- A properties value without empty `omitempty` slices is its own round-trip form. -/
theorem dropEmptySlices_of_noEmptySlices :
    ∀ (p : ArangoSearchAnalyzerProperties), p.noEmptySlices = true → p.dropEmptySlices = p
  | { Pipeline := pipeline, Analyzer := analyzer, .. }, h => by
    simp only [ArangoSearchAnalyzerProperties.noEmptySlices, Bool.and_eq_true] at h
    obtain ⟨⟨⟨⟨h1, h2⟩, h3⟩, h4⟩, h5⟩ := h
    simp only [ArangoSearchAnalyzerProperties.dropEmptySlices,
      dropEmptySlice_of_notEmptySlice _ h1, dropEmptySlice_of_notEmptySlice _ h3,
      dropEmptySlice_of_notEmptySlice _ h4, dropEmptyPipeline_of_noEmpty pipeline h2,
      dropEmptyAnalyzer_of_noEmpty analyzer h5]
theorem dropEmptyPipeline_of_noEmpty :
    ∀ (x : Option (List ArangoSearchAnalyzerPipeline)),
      noEmptyPipeline x = true → dropEmptyPipeline x = x
  | none, _ => by simp [dropEmptyPipeline]
  | some [], h => by simp [noEmptyPipeline] at h
  | some (s :: l), h => by
    simp only [noEmptyPipeline] at h
    simp only [dropEmptyPipeline, dropEmptyPipelineItems_of_noEmpty (s :: l) h]
theorem dropEmptyPipelineItems_of_noEmpty :
    ∀ (l : List ArangoSearchAnalyzerPipeline),
      noEmptyPipelineItems l = true → dropEmptyPipelineItems l = l
  | [], _ => by simp [dropEmptyPipelineItems]
  | s :: l, h => by
    simp only [noEmptyPipelineItems, Bool.and_eq_true] at h
    simp only [dropEmptyPipelineItems, dropEmptyStage_of_noEmpty s h.1,
      dropEmptyPipelineItems_of_noEmpty l h.2]
theorem dropEmptyStage_of_noEmpty :
    ∀ (s : ArangoSearchAnalyzerPipeline),
      ArangoSearchAnalyzerPipeline.noEmptySlices s = true →
        ArangoSearchAnalyzerPipeline.dropEmptySlices s = s
  | { Type_ := t, Properties := p }, h => by
    simp only [ArangoSearchAnalyzerPipeline.noEmptySlices] at h
    simp only [ArangoSearchAnalyzerPipeline.dropEmptySlices,
      dropEmptySlices_of_noEmptySlices p h]
theorem dropEmptyAnalyzer_of_noEmpty :
    ∀ (x : Option AnalyzerDefinition), noEmptyAnalyzer x = true → dropEmptyAnalyzer x = x
  | none, _ => by simp [dropEmptyAnalyzer]
  | some d, h => by
    simp only [noEmptyAnalyzer] at h
    simp only [dropEmptyAnalyzer, dropEmptyDefinition_of_noEmpty d h]
theorem dropEmptyDefinition_of_noEmpty :
    ∀ (d : AnalyzerDefinition),
      AnalyzerDefinition.noEmptySlices d = true → AnalyzerDefinition.dropEmptySlices d = d
  | { Name := n, Type_ := t, Properties := p, Features := f }, h => by
    simp only [AnalyzerDefinition.noEmptySlices, Bool.and_eq_true] at h
    simp only [AnalyzerDefinition.dropEmptySlices, dropEmptySlices_of_noEmptySlices p h.1,
      dropEmptySlice_of_notEmptySlice f h.2]
end

/-- Decoding an encoding gives the value back, up to empty `omitempty` slices. -/
theorem decode_encode (v : ArangoSearchAnalyzerProperties) :
    decode (encode v) = .ok v.dropEmptySlices :=
  unmarshal_marshal_properties v

/-! ### Fields a member does not touch -/

theorem Except.map_eq_ok {ε α β : Type} {f : α → β} {r : Except ε α} {b : β}
    (h : Except.map f r = .ok b) : ∃ a, r = .ok a ∧ f a = b := by
  cases r with
  | error e => simp [Except.map] at h
  | ok a => exact ⟨a, rfl, by simpa [Except.map] using h⟩

/-- A member whose key does not select `Format` leaves `Format` as it is. -/
theorem setField_Format_unchanged (acc acc2 : ArangoSearchAnalyzerProperties) (name : String)
    (v : JSON) (hname : name ≠ "format")
    (h : ArangoSearchAnalyzerProperties.setField acc name v = .ok acc2) :
    acc2.Format = acc.Format := by
  unfold ArangoSearchAnalyzerProperties.setField at h
  by_cases hk : name = "issystem"
  · rw [if_pos hk] at h; obtain ⟨x, -, rfl⟩ := Except.map_eq_ok h; rfl
  rw [if_neg hk] at h; clear hk
  by_cases hk : name = "locale"
  · rw [if_pos hk] at h; obtain ⟨x, -, rfl⟩ := Except.map_eq_ok h; rfl
  rw [if_neg hk] at h; clear hk
  by_cases hk : name = "delimiter"
  · rw [if_pos hk] at h; obtain ⟨x, -, rfl⟩ := Except.map_eq_ok h; rfl
  rw [if_neg hk] at h; clear hk
  by_cases hk : name = "accent"
  · rw [if_pos hk] at h; obtain ⟨x, -, rfl⟩ := Except.map_eq_ok h; rfl
  rw [if_neg hk] at h; clear hk
  by_cases hk : name = "case"
  · rw [if_pos hk] at h; obtain ⟨x, -, rfl⟩ := Except.map_eq_ok h; rfl
  rw [if_neg hk] at h; clear hk
  by_cases hk : name = "edgengram"
  · rw [if_pos hk] at h; obtain ⟨x, -, rfl⟩ := Except.map_eq_ok h; rfl
  rw [if_neg hk] at h; clear hk
  by_cases hk : name = "min"
  · rw [if_pos hk] at h; obtain ⟨x, -, rfl⟩ := Except.map_eq_ok h; rfl
  rw [if_neg hk] at h; clear hk
  by_cases hk : name = "max"
  · rw [if_pos hk] at h; obtain ⟨x, -, rfl⟩ := Except.map_eq_ok h; rfl
  rw [if_neg hk] at h; clear hk
  by_cases hk : name = "preserveoriginal"
  · rw [if_pos hk] at h; obtain ⟨x, -, rfl⟩ := Except.map_eq_ok h; rfl
  rw [if_neg hk] at h; clear hk
  by_cases hk : name = "startmarker"
  · rw [if_pos hk] at h; obtain ⟨x, -, rfl⟩ := Except.map_eq_ok h; rfl
  rw [if_neg hk] at h; clear hk
  by_cases hk : name = "endmarker"
  · rw [if_pos hk] at h; obtain ⟨x, -, rfl⟩ := Except.map_eq_ok h; rfl
  rw [if_neg hk] at h; clear hk
  by_cases hk : name = "streamtype"
  · rw [if_pos hk] at h; obtain ⟨x, -, rfl⟩ := Except.map_eq_ok h; rfl
  rw [if_neg hk] at h; clear hk
  by_cases hk : name = "stemming"
  · rw [if_pos hk] at h; obtain ⟨x, -, rfl⟩ := Except.map_eq_ok h; rfl
  rw [if_neg hk] at h; clear hk
  by_cases hk : name = "stopwords"
  · rw [if_pos hk] at h; obtain ⟨x, -, rfl⟩ := Except.map_eq_ok h; rfl
  rw [if_neg hk] at h; clear hk
  by_cases hk : name = "stopwordspath"
  · rw [if_pos hk] at h; obtain ⟨x, -, rfl⟩ := Except.map_eq_ok h; rfl
  rw [if_neg hk] at h; clear hk
  by_cases hk : name = "querystring"
  · rw [if_pos hk] at h; obtain ⟨x, -, rfl⟩ := Except.map_eq_ok h; rfl
  rw [if_neg hk] at h; clear hk
  by_cases hk : name = "collapsepositions"
  · rw [if_pos hk] at h; obtain ⟨x, -, rfl⟩ := Except.map_eq_ok h; rfl
  rw [if_neg hk] at h; clear hk
  by_cases hk : name = "keepnull"
  · rw [if_pos hk] at h; obtain ⟨x, -, rfl⟩ := Except.map_eq_ok h; rfl
  rw [if_neg hk] at h; clear hk
  by_cases hk : name = "batchsize"
  · rw [if_pos hk] at h; obtain ⟨x, -, rfl⟩ := Except.map_eq_ok h; rfl
  rw [if_neg hk] at h; clear hk
  by_cases hk : name = "memorylimit"
  · rw [if_pos hk] at h; obtain ⟨x, -, rfl⟩ := Except.map_eq_ok h; rfl
  rw [if_neg hk] at h; clear hk
  by_cases hk : name = "returntype"
  · rw [if_pos hk] at h; obtain ⟨x, -, rfl⟩ := Except.map_eq_ok h; rfl
  rw [if_neg hk] at h; clear hk
  by_cases hk : name = "type"
  · rw [if_pos hk] at h; obtain ⟨x, -, rfl⟩ := Except.map_eq_ok h; rfl
  rw [if_neg hk] at h; clear hk
  by_cases hk : name = "options"
  · rw [if_pos hk] at h; obtain ⟨x, -, rfl⟩ := Except.map_eq_ok h; rfl
  rw [if_neg hk] at h; clear hk
  by_cases hk : name = "latitude"
  · rw [if_pos hk] at h; obtain ⟨x, -, rfl⟩ := Except.map_eq_ok h; rfl
  rw [if_neg hk] at h; clear hk
  by_cases hk : name = "longitude"
  · rw [if_pos hk] at h; obtain ⟨x, -, rfl⟩ := Except.map_eq_ok h; rfl
  rw [if_neg hk] at h; clear hk
  by_cases hk : name = "break"
  · rw [if_pos hk] at h; obtain ⟨x, -, rfl⟩ := Except.map_eq_ok h; rfl
  rw [if_neg hk] at h; clear hk
  by_cases hk : name = "hex"
  · rw [if_pos hk] at h; obtain ⟨x, -, rfl⟩ := Except.map_eq_ok h; rfl
  rw [if_neg hk] at h; clear hk
  by_cases hk : name = "model_location"
  · rw [if_pos hk] at h; obtain ⟨x, -, rfl⟩ := Except.map_eq_ok h; rfl
  rw [if_neg hk] at h; clear hk
  by_cases hk : name = "top_k"
  · rw [if_pos hk] at h; obtain ⟨x, -, rfl⟩ := Except.map_eq_ok h; rfl
  rw [if_neg hk] at h; clear hk
  by_cases hk : name = "threshold"
  · rw [if_pos hk] at h; obtain ⟨x, -, rfl⟩ := Except.map_eq_ok h; rfl
  rw [if_neg hk] at h; clear hk
  by_cases hk : name = "numhashes"
  · rw [if_pos hk] at h; obtain ⟨x, -, rfl⟩ := Except.map_eq_ok h; rfl
  rw [if_neg hk] at h; clear hk
  by_cases hk : name = "format"
  · exact absurd hk hname
  rw [if_neg hk] at h; clear hk
  cases h; rfl

/-- Members none of whose keys selects `Format` leave `Format` as it is. -/
theorem unmarshalMembers_Format_unchanged :
    ∀ (ms : List (String × JSON)) (acc p : ArangoSearchAnalyzerProperties),
      (∀ m ∈ ms, foldName m.1 ≠ "format") →
      ArangoSearchAnalyzerProperties.unmarshalMembers acc ms = .ok p →
      p.Format = acc.Format
  | [], acc, p, _, h => by
    simp only [ArangoSearchAnalyzerProperties.unmarshalMembers] at h
    cases h; rfl
  | (k, v) :: rest, acc, p, hk, h => by
    have hk1 : foldName k ≠ "format" := hk (k, v) (List.mem_cons_self _ _)
    have hk2 : ∀ m ∈ rest, foldName m.1 ≠ "format" :=
      fun m hm => hk m (List.mem_cons_of_mem _ hm)
    simp only [ArangoSearchAnalyzerProperties.unmarshalMembers] at h
    split_ifs at h
    · cases hx : unmarshalPipeline acc.Pipeline v with
      | error e => simp [hx] at h
      | ok x =>
        simp only [hx] at h
        have hr := unmarshalMembers_Format_unchanged rest _ p hk2 h
        exact hr
    · cases hx : AnalyzerDefinition.unmarshalPtr acc.Analyzer v with
      | error e => simp [hx] at h
      | ok x =>
        simp only [hx] at h
        have hr := unmarshalMembers_Format_unchanged rest _ p hk2 h
        exact hr
    · cases hx : ArangoSearchAnalyzerProperties.setField acc (foldName k) v with
      | error e => simp [hx] at h
      | ok acc2 =>
        simp only [hx] at h
        rw [unmarshalMembers_Format_unchanged rest acc2 p hk2 h]
        exact setField_Format_unchanged acc acc2 _ v hk1 hx

/-- A member whose key does not select `Break` leaves `Break` as it is. -/
theorem setField_Break_unchanged (acc acc2 : ArangoSearchAnalyzerProperties) (name : String)
    (v : JSON) (hname : name ≠ "break")
    (h : ArangoSearchAnalyzerProperties.setField acc name v = .ok acc2) :
    acc2.Break = acc.Break := by
  unfold ArangoSearchAnalyzerProperties.setField at h
  by_cases hk : name = "issystem"
  · rw [if_pos hk] at h; obtain ⟨x, -, rfl⟩ := Except.map_eq_ok h; rfl
  rw [if_neg hk] at h; clear hk
  by_cases hk : name = "locale"
  · rw [if_pos hk] at h; obtain ⟨x, -, rfl⟩ := Except.map_eq_ok h; rfl
  rw [if_neg hk] at h; clear hk
  by_cases hk : name = "delimiter"
  · rw [if_pos hk] at h; obtain ⟨x, -, rfl⟩ := Except.map_eq_ok h; rfl
  rw [if_neg hk] at h; clear hk
  by_cases hk : name = "accent"
  · rw [if_pos hk] at h; obtain ⟨x, -, rfl⟩ := Except.map_eq_ok h; rfl
  rw [if_neg hk] at h; clear hk
  by_cases hk : name = "case"
  · rw [if_pos hk] at h; obtain ⟨x, -, rfl⟩ := Except.map_eq_ok h; rfl
  rw [if_neg hk] at h; clear hk
  by_cases hk : name = "edgengram"
  · rw [if_pos hk] at h; obtain ⟨x, -, rfl⟩ := Except.map_eq_ok h; rfl
  rw [if_neg hk] at h; clear hk
  by_cases hk : name = "min"
  · rw [if_pos hk] at h; obtain ⟨x, -, rfl⟩ := Except.map_eq_ok h; rfl
  rw [if_neg hk] at h; clear hk
  by_cases hk : name = "max"
  · rw [if_pos hk] at h; obtain ⟨x, -, rfl⟩ := Except.map_eq_ok h; rfl
  rw [if_neg hk] at h; clear hk
  by_cases hk : name = "preserveoriginal"
  · rw [if_pos hk] at h; obtain ⟨x, -, rfl⟩ := Except.map_eq_ok h; rfl
  rw [if_neg hk] at h; clear hk
  by_cases hk : name = "startmarker"
  · rw [if_pos hk] at h; obtain ⟨x, -, rfl⟩ := Except.map_eq_ok h; rfl
  rw [if_neg hk] at h; clear hk
  by_cases hk : name = "endmarker"
  · rw [if_pos hk] at h; obtain ⟨x, -, rfl⟩ := Except.map_eq_ok h; rfl
  rw [if_neg hk] at h; clear hk
  by_cases hk : name = "streamtype"
  · rw [if_pos hk] at h; obtain ⟨x, -, rfl⟩ := Except.map_eq_ok h; rfl
  rw [if_neg hk] at h; clear hk
  by_cases hk : name = "stemming"
  · rw [if_pos hk] at h; obtain ⟨x, -, rfl⟩ := Except.map_eq_ok h; rfl
  rw [if_neg hk] at h; clear hk
  by_cases hk : name = "stopwords"
  · rw [if_pos hk] at h; obtain ⟨x, -, rfl⟩ := Except.map_eq_ok h; rfl
  rw [if_neg hk] at h; clear hk
  by_cases hk : name = "stopwordspath"
  · rw [if_pos hk] at h; obtain ⟨x, -, rfl⟩ := Except.map_eq_ok h; rfl
  rw [if_neg hk] at h; clear hk
  by_cases hk : name = "querystring"
  · rw [if_pos hk] at h; obtain ⟨x, -, rfl⟩ := Except.map_eq_ok h; rfl
  rw [if_neg hk] at h; clear hk
  by_cases hk : name = "collapsepositions"
  · rw [if_pos hk] at h; obtain ⟨x, -, rfl⟩ := Except.map_eq_ok h; rfl
  rw [if_neg hk] at h; clear hk
  by_cases hk : name = "keepnull"
  · rw [if_pos hk] at h; obtain ⟨x, -, rfl⟩ := Except.map_eq_ok h; rfl
  rw [if_neg hk] at h; clear hk
  by_cases hk : name = "batchsize"
  · rw [if_pos hk] at h; obtain ⟨x, -, rfl⟩ := Except.map_eq_ok h; rfl
  rw [if_neg hk] at h; clear hk
  by_cases hk : name = "memorylimit"
  · rw [if_pos hk] at h; obtain ⟨x, -, rfl⟩ := Except.map_eq_ok h; rfl
  rw [if_neg hk] at h; clear hk
  by_cases hk : name = "returntype"
  · rw [if_pos hk] at h; obtain ⟨x, -, rfl⟩ := Except.map_eq_ok h; rfl
  rw [if_neg hk] at h; clear hk
  by_cases hk : name = "type"
  · rw [if_pos hk] at h; obtain ⟨x, -, rfl⟩ := Except.map_eq_ok h; rfl
  rw [if_neg hk] at h; clear hk
  by_cases hk : name = "options"
  · rw [if_pos hk] at h; obtain ⟨x, -, rfl⟩ := Except.map_eq_ok h; rfl
  rw [if_neg hk] at h; clear hk
  by_cases hk : name = "latitude"
  · rw [if_pos hk] at h; obtain ⟨x, -, rfl⟩ := Except.map_eq_ok h; rfl
  rw [if_neg hk] at h; clear hk
  by_cases hk : name = "longitude"
  · rw [if_pos hk] at h; obtain ⟨x, -, rfl⟩ := Except.map_eq_ok h; rfl
  rw [if_neg hk] at h; clear hk
  by_cases hk : name = "break"
  · exact absurd hk hname
  rw [if_neg hk] at h; clear hk
  by_cases hk : name = "hex"
  · rw [if_pos hk] at h; obtain ⟨x, -, rfl⟩ := Except.map_eq_ok h; rfl
  rw [if_neg hk] at h; clear hk
  by_cases hk : name = "model_location"
  · rw [if_pos hk] at h; obtain ⟨x, -, rfl⟩ := Except.map_eq_ok h; rfl
  rw [if_neg hk] at h; clear hk
  by_cases hk : name = "top_k"
  · rw [if_pos hk] at h; obtain ⟨x, -, rfl⟩ := Except.map_eq_ok h; rfl
  rw [if_neg hk] at h; clear hk
  by_cases hk : name = "threshold"
  · rw [if_pos hk] at h; obtain ⟨x, -, rfl⟩ := Except.map_eq_ok h; rfl
  rw [if_neg hk] at h; clear hk
  by_cases hk : name = "numhashes"
  · rw [if_pos hk] at h; obtain ⟨x, -, rfl⟩ := Except.map_eq_ok h; rfl
  rw [if_neg hk] at h; clear hk
  by_cases hk : name = "format"
  · rw [if_pos hk] at h; obtain ⟨x, -, rfl⟩ := Except.map_eq_ok h; rfl
  rw [if_neg hk] at h; clear hk
  cases h; rfl

/-- Members none of whose keys selects `Break` leave `Break` as it is. -/
theorem unmarshalMembers_Break_unchanged :
    ∀ (ms : List (String × JSON)) (acc p : ArangoSearchAnalyzerProperties),
      (∀ m ∈ ms, foldName m.1 ≠ "break") →
      ArangoSearchAnalyzerProperties.unmarshalMembers acc ms = .ok p →
      p.Break = acc.Break
  | [], acc, p, _, h => by
    simp only [ArangoSearchAnalyzerProperties.unmarshalMembers] at h
    cases h; rfl
  | (k, v) :: rest, acc, p, hk, h => by
    have hk1 : foldName k ≠ "break" := hk (k, v) (List.mem_cons_self _ _)
    have hk2 : ∀ m ∈ rest, foldName m.1 ≠ "break" :=
      fun m hm => hk m (List.mem_cons_of_mem _ hm)
    simp only [ArangoSearchAnalyzerProperties.unmarshalMembers] at h
    split_ifs at h
    · cases hx : unmarshalPipeline acc.Pipeline v with
      | error e => simp [hx] at h
      | ok x =>
        simp only [hx] at h
        have hr := unmarshalMembers_Break_unchanged rest _ p hk2 h
        exact hr
    · cases hx : AnalyzerDefinition.unmarshalPtr acc.Analyzer v with
      | error e => simp [hx] at h
      | ok x =>
        simp only [hx] at h
        have hr := unmarshalMembers_Break_unchanged rest _ p hk2 h
        exact hr
    · cases hx : ArangoSearchAnalyzerProperties.setField acc (foldName k) v with
      | error e => simp [hx] at h
      | ok acc2 =>
        simp only [hx] at h
        rw [unmarshalMembers_Break_unchanged rest acc2 p hk2 h]
        exact setField_Break_unchanged acc acc2 _ v hk1 hx

/-! ### Members with a null value -/

theorem not_null_of_mem_omitemptyBool (k : String) (b : Bool) :
    ∀ m ∈ omitemptyBool k b, m.2.isNull = false := by
  cases b <;> simp [omitemptyBool, JSON.isNull]

theorem not_null_of_mem_omitemptyString (k s : String) :
    ∀ m ∈ omitemptyString k s, m.2.isNull = false := by
  by_cases h : s = "" <;> simp [omitemptyString, JSON.isNull, h]

theorem not_null_of_mem_omitemptyPtr {α : Type} (k : String) (enc : α → JSON) (x : Option α)
    (henc : ∀ a, (enc a).isNull = false) :
    ∀ m ∈ omitemptyPtr k enc x, m.2.isNull = false := by
  cases x <;> simp [omitemptyPtr, henc]

theorem not_null_of_mem_omitemptySlice {α : Type} (k : String) (enc : α → JSON)
    (x : Option (List α)) :
    ∀ m ∈ omitemptySlice k enc x, m.2.isNull = false := by
  rcases x with _ | _ | _ <;> simp [omitemptySlice, JSON.isNull]

theorem not_null_of_mem_marshalPipelineField (x : Option (List ArangoSearchAnalyzerPipeline)) :
    ∀ m ∈ marshalPipelineField x, m.2.isNull = false := by
  rcases x with _ | _ | _ <;> simp [marshalPipelineField, JSON.isNull]

theorem not_null_of_mem_marshalAnalyzerField (x : Option AnalyzerDefinition) :
    ∀ m ∈ marshalAnalyzerField x, m.2.isNull = false := by
  rcases x with _ | ⟨n, t, p, f⟩ <;>
    simp [marshalAnalyzerField, AnalyzerDefinition.marshal, JSON.isNull]

theorem marshalInt64_not_null (i : int64) : (marshalInt64 i).isNull = false := rfl

theorem marshalUint64_not_null (u : uint64) : (marshalUint64 u).isNull = false := rfl

theorem marshalStrings_isNull (x : Option (List String)) :
    (marshalStrings x).isNull = true ↔ x = none := by
  cases x <;> simp [marshalStrings, JSON.isNull]

/-- The only member of an encoding that can be `null` is `stopwords`, and it is when the slice
is nil. -/
theorem null_member_is_stopwords (p : ArangoSearchAnalyzerProperties) :
    ∀ m ∈ p.marshal.members, m.2.isNull = true → m.1 = "stopwords" ∧ p.Stopwords = none := by
  have hb := not_null_of_mem_omitemptyBool
  have hs := not_null_of_mem_omitemptyString
  have hl : ∀ (k : String) (x : Option (List String)),
      ∀ m ∈ omitemptySlice k JSON.str x, m.2.isNull = false :=
    fun k x => not_null_of_mem_omitemptySlice k JSON.str x
  have h1 : ∀ (k : String) (x : Option Bool), ∀ m ∈ omitemptyPtr k JSON.bool x,
      m.2.isNull = false := fun k x => not_null_of_mem_omitemptyPtr k _ x (fun _ => rfl)
  have h2 : ∀ (k : String) (x : Option int64), ∀ m ∈ omitemptyPtr k marshalInt64 x,
      m.2.isNull = false := fun k x => not_null_of_mem_omitemptyPtr k _ x (fun _ => rfl)
  have h3 : ∀ (k : String) (x : Option uint64), ∀ m ∈ omitemptyPtr k marshalUint64 x,
      m.2.isNull = false := fun k x => not_null_of_mem_omitemptyPtr k _ x (fun _ => rfl)
  have h4 : ∀ (k : String) (x : Option float64), ∀ m ∈ omitemptyPtr k marshalFloat64 x,
      m.2.isNull = false :=
    fun k x => not_null_of_mem_omitemptyPtr k _ x marshalFloat64_not_null
  have h5 : ∀ (k : String) (x : Option String), ∀ m ∈ omitemptyPtr k JSON.str x,
      m.2.isNull = false := fun k x => not_null_of_mem_omitemptyPtr k _ x (fun _ => rfl)
  have h6 : ∀ (k : String) (x : Option ArangoSearchEdgeNGram),
      ∀ m ∈ omitemptyPtr k ArangoSearchEdgeNGram.marshal x, m.2.isNull = false :=
    fun k x => not_null_of_mem_omitemptyPtr k _ x (fun _ => rfl)
  have h7 : ∀ (k : String) (x : Option ArangoSearchAnalyzerGeoOptions),
      ∀ m ∈ omitemptyPtr k ArangoSearchAnalyzerGeoOptions.marshal x, m.2.isNull = false :=
    fun k x => not_null_of_mem_omitemptyPtr k _ x (fun _ => rfl)
  have hp := not_null_of_mem_marshalPipelineField
  have ha := not_null_of_mem_marshalAnalyzerField
  cases p
  intro m hm hnull
  simp only [ArangoSearchAnalyzerProperties.marshal, JSON.members, List.mem_append] at hm
  have contra : ∀ {l : List (String × JSON)}, (∀ m ∈ l, m.2.isNull = false) → m ∈ l → False :=
    fun hl hm => by simp [hl m hm] at hnull
  rcases hm with hm | hm
  swap
  · exact (contra (h5 _ _) hm).elim
  repeat'
    first
      | exact (contra (hb _ _) hm).elim
      | exact (contra (hs _ _) hm).elim
      | exact (contra (hl _ _) hm).elim
      | exact (contra (h1 _ _) hm).elim
      | exact (contra (h2 _ _) hm).elim
      | exact (contra (h3 _ _) hm).elim
      | exact (contra (h4 _ _) hm).elim
      | exact (contra (h5 _ _) hm).elim
      | exact (contra (h6 _ _) hm).elim
      | exact (contra (h7 _ _) hm).elim
      | exact (contra (hp _) hm).elim
      | exact (contra (ha _) hm).elim
      | (simp only [List.mem_singleton] at hm
         subst hm
         exact ⟨rfl, (marshalStrings_isNull _).mp hnull⟩)
      | (rcases hm with hm | hm; swap)

/-! ### Pointer fields -/

theorem PointerField.get_unset (f : PointerField) (p : ArangoSearchAnalyzerProperties) :
    f.get (f.unset p) = none := by
  cases f <;> rfl

theorem PointerField.get_setFalsy (f : PointerField) (p : ArangoSearchAnalyzerProperties) :
    f.get (f.setFalsy p) = some f.falsy := by
  cases f <;> rfl

/-- A round trip leaves every pointer field as it is. -/
theorem PointerField.get_dropEmptySlices (f : PointerField)
    (p : ArangoSearchAnalyzerProperties) : f.get p.dropEmptySlices = f.get p := by
  cases p
  cases f <;> simp [PointerField.get, ArangoSearchAnalyzerProperties.dropEmptySlices]

/-! ### Agreement of a value with its round-trip form -/

theorem agreesIf_refl {α : Type} (c : Bool) (a : α) : agreesIf c a a :=
  fun _ => rfl

theorem agreesIf_dropEmptySlice {α : Type} (x : Option (List α)) :
    agreesIf (decide (0 < (x.getD []).length)) x (dropEmptySlice x) := by
  rcases x with _ | _ | _ <;> simp [agreesIf, dropEmptySlice]

mutual
/-- The round-trip form of a properties value agrees with it on every populated field. -/
theorem agreesOnPopulated_dropEmptySlices :
    ∀ (p : ArangoSearchAnalyzerProperties), p.agreesOnPopulated p.dropEmptySlices
  | { Pipeline := pipeline, Analyzer := analyzer, .. } => by
    have hp := agreesPipeline_dropEmpty pipeline
    have ha := agreesAnalyzer_dropEmpty analyzer
    simp only [ArangoSearchAnalyzerProperties.agreesOnPopulated,
      ArangoSearchAnalyzerProperties.dropEmptySlices, agreesIf_refl, agreesIf_dropEmptySlice,
      hp, ha, and_self]
theorem agreesPipeline_dropEmpty :
    ∀ (x : Option (List ArangoSearchAnalyzerPipeline)), agreesPipeline x (dropEmptyPipeline x)
  | none => by simp [agreesPipeline]
  | some [] => by simp [agreesPipeline]
  | some (s :: l) => by
    have h := agreesPipelineItems_dropEmpty (s :: l)
    simpa only [agreesPipeline, dropEmptyPipeline] using h
theorem agreesPipelineItems_dropEmpty :
    ∀ (l : List ArangoSearchAnalyzerPipeline),
      agreesPipelineItems l (dropEmptyPipelineItems l)
  | [] => by simp [agreesPipelineItems, dropEmptyPipelineItems]
  | s :: l => by
    have hs := agreesStage_dropEmpty s
    have hl := agreesPipelineItems_dropEmpty l
    simp only [agreesPipelineItems, dropEmptyPipelineItems]
    exact ⟨hs, hl⟩
theorem agreesStage_dropEmpty :
    ∀ (s : ArangoSearchAnalyzerPipeline),
      ArangoSearchAnalyzerPipeline.agreesOnPopulated s
        (ArangoSearchAnalyzerPipeline.dropEmptySlices s)
  | { Type_ := t, Properties := p } => by
    have hp := agreesOnPopulated_dropEmptySlices p
    simp only [ArangoSearchAnalyzerPipeline.agreesOnPopulated,
      ArangoSearchAnalyzerPipeline.dropEmptySlices, hp, and_self]
theorem agreesAnalyzer_dropEmpty :
    ∀ (x : Option AnalyzerDefinition), agreesAnalyzer x (dropEmptyAnalyzer x)
  | none => by simp [agreesAnalyzer]
  | some d => by
    have hd := agreesDefinition_dropEmpty d
    simpa only [agreesAnalyzer, dropEmptyAnalyzer] using hd
theorem agreesDefinition_dropEmpty :
    ∀ (d : AnalyzerDefinition),
      AnalyzerDefinition.agreesOnPopulated d (AnalyzerDefinition.dropEmptySlices d)
  | { Name := n, Type_ := t, Properties := p, Features := f } => by
    have hp := agreesOnPopulated_dropEmptySlices p
    simp only [AnalyzerDefinition.agreesOnPopulated, AnalyzerDefinition.dropEmptySlices]
    exact ⟨agreesIf_refl _ _, agreesIf_refl _ _, hp, agreesIf_dropEmptySlice f⟩
end

/-- Agreement on populated fields is a real constraint: the zero value does not agree with the
sample text properties, whose `Locale` is populated. -/
theorem zero_does_not_agree_with_textProperties :
    ¬ textProperties.agreesOnPopulated ArangoSearchAnalyzerProperties.zero := by
  intro h
  simp only [textProperties, ArangoSearchAnalyzerProperties.zero,
    ArangoSearchAnalyzerProperties.agreesOnPopulated] at h
  exact absurd (h.2.1 (by decide)) (by decide)

/-- A value without empty `omitempty` slices decodes from its encoding exactly. -/
theorem decode_encode_of_noEmptySlices (v : ArangoSearchAnalyzerProperties)
    (h : v.noEmptySlices = true) : decode (encode v) = .ok v := by
  rw [decode_encode, dropEmptySlices_of_noEmptySlices v h]

/-! ## Theorems about the analyzer properties -/

/-- The properties value whose `Latitude` is the empty non-nil slice is encoded without a
`latitude` key, and decoding gives the zero value, whose `Latitude` is nil. -/
theorem decode_encode_emptyLatitude :
    decode (encode emptyLatitudeProperties) = .ok ArangoSearchAnalyzerProperties.zero := by
  rfl

/-- C5: round trip of analyzer properties.  For every `ArangoSearchAnalyzerProperties` value `v`
(nested `EdgeNGram`, `Options`, pipeline stages and the inner minhash analyzer included),
decoding the JSON encoding of `v` under the struct's field tags succeeds and yields a value
that equals `v` on every populated field, at every depth; it is `v` itself,
`decode(encode(v)) == v`, when no `omitempty` slice of `v` is empty but non-nil. -/
theorem roundtrip_on_populated_fields (v : ArangoSearchAnalyzerProperties) :
    ∃ w, decode (encode v) = .ok w ∧ v.agreesOnPopulated w ∧
      (v.noEmptySlices = true → w = v) :=
  ⟨v.dropEmptySlices, decode_encode v, agreesOnPopulated_dropEmptySlices v,
    dropEmptySlices_of_noEmptySlices v⟩

/-- C5 at the sample properties of a text analyzer: they have no empty slice, and decoding
their encoding gives them back. -/
theorem roundtrip_on_populated_fields_witness :
    textProperties.noEmptySlices = true ∧
      decode (encode textProperties) = .ok textProperties := by
  obtain ⟨w, h1, -, h3⟩ := roundtrip_on_populated_fields textProperties
  exact ⟨by decide, (h3 (by decide)) ▸ h1⟩

/-- C6, as stated, fails: the encoding of the empty properties value has the key `stopwords`
with the value `null`. -/
theorem empty_properties_encode_null_stopwords :
    encode ArangoSearchAnalyzerProperties.zero = .obj [("stopwords", .null)] := by
  rfl

/-- C6, amended: for every properties value, whatever the analyzer type, the keys of the
encoding are exactly the keys of the populated fields together with `stopwords`, which is
always there; every other field that is not populated is omitted, and the only member whose
value can be `null` is `stopwords`, when `Stopwords` is nil. -/
theorem encode_omits_unpopulated_except_stopwords (p : ArangoSearchAnalyzerProperties) :
    (encode p).keys = p.populatedKeys ∧
      ("stopwords", marshalStrings p.Stopwords) ∈ (encode p).members ∧
      (∀ m ∈ (encode p).members, m.2.isNull = true → m.1 = "stopwords" ∧ p.Stopwords = none) := by
  refine ⟨keys_marshal p, ?_, null_member_is_stopwords p⟩
  cases p
  simp [encode, ArangoSearchAnalyzerProperties.marshal, JSON.members]

/-- C7, as stated, fails: the pipeline stage of type `aql` whose properties have `Min` set is
encoded with the key `min` among its properties. -/
theorem aql_stage_encodes_min :
    aqlStageWithMin.Type_ = "aql" ∧
      ((ArangoSearchAnalyzerPipeline.marshal aqlStageWithMin).get "properties").map JSON.keys
        = some ["min", "stopwords", "queryString"] := by
  decide

/-- C7, amended: the encoding of a stage's properties is that of the properties value alone,
whatever the stage type; each n-gram key (`min`, `max`, `startMarker`, `endMarker`,
`streamType`) is in it exactly when that field is set, and each aql key (`queryString`,
`collapsePositions`, `keepNull`, `batchSize`, `memoryLimit`, `returnType`) exactly when that
field is populated.  So a stage of type `aql` has none of the n-gram keys when its n-gram fields
are unset, and a stage of type `ngram` none of the aql keys when its aql fields are unset. -/
theorem stage_keys_follow_fields_not_type (s : ArangoSearchAnalyzerPipeline) :
    (ArangoSearchAnalyzerPipeline.marshal s).get "properties" = some (encode s.Properties) ∧
      ("min" ∈ (encode s.Properties).keys ↔ s.Properties.Min.isSome = true) ∧
      ("max" ∈ (encode s.Properties).keys ↔ s.Properties.Max.isSome = true) ∧
      ("startMarker" ∈ (encode s.Properties).keys ↔ s.Properties.StartMarker.isSome = true) ∧
      ("endMarker" ∈ (encode s.Properties).keys ↔ s.Properties.EndMarker.isSome = true) ∧
      ("streamType" ∈ (encode s.Properties).keys ↔ s.Properties.StreamType.isSome = true) ∧
      ("queryString" ∈ (encode s.Properties).keys ↔ s.Properties.QueryString ≠ "") ∧
      ("collapsePositions" ∈ (encode s.Properties).keys ↔
        s.Properties.CollapsePositions.isSome = true) ∧
      ("keepNull" ∈ (encode s.Properties).keys ↔ s.Properties.KeepNull.isSome = true) ∧
      ("batchSize" ∈ (encode s.Properties).keys ↔ s.Properties.BatchSize.isSome = true) ∧
      ("memoryLimit" ∈ (encode s.Properties).keys ↔ s.Properties.MemoryLimit.isSome = true) ∧
      ("returnType" ∈ (encode s.Properties).keys ↔ s.Properties.ReturnType.isSome = true) := by
  obtain ⟨t, p⟩ := s
  refine ⟨by simp [ArangoSearchAnalyzerPipeline.marshal, JSON.get, JSON.members, encode], ?_⟩
  simp only [encode, keys_marshal]
  cases p
  simp [ArangoSearchAnalyzerProperties.populatedKeys, keyIf]

/-- C8, as stated, fails for the boolean field `IsSystem`: it is a plain `bool` tagged
`omitempty`, so the properties value with `IsSystem` set to `false` has the encoding of the
empty value, without an `isSystem` key, and a payload that carries `isSystem: false` decodes to
the same value as the payload without the key. -/
theorem isSystem_false_is_not_kept_apart :
    encode { ArangoSearchAnalyzerProperties.zero with IsSystem := false }
        = encode ArangoSearchAnalyzerProperties.zero ∧
      (encode { ArangoSearchAnalyzerProperties.zero with IsSystem := false }).keys
        = ["stopwords"] ∧
      decode (.obj [("isSystem", .bool false)]) = decode (.obj []) :=
  ⟨rfl, by decide, rfl⟩

/-- C8, amended: for every pointer-to-scalar field of the analyzer properties (`accent`,
`stemming`, `keepNull`, ...; the fields of the nested `edgeNgram` and `options` structs
included) and every properties value, the value with the field unset and the value with the
field set to the falsy value of its type (`false`, `0`, `""`) have different encodings, and
decoding each encoding gives back the unset field and the explicit falsy value respectively.
The plain `bool` field `IsSystem` is not kept apart in this way: its key is in the encoding
exactly when it is `true`, and a member `isSystem: false` in a payload changes nothing in what
the payload decodes to. -/
theorem pointer_fields_keep_unset_apart_from_falsy (f : PointerField)
    (p : ArangoSearchAnalyzerProperties) :
    encode (f.unset p) ≠ encode (f.setFalsy p) ∧
      (decode (encode (f.unset p))).map f.get = .ok none ∧
      (decode (encode (f.setFalsy p))).map f.get = .ok (some f.falsy) ∧
      ("isSystem" ∈ (encode p).keys ↔ p.IsSystem = true) ∧
      (∀ ms : List (String × JSON),
        decode (.obj (("isSystem", .bool false) :: ms)) = decode (.obj ms)) := by
  have h0 : (decode (encode (f.unset p))).map f.get = .ok none := by
    rw [decode_encode]
    simp [Except.map, PointerField.get_dropEmptySlices, PointerField.get_unset]
  have h1 : (decode (encode (f.setFalsy p))).map f.get = .ok (some f.falsy) := by
    rw [decode_encode]
    simp [Except.map, PointerField.get_dropEmptySlices, PointerField.get_setFalsy]
  refine ⟨fun h => ?_, h0, h1, ?_, fun ms => ?_⟩
  · rw [h, h1] at h0
    cases h0
  · rw [encode, keys_marshal]
    cases p
    simp [ArangoSearchAnalyzerProperties.populatedKeys, keyIf]
  · simp [decode, ArangoSearchAnalyzerProperties.unmarshal,
      ArangoSearchAnalyzerProperties.unmarshalMembers, ArangoSearchAnalyzerProperties.setField,
      ArangoSearchAnalyzerProperties.zero, unmarshalBool, Except.map]

/-- C9, as stated, fails: decoding the `geo_s2` stage whose properties have no `format` key
leaves `Format` nil (not `latLngDouble`), and decoding the `segmentation` stage whose
properties have no `break` key leaves `Break` the empty string (not `alpha`). -/
theorem decode_applies_no_defaults :
    decodeStage geoS2PayloadWithoutFormat
        = .ok { Type_ := "geo_s2",
                Properties := { ArangoSearchAnalyzerProperties.zero with Type_ := some "shape" } } ∧
      decodeStage segmentationPayloadWithoutBreak
        = .ok { Type_ := "segmentation",
                Properties := { ArangoSearchAnalyzerProperties.zero with Case := "lower" } } :=
  ⟨rfl, rfl⟩

/-- C9, amended: decoding applies no defaults.  Whenever a stage payload `{type, properties}` of
any type (`geo_s2`, `segmentation`, ...) decodes, a properties object none of whose keys
matches `format` leaves `Format` unset (nil), and one none of whose keys matches `break` leaves
`Break` the empty string.  Keys match case-insensitively. -/
theorem decode_without_key_leaves_zero (t : String) (ms : List (String × JSON))
    (s : ArangoSearchAnalyzerPipeline)
    (h : decodeStage (.obj [("type", .str t), ("properties", .obj ms)]) = .ok s) :
    ((∀ m ∈ ms, foldName m.1 ≠ "format") → s.Properties.Format = none) ∧
      ((∀ m ∈ ms, foldName m.1 ≠ "break") → s.Properties.Break = "") := by
  simp only [decodeStage, ArangoSearchAnalyzerPipeline.unmarshal,
    ArangoSearchAnalyzerPipeline.unmarshalMembers, foldName_type, foldName_properties,
    unmarshalString, ArangoSearchAnalyzerPipeline.zero,
    ArangoSearchAnalyzerProperties.unmarshal] at h
  cases hx : ArangoSearchAnalyzerProperties.unmarshalMembers
      ArangoSearchAnalyzerProperties.zero ms with
  | error e => simp [hx] at h
  | ok x =>
    simp [hx] at h
    subst h
    exact ⟨fun hk => unmarshalMembers_Format_unchanged ms _ x hk hx,
      fun hk => unmarshalMembers_Break_unchanged ms _ x hk hx⟩

/-- C9 amended, at the `geo_s2` payload without `format`: it decodes, and `Format` is nil. -/
theorem decode_without_key_leaves_zero_witness :
    decodeStage (.obj [("type", .str "geo_s2"), ("properties", .obj [("type", .str "shape")])])
        = .ok geoS2StageWithoutFormat ∧
      (∀ m ∈ [("type", JSON.str "shape")], foldName m.1 ≠ "format") ∧
      geoS2StageWithoutFormat.Properties.Format = none :=
  ⟨rfl, by decide,
   (decode_without_key_leaves_zero "geo_s2" [("type", .str "shape")] geoS2StageWithoutFormat
      rfl).1 (by decide)⟩

/-- C10, as stated, fails: decoding the stage of type `aql` whose properties have no
`queryString` succeeds, with an empty `QueryString`; and decoding a stage payload without the
`type` discriminator succeeds, with an empty `Type`. -/
theorem decode_stage_accepts_missing_fields :
    decodeStage aqlPayloadWithoutQueryString
        = .ok { Type_ := "aql", Properties := ArangoSearchAnalyzerProperties.zero } ∧
      decodeStage payloadWithoutType
        = .ok { Type_ := "",
                Properties :=
                  { ArangoSearchAnalyzerProperties.zero with QueryString := "RETURN 1" } } :=
  ⟨rfl, rfl⟩

/-- C10, amended: decoding a pipeline stage checks neither the discriminator nor any required
field.  For every properties value `p`, the stage payload that has only `properties` (the
encoding of `p`) and no `type` decodes, with `Type` empty; and when `p` has no query string,
the payload of type `aql` with those properties has no `queryString` key and decodes all the
same, with `QueryString` empty. -/
theorem decode_stage_checks_no_required_field (p : ArangoSearchAnalyzerProperties) :
    decodeStage (.obj [("properties", encode p)])
        = .ok { Type_ := "", Properties := p.dropEmptySlices } ∧
      (p.QueryString = "" →
        "queryString" ∉ (encode p).keys ∧
        decodeStage (.obj [("type", .str "aql"), ("properties", encode p)])
          = .ok { Type_ := "aql", Properties := p.dropEmptySlices } ∧
        p.dropEmptySlices.QueryString = "") := by
  have hp := unmarshal_marshal_properties p
  refine ⟨?_, fun hq => ⟨?_, ?_, ?_⟩⟩
  · simp [decodeStage, ArangoSearchAnalyzerPipeline.unmarshal,
      ArangoSearchAnalyzerPipeline.unmarshalMembers, ArangoSearchAnalyzerPipeline.zero,
      encode, hp]
  · rw [encode, keys_marshal]
    cases p
    simp only at hq
    simp [ArangoSearchAnalyzerProperties.populatedKeys, keyIf, hq]
  · simp [decodeStage, ArangoSearchAnalyzerPipeline.unmarshal,
      ArangoSearchAnalyzerPipeline.unmarshalMembers, ArangoSearchAnalyzerPipeline.zero,
      unmarshalString, encode, hp]
  · cases p
    simpa [ArangoSearchAnalyzerProperties.dropEmptySlices] using hq

/-- C10 amended, at the sample `aql` properties without query string. -/
theorem decode_stage_checks_no_required_field_witness :
    aqlPropertiesWithoutQueryString.QueryString = "" ∧
      decodeStage (.obj [("type", .str "aql"), ("properties", encode aqlPropertiesWithoutQueryString)])
        = .ok { Type_ := "aql", Properties := aqlPropertiesWithoutQueryString.dropEmptySlices } :=
  ⟨rfl, ((decode_stage_checks_no_required_field aqlPropertiesWithoutQueryString).2 rfl).2.1⟩

/-! ### Keys that select no field -/

theorem foldName_modelLocation : foldName "modelLocation" = "modellocation" := by decide

theorem foldName_topK : foldName "topK" = "topk" := by decide

/-! ### The pipeline of an encoding -/

theorem find_omitemptyBool (k key : String) (b : Bool) (h : k ≠ key) :
    (omitemptyBool k b).find? (fun m => m.1 == key) = none := by
  cases b <;> simp [omitemptyBool, h]

theorem find_omitemptyString (k key s : String) (h : k ≠ key) :
    (omitemptyString k s).find? (fun m => m.1 == key) = none := by
  by_cases hs : s = "" <;> simp [omitemptyString, h, hs]

theorem find_omitemptyPtr {α : Type} (k key : String) (enc : α → JSON) (x : Option α)
    (h : k ≠ key) : (omitemptyPtr k enc x).find? (fun m => m.1 == key) = none := by
  cases x <;> simp [omitemptyPtr, h]

theorem find_omitemptySlice {α : Type} (k key : String) (enc : α → JSON)
    (x : Option (List α)) (h : k ≠ key) :
    (omitemptySlice k enc x).find? (fun m => m.1 == key) = none := by
  rcases x with _ | _ | _ <;> simp [omitemptySlice, h]

theorem find_marshalAnalyzerField (key : String) (x : Option AnalyzerDefinition)
    (h : "analyzer" ≠ key) : (marshalAnalyzerField x).find? (fun m => m.1 == key) = none := by
  cases x <;> simp [marshalAnalyzerField, h]

theorem marshalPipelineItems_eq_map (l : List ArangoSearchAnalyzerPipeline) :
    marshalPipelineItems l = l.map ArangoSearchAnalyzerPipeline.marshal := by
  induction l with
  | nil => simp [marshalPipelineItems]
  | cons s l ih => simp [marshalPipelineItems, ih]

/-- The array under the key `pipeline` of an encoding holds the encodings of the stages. -/
theorem pipelineItems_marshal (p : ArangoSearchAnalyzerProperties) :
    p.marshal.pipelineItems = p.stages.map ArangoSearchAnalyzerPipeline.marshal := by
  rw [← marshalPipelineItems_eq_map]
  obtain ⟨_, _, _, _, _, _, _, _, _, _, _, _, _, _, _, _, _, _, _, _, _, pl, _, _, _, _, _, _, _, _,
    _, _, _, _⟩ := p
  rcases pl with _ | _ | ⟨s, l⟩ <;>
    simp [JSON.pipelineItems, JSON.get, JSON.members, ArangoSearchAnalyzerProperties.marshal,
      ArangoSearchAnalyzerProperties.stages, marshalPipelineField, marshalPipelineItems,
      List.find?_append, find_omitemptyBool, find_omitemptyString, find_omitemptyPtr,
      find_omitemptySlice, find_marshalAnalyzerField]

theorem get_type_marshal_stage (s : ArangoSearchAnalyzerPipeline) :
    (ArangoSearchAnalyzerPipeline.marshal s).get "type" = some (.str s.Type_) := by
  cases s
  simp [ArangoSearchAnalyzerPipeline.marshal, JSON.get, JSON.members]

theorem type_dropEmptySlices_stage (s : ArangoSearchAnalyzerPipeline) :
    (ArangoSearchAnalyzerPipeline.dropEmptySlices s).Type_ = s.Type_ := by
  cases s
  simp [ArangoSearchAnalyzerPipeline.dropEmptySlices]

theorem types_dropEmptyPipelineItems (l : List ArangoSearchAnalyzerPipeline) :
    (dropEmptyPipelineItems l).map (fun s => s.Type_) = l.map (fun s => s.Type_) := by
  induction l with
  | nil => simp [dropEmptyPipelineItems]
  | cons s l ih => simp [dropEmptyPipelineItems, ih, type_dropEmptySlices_stage]

/-- A round trip keeps the stage types, position by position. -/
theorem types_stages_dropEmptySlices (p : ArangoSearchAnalyzerProperties) :
    p.dropEmptySlices.stages.map (fun s => s.Type_) = p.stages.map (fun s => s.Type_) := by
  obtain ⟨_, _, _, _, _, _, _, _, _, _, _, _, _, _, _, _, _, _, _, _, _, pl, _, _, _, _, _, _, _, _,
    _, _, _, _⟩ := p
  rcases pl with _ | _ | ⟨s, l⟩
  · simp [ArangoSearchAnalyzerProperties.dropEmptySlices, ArangoSearchAnalyzerProperties.stages,
      dropEmptyPipeline]
  · simp [ArangoSearchAnalyzerProperties.dropEmptySlices, ArangoSearchAnalyzerProperties.stages,
      dropEmptyPipeline]
  · have h := types_dropEmptyPipelineItems (s :: l)
    simpa [ArangoSearchAnalyzerProperties.dropEmptySlices, ArangoSearchAnalyzerProperties.stages,
      dropEmptyPipeline] using h

/-! ### Encoding the round-trip form -/

theorem omitemptySlice_dropEmptySlice {α : Type} (k : String) (enc : α → JSON)
    (x : Option (List α)) : omitemptySlice k enc (dropEmptySlice x) = omitemptySlice k enc x := by
  rcases x with _ | _ | _ <;> simp [omitemptySlice, dropEmptySlice]

mutual
/-- The round-trip form of a properties value has the encoding of the value itself. -/
theorem marshal_dropEmptySlices :
    ∀ (p : ArangoSearchAnalyzerProperties), p.dropEmptySlices.marshal = p.marshal
  | { Pipeline := pipeline, Analyzer := analyzer, .. } => by
    simp only [ArangoSearchAnalyzerProperties.dropEmptySlices,
      ArangoSearchAnalyzerProperties.marshal, omitemptySlice_dropEmptySlice,
      marshalPipelineField_dropEmpty pipeline, marshalAnalyzerField_dropEmpty analyzer]
theorem marshalPipelineField_dropEmpty :
    ∀ (x : Option (List ArangoSearchAnalyzerPipeline)),
      marshalPipelineField (dropEmptyPipeline x) = marshalPipelineField x
  | none => by simp [dropEmptyPipeline]
  | some [] => by simp [dropEmptyPipeline, marshalPipelineField]
  | some (s :: l) => by
    have h := marshalPipelineItems_dropEmpty (s :: l)
    simp only [dropEmptyPipelineItems] at h
    simp only [dropEmptyPipeline, dropEmptyPipelineItems, marshalPipelineField, h]
theorem marshalPipelineItems_dropEmpty :
    ∀ (l : List ArangoSearchAnalyzerPipeline),
      marshalPipelineItems (dropEmptyPipelineItems l) = marshalPipelineItems l
  | [] => by simp [dropEmptyPipelineItems]
  | s :: l => by
    simp only [dropEmptyPipelineItems, marshalPipelineItems, marshal_dropEmptySlices_stage s,
      marshalPipelineItems_dropEmpty l]
theorem marshal_dropEmptySlices_stage :
    ∀ (s : ArangoSearchAnalyzerPipeline),
      ArangoSearchAnalyzerPipeline.marshal (ArangoSearchAnalyzerPipeline.dropEmptySlices s)
        = ArangoSearchAnalyzerPipeline.marshal s
  | { Type_ := t, Properties := p } => by
    simp only [ArangoSearchAnalyzerPipeline.dropEmptySlices,
      ArangoSearchAnalyzerPipeline.marshal, marshal_dropEmptySlices p]
theorem marshalAnalyzerField_dropEmpty :
    ∀ (x : Option AnalyzerDefinition),
      marshalAnalyzerField (dropEmptyAnalyzer x) = marshalAnalyzerField x
  | none => by simp [dropEmptyAnalyzer]
  | some d => by
    simp only [dropEmptyAnalyzer, marshalAnalyzerField, marshal_dropEmptySlices_definition d]
theorem marshal_dropEmptySlices_definition :
    ∀ (d : AnalyzerDefinition),
      AnalyzerDefinition.marshal (AnalyzerDefinition.dropEmptySlices d)
        = AnalyzerDefinition.marshal d
  | { Name := n, Type_ := t, Properties := p, Features := f } => by
    simp only [AnalyzerDefinition.dropEmptySlices, AnalyzerDefinition.marshal,
      marshal_dropEmptySlices p, omitemptySlice_dropEmptySlice]
end

/-- The pipeline `[delimiter, stem]` on the wire, and after decoding. -/
theorem delimiterStemPipeline_on_the_wire :
    (encode delimiterStemPipeline).pipelineItems.map (fun j => j.get "type")
        = [some (.str "delimiter"), some (.str "stem")] ∧
      (decode (encode delimiterStemPipeline)).map (fun q => q.stages.map fun s => s.Type_)
        = .ok ["delimiter", "stem"] :=
  ⟨rfl, rfl⟩

/-! ## Theorems about pipelines, classification keys, analyzer types and failed fetches -/

/-- C11: for every properties value, whatever its list of pipeline stages (for example
`[delimiter, stem]`): the array under the key `pipeline` of the encoding holds the encodings of
the stages in the same order (no key for a list without stages), so the stage types read from
it are those of the list, position by position; decoding the encoding succeeds and gives a
sequence of stages of the same length with the same stage type at every position; and
re-encoding the decoded value gives the same encoding again. -/
theorem pipeline_order_is_preserved (p : ArangoSearchAnalyzerProperties) :
    (encode p).pipelineItems = p.stages.map ArangoSearchAnalyzerPipeline.marshal ∧
      (encode p).pipelineItems.map (fun j => j.get "type")
        = p.stages.map (fun s => some (JSON.str s.Type_)) ∧
      (decode (encode p)).map (fun q => q.stages.length) = .ok p.stages.length ∧
      (decode (encode p)).map (fun q => q.stages.map fun s => s.Type_)
        = .ok (p.stages.map fun s => s.Type_) ∧
      (decode (encode p)).map encode = .ok (encode p) := by
  have ht := types_stages_dropEmptySlices p
  refine ⟨pipelineItems_marshal p, ?_, ?_, ?_, ?_⟩
  · rw [encode, pipelineItems_marshal, List.map_map]
    apply List.map_congr_left
    intro s _
    exact get_type_marshal_stage s
  · rw [decode_encode]
    have hl := congrArg List.length ht
    simp only [List.length_map] at hl
    simp [Except.map, hl]
  · rw [decode_encode]
    simp [Except.map, ht]
  · rw [decode_encode]
    simp [Except.map, encode, marshal_dropEmptySlices]

/-- C12, as stated, fails: the classification properties with `ModelLocation` and `TopK` set
are encoded under the keys `model_location` and `top_k` (after the ever-present `stopwords`),
not `modelLocation` and `topK`; and decoding a payload with the keys `modelLocation` and `topK`
populates neither field. -/
theorem classification_keys_are_snake_case :
    (encode classificationProperties).keys = ["stopwords", "model_location", "top_k"] ∧
      decode camelCaseClassificationPayload = .ok ArangoSearchAnalyzerProperties.zero :=
  ⟨by decide, rfl⟩

/-- C12, amended: the model location and top-K options are carried on the wire under the keys
`model_location` and `top_k`.  Encoding a properties value that has only `ModelLocation`
(non-empty), `TopK` and possibly `Threshold` set emits the keys `stopwords` (always there),
`model_location` and `top_k`, plus `threshold` when set; decoding a payload with the keys
`model_location` and `top_k` populates `ModelLocation` and `TopK`; and a payload with the keys
`modelLocation` and `topK` populates neither. -/
theorem classification_wire_keys (m : String) (k : uint64) (th : Option float64)
    (hm : m ≠ "") :
    (encode { ArangoSearchAnalyzerProperties.zero with
                ModelLocation := m, TopK := some k, Threshold := th }).keys
        = ["stopwords", "model_location", "top_k"] ++ (if th.isSome then ["threshold"] else []) ∧
      decode (.obj [("model_location", .str m), ("top_k", marshalUint64 k)])
        = .ok { ArangoSearchAnalyzerProperties.zero with ModelLocation := m, TopK := some k } ∧
      decode (.obj [("modelLocation", .str m), ("topK", marshalUint64 k)])
        = .ok ArangoSearchAnalyzerProperties.zero := by
  refine ⟨?_, ?_, ?_⟩
  · rw [encode, keys_marshal]
    cases th <;>
      simp [ArangoSearchAnalyzerProperties.populatedKeys, ArangoSearchAnalyzerProperties.zero,
        keyIf, hm]
  · simp [decode, ArangoSearchAnalyzerProperties.unmarshal,
      ArangoSearchAnalyzerProperties.unmarshalMembers, ArangoSearchAnalyzerProperties.setField,
      ArangoSearchAnalyzerProperties.zero, unmarshalString, Except.map]
  · simp [decode, ArangoSearchAnalyzerProperties.unmarshal,
      ArangoSearchAnalyzerProperties.unmarshalMembers, ArangoSearchAnalyzerProperties.setField,
      ArangoSearchAnalyzerProperties.zero, foldName_modelLocation, foldName_topK]

/-- C12 amended, at the sample classification properties. -/
theorem classification_wire_keys_witness :
    "/models/cooking.bin" ≠ "" ∧
      decode (.obj [("model_location", .str "/models/cooking.bin"),
                    ("top_k", marshalUint64 uint64.two)])
        = .ok classificationProperties :=
  ⟨by decide, (classification_wire_keys "/models/cooking.bin" uint64.two none (by decide)).2.1⟩

/-- C13: the analyzer type enumeration is the closed set of the spec: the 17
`ArangoSearchAnalyzerType` constants are pairwise distinct and their wire strings are, in
order, `identity`, `delimiter`, `stem`, `norm`, `ngram`, `text`, `aql`, `pipeline`, `stopwords`,
`geojson`, `geo_s2`, `geopoint`, `segmentation`, `collation`, `classification`,
`nearest_neighbors` and `minhash`. -/
theorem analyzer_types_are_the_closed_set :
    allArangoSearchAnalyzerTypes
        = ["identity", "delimiter", "stem", "norm", "ngram", "text", "aql", "pipeline",
           "stopwords", "geojson", "geo_s2", "geopoint", "segmentation", "collation",
           "classification", "nearest_neighbors", "minhash"] ∧
      allArangoSearchAnalyzerTypes.length = 17 ∧
      allArangoSearchAnalyzerTypes.Nodup := by
  decide

/-- C14: for both view kinds, whenever `Properties` returns a non-nil error, the properties
value beside it is the zero value, whatever the transport wrote into the response envelope; so
a properties value other than the zero value is returned only together with a nil error. -/
theorem Properties_error_returns_zero_value :
    (∀ (P : Type) [Inhabited P] (v : viewArangoSearch P),
      (v.Properties.1.2 ≠ none → v.Properties.1.1 = default) ∧
      (v.Properties.1.1 ≠ default → v.Properties.1.2 = none)) ∧
    (∀ (P : Type) [Inhabited P] (v : viewArangoSearchAlias P),
      (v.Properties.1.2 ≠ none → v.Properties.1.1 = default) ∧
      (v.Properties.1.1 ≠ default → v.Properties.1.2 = none)) := by
  constructor <;> intro P _ v
  all_goals
    have key : v.Properties.1.2 ≠ none → v.Properties.1.1 = default := by
      simp only [viewArangoSearch.Properties, viewArangoSearchAlias.Properties,
        connection.CallGet, http.StatusOK, errors.WithStack]
      generalize v.view.db.connection.answerProperties _ = res
      cases res with
      | failed output resp err => intro _; rfl
      | answered output code =>
        by_cases hc : code = 200
        · simp [hc]
        · simp [hc]
    refine ⟨key, fun h => ?_⟩
    by_contra hne
    exact h (key hne)

/-- C14 at a concrete handle: the transport answers 404 while the envelope holds the payload
`"links"`; `Properties` of the ArangoSearch view returns an error and the zero value `""`. -/
theorem Properties_error_returns_zero_value_witness :
    (viewArangoSearch.mk
        { name := "v1",
          db := exampleDatabase (.answered ⟨exampleNotFound, "links"⟩ 404)
            (.answered exampleStatus 200) }).Properties.1.2 ≠ none ∧
      (viewArangoSearch.mk
        { name := "v1",
          db := exampleDatabase (.answered ⟨exampleNotFound, "links"⟩ 404)
            (.answered exampleStatus 200) }).Properties.1.1 = "" :=
  ⟨by decide, (Properties_error_returns_zero_value.1 String _).1 (by decide)⟩

end GoDriver
